import Mathlib

/-!
# PSOLA pitch shifter: a shallow embedding of `sola.h`, `sola.cpp` and `psola.cpp`

Conventions of the embedding.

* C++ `int` values are modelled by `Int`.  Every offset, index and period of the
  engine is bounded by the ring-buffer capacity `frameSize + 3 * maxPeriod`, so the
  model agrees with the machine arithmetic whenever that capacity fits in an `int`.
* `float` and `double` values are modelled by exact rationals (`ℚ`); rounding of the
  floating-point operations is not modelled.
* `assert` is modelled as enabled: a failing assertion aborts the call and the
  state reached at that moment is reported together with the status.
* Loops whose termination is not evident from the source are given a fuel
  argument; running out of fuel is reported as `Status.outOfFuel`.
* Functions of other libraries (`std::pow`, the JUCE linear interpolator, the
  pitch estimator) and the cosine table are parameters of the model.
-/

namespace TD_pitch_shift

/-! ## Values, buffers and the ring buffer -/

/-- Audio samples (`float` in the source). -/
abbrev Sample := ℚ

/-- Conversion `static_cast<int>(double)`: truncation toward zero. -/
def truncToInt (q : ℚ) : Int :=
  if 0 ≤ q then Int.floor q else Int.ceil q

/-- Function `std::round` followed by `static_cast<int>`: nearest integer, halves away from zero. -/
def roundToInt (q : ℚ) : Int :=
  if 0 ≤ q then Int.floor (q + 1 / 2) else Int.ceil (q - 1 / 2)

/-- How a call ended. -/
inductive Status where
  | returned
  | assertFailed
  | outOfBounds
  | outOfFuel
  deriving DecidableEq, Repr

/-- Model of `juce::AudioBuffer<float>`: dimensions and the stored samples. -/
structure AudioBuffer where
  numChannels : Int
  numSamples : Int
  data : Int → Int → Sample

namespace AudioBuffer

/-- Constructor `AudioBuffer(numChannels, numSamples)` followed by `clear()`. -/
def zeros (numChannels numSamples : Int) : AudioBuffer :=
  { numChannels := numChannels, numSamples := numSamples, data := fun _ _ => 0 }

/-- The block `[start, start + n)` of channel `c` lies inside the buffer. -/
def inRange (b : AudioBuffer) (c start n : Int) : Prop :=
  0 ≤ c ∧ c < b.numChannels ∧ 0 ≤ start ∧ 0 ≤ n ∧ start + n ≤ b.numSamples

instance (b : AudioBuffer) (c start n : Int) : Decidable (b.inRange c start n) := by
  unfold inRange; infer_instance

/-- Method `copyFrom(destChannel, destStartSample, source, numSamples)`: the data after the copy. -/
def copyFrom (b : AudioBuffer) (c start : Int) (src : Int → Sample) (n : Int) : AudioBuffer :=
  { b with data := fun c' i =>
      if c' = c ∧ start ≤ i ∧ i < start + n then src (i - start) else b.data c' i }

/-- Method `clear(channel, startSample, numSamples)`. -/
def clear (b : AudioBuffer) (c start n : Int) : AudioBuffer :=
  { b with data := fun c' i =>
      if c' = c ∧ start ≤ i ∧ i < start + n then 0 else b.data c' i }

/-- Function `FloatVectorOperations::addWithMultiply(dest, src1, src2, n)` applied at
`dest = getWritePointer(c, start)`: `dest[i] += src1[i] * src2[i]`. -/
def addWithMultiply (b : AudioBuffer) (c start : Int) (src1 src2 : Int → Sample) (n : Int) :
    AudioBuffer :=
  { b with data := fun c' i =>
      if c' = c ∧ start ≤ i ∧ i < start + n then
        b.data c' i + src1 (i - start) * src2 (i - start)
      else b.data c' i }

/-- Pointer `getReadPointer(c, start)` seen as the sequence it points to. -/
def readPointer (b : AudioBuffer) (c start : Int) : Int → Sample :=
  fun j => b.data c (start + j)

end AudioBuffer

/-- Model of `std::vector<float>`. -/
structure FloatVector where
  size : Int
  data : Int → Sample

/-- Model of `Sola::CircularBuffer`. -/
structure CircularBuffer where
  head : Int
  numSamples : Int
  buffer : AudioBuffer
  lastMarkOffset : Int
  lastPeriod : Int

namespace CircularBuffer

/-- Method `OffsetToIdx`; `none` when the assertion `0 <= offset && offset <= numSamples` fails. -/
def OffsetToIdx (b : CircularBuffer) (offset : Int) : Option Int :=
  if 0 ≤ offset ∧ offset ≤ b.numSamples then
    let rawIdx := b.head - offset
    some (if rawIdx ≥ 0 then rawIdx else rawIdx + b.numSamples)
  else none

/-- The sample of channel `c` stored at distance `offset` behind the head
(zero when the offset is rejected). -/
def sampleAt (b : CircularBuffer) (c offset : Int) : Sample :=
  match b.OffsetToIdx offset with
  | some idx => b.buffer.data c idx
  | none => 0

end CircularBuffer

/-! ## The engine (`sola.h`, `sola.cpp`) -/

/-- Code of other libraries used by the engine, taken as parameters:
`pow2 x` stands for `std::pow(2.0, x)`, `kHanningWindow` for the table filled by
`GetHanningWindow<2048>()` (it needs the cosine), and `interpolate ratio input numOut i`
for the value `output[i]` written by
`juce::Interpolators::Linear::process(ratio, input, output, numOut)` after `reset()`. -/
structure Library where
  pow2 : ℚ → ℚ
  kHanningWindow : Int → Sample
  interpolate : ℚ → (Int → Sample) → Int → Int → Sample

/-- Lines 145-146: `stretchRatio = std::pow(2.0, -semitones / 12.0)` and
`static_cast<int>(currentFramePeriod * stretchRatio)`.  The quotient and the product are
taken exactly here, while the source rounds each of them to a `double`; the two agree
wherever the exact values are `double`s, as at semitones = 12, 0 and -12 with an exact
power, and the rounded product obeys the same bounds 0 and 2 * currentFramePeriod. -/
def stretchedPeriod (L : Library) (currentFramePeriod : Int) (semitones : ℚ) : Int :=
  let stretchRatio : ℚ := L.pow2 (-semitones / 12)
  truncToInt ((currentFramePeriod : ℚ) * stretchRatio)

/-- Constant `kWindowLen`. -/
def kWindowLen : Int := 2048

/-- Model of `Sola::Region`. -/
structure Region where
  startOffset : Int
  endOffset : Int

/-- Model of the class `Sola` (the interpolator object is reset before each use and
carries no state across uses). -/
structure Sola where
  mAnalysis : CircularBuffer
  mSynthesis : CircularBuffer
  mSearchRange : Region
  mReadyOutRange : Region
  mPrevFrameEndOffset : Int
  mWindowFunction : FloatVector
  mCurrentWindowSize : Int
  mFrameSize : Int
  mNumChannels : Int
  mMaxPeriod : Int

/-- The locals of `Sola::Process` that live across iterations of the mark-advance loop,
together with the engine. -/
structure LoopState where
  sola : Sola
  analysisPeriod : Int
  synthesisPeriod : Int
  nextAnalysisOffset : Int
  nextSynthesisOffset : Int

/-- The locals of the inner overlap-add loop. -/
structure GrainCursor where
  remainingSamples : Int
  windowOffset : Int
  synthesisIdx : Int
  analysisIdx : Int

/-- What a call of `Process` leaves behind: how it ended, the engine and the frame of the caller. -/
structure ProcessResult where
  status : Status
  sola : Sola
  frame : AudioBuffer

/-- A loop `for (int c = 0; c < n; ++c) body(c)` over a piece of state; it stops at the
first pass that does not end with `Status.returned`. -/
def forChannels {α : Type} (body : Int → α → Status × α) : Nat → α → Status × α
  | 0, a => (Status.returned, a)
  | n + 1, a =>
    match forChannels body n a with
    | (Status.returned, a') => body n a'
    | r => r

namespace Sola

/-- Constructor `Sola::Sola(numChannels, frameSize, maxPeriod)`; `none` when its assertion fails.
The casts `static_cast<int>(kMaxStretchRatio)` and `static_cast<int>(kMaxStretchRatio + 1.0)`
are written as their values 2 and 3. -/
def new (numChannels frameSize maxPeriod : Int) : Option Sola :=
  if numChannels > 0 ∧ frameSize > 0 ∧ maxPeriod > 0 then
    some
      { mNumChannels := numChannels
        mFrameSize := frameSize
        mMaxPeriod := maxPeriod
        mAnalysis :=
          { head := 0
            numSamples := frameSize + 3 * maxPeriod
            buffer := AudioBuffer.zeros numChannels (frameSize + 3 * maxPeriod)
            lastMarkOffset := 2 * maxPeriod
            lastPeriod := maxPeriod }
        mSynthesis :=
          { head := 0
            numSamples := frameSize + 2 * maxPeriod
            buffer := AudioBuffer.zeros numChannels (frameSize + 2 * maxPeriod)
            lastMarkOffset := 2 * maxPeriod
            lastPeriod := maxPeriod }
        mSearchRange := { startOffset := maxPeriod + frameSize, endOffset := maxPeriod }
        mReadyOutRange :=
          { startOffset := 2 * maxPeriod + frameSize, endOffset := 2 * maxPeriod }
        mPrevFrameEndOffset := frameSize
        mWindowFunction := { size := 2 * maxPeriod, data := fun _ => 0 }
        mCurrentWindowSize := 0 }
  else none

/-- The four assertions at the head of `Sola::Process` (lines 51-54). -/
def preconditions (s : Sola) (frame : AudioBuffer) (currentFramePeriod : Int)
    (semitones : ℚ) : Prop :=
  frame.numChannels = s.mNumChannels ∧ frame.numSamples = s.mFrameSize ∧
  (-12 ≤ semitones ∧ semitones ≤ 12) ∧
  (0 < currentFramePeriod ∧ currentFramePeriod ≤ s.mMaxPeriod)

instance (s : Sola) (frame : AudioBuffer) (currentFramePeriod : Int) (semitones : ℚ) :
    Decidable (s.preconditions frame currentFramePeriod semitones) := by
  unfold preconditions; infer_instance

/-- One pass of the loop at lines 57-67: push channel `c` of the frame into the analysis buffer. -/
def pushChannel (s : Sola) (frame : AudioBuffer) (c : Int) (buf : AudioBuffer) :
    Status × AudioBuffer :=
  let samplesUntilWrap := s.mAnalysis.numSamples - s.mAnalysis.head
  if samplesUntilWrap ≥ s.mFrameSize then
    if buf.inRange c s.mAnalysis.head s.mFrameSize ∧ frame.inRange c 0 s.mFrameSize then
      (Status.returned,
        buf.copyFrom c s.mAnalysis.head (frame.readPointer c 0) s.mFrameSize)
    else (Status.outOfBounds, buf)
  else
    let partOneSize := samplesUntilWrap
    let partTwoSize := s.mFrameSize - partOneSize
    if buf.inRange c s.mAnalysis.head partOneSize ∧ buf.inRange c 0 partTwoSize ∧
        frame.inRange c 0 partOneSize ∧ frame.inRange c partOneSize partTwoSize then
      (Status.returned,
        (buf.copyFrom c s.mAnalysis.head (frame.readPointer c 0) partOneSize).copyFrom c 0
          (frame.readPointer c partOneSize) partTwoSize)
    else (Status.outOfBounds, buf)

/-- Lines 56-74: push the frame, advance both heads, move both marks away by one frame. -/
def ingest (s : Sola) (frame : AudioBuffer) : Status × Sola :=
  match forChannels (s.pushChannel frame) s.mNumChannels.toNat s.mAnalysis.buffer with
  | (Status.returned, buf) =>
    (Status.returned,
      { s with
        mAnalysis :=
          { s.mAnalysis with
            buffer := buf
            head := (s.mAnalysis.head + s.mFrameSize).tmod s.mAnalysis.numSamples
            lastMarkOffset := s.mAnalysis.lastMarkOffset + s.mFrameSize }
        mSynthesis :=
          { s.mSynthesis with
            head := (s.mSynthesis.head + s.mFrameSize).tmod s.mSynthesis.numSamples
            lastMarkOffset := s.mSynthesis.lastMarkOffset + s.mFrameSize } })
  | (st, buf) => (st, { s with mAnalysis := { s.mAnalysis with buffer := buf } })

/-- Lines 76-82: the locals of the loop and the two assertions on the marks. -/
def loopInit (s : Sola) : Status × LoopState :=
  let ls : LoopState :=
    { sola := s
      analysisPeriod := s.mAnalysis.lastPeriod
      synthesisPeriod := s.mSynthesis.lastPeriod
      nextAnalysisOffset := s.mAnalysis.lastMarkOffset - s.mAnalysis.lastPeriod
      nextSynthesisOffset := s.mSynthesis.lastMarkOffset - s.mSynthesis.lastPeriod }
  if s.mAnalysis.lastMarkOffset > s.mSearchRange.startOffset ∧
      s.mSynthesis.lastMarkOffset > s.mSearchRange.startOffset then
    (Status.returned, ls)
  else (Status.assertFailed, ls)

/-- The condition of the `while` at line 84. -/
def loopCond (ls : LoopState) : Prop :=
  ls.nextAnalysisOffset > ls.sola.mSearchRange.endOffset ∨
  ls.nextSynthesisOffset > ls.sola.mSearchRange.endOffset

instance (ls : LoopState) : Decidable (loopCond ls) := by
  unfold loopCond; infer_instance

/-- Lines 88-96: the analysis step. -/
def analysisStep (currentFramePeriod : Int) (ls : LoopState) : LoopState :=
  let s := ls.sola
  let s1 : Sola :=
    { s with
      mAnalysis :=
        { s.mAnalysis with
          lastMarkOffset := ls.nextAnalysisOffset
          lastPeriod := ls.analysisPeriod } }
  let analysisPeriod :=
    if s.mPrevFrameEndOffset ≥ ls.nextAnalysisOffset then currentFramePeriod
    else ls.analysisPeriod
  { ls with
    sola := s1
    analysisPeriod := analysisPeriod
    nextAnalysisOffset := ls.nextAnalysisOffset - analysisPeriod }

/-- Lines 103-109: regenerate the cached window when its length differs from the grain. -/
def updateWindow (L : Library) (s : Sola) (grainSize : Int) : Status × Sola :=
  if s.mCurrentWindowSize ≠ grainSize then
    let stretchRatio : ℚ := (kWindowLen : ℚ) / (grainSize : ℚ)
    let s1 : Sola :=
      { s with
        mCurrentWindowSize := grainSize
        mWindowFunction :=
          { s.mWindowFunction with
            data := fun i =>
              if 0 ≤ i ∧ i < grainSize then
                L.interpolate stretchRatio L.kHanningWindow grainSize i
              else s.mWindowFunction.data i } }
    if 0 ≤ grainSize ∧ grainSize ≤ s.mWindowFunction.size then (Status.returned, s1)
    else (Status.outOfBounds, s1)
  else (Status.returned, s)

/-- Lines 122-139: the inner loop that adds the windowed grain of channel `c` into the
synthesis buffer `buf`, block by block up to the next wrap of either ring buffer. -/
def overlapAddChannel (s : Sola) (c : Int) : Nat → GrainCursor → AudioBuffer → Status × AudioBuffer
  | fuel, g, buf =>
    if g.remainingSamples > 0 then
      match fuel with
      | 0 => (Status.outOfFuel, buf)
      | fuel + 1 =>
        let synthesisSamplesUntilWrap := s.mSynthesis.numSamples - g.synthesisIdx
        let analysisSamplesUntilWrap := s.mAnalysis.numSamples - g.analysisIdx
        let samplesToProcess :=
          min g.remainingSamples (min synthesisSamplesUntilWrap analysisSamplesUntilWrap)
        if buf.inRange c g.synthesisIdx samplesToProcess ∧
            s.mAnalysis.buffer.inRange c g.analysisIdx samplesToProcess ∧
            0 ≤ g.windowOffset ∧ g.windowOffset + samplesToProcess ≤ s.mWindowFunction.size then
          overlapAddChannel s c fuel
            { remainingSamples := g.remainingSamples - samplesToProcess
              windowOffset := g.windowOffset + samplesToProcess
              synthesisIdx := (g.synthesisIdx + samplesToProcess).tmod s.mSynthesis.numSamples
              analysisIdx := (g.analysisIdx + samplesToProcess).tmod s.mAnalysis.numSamples }
            (buf.addWithMultiply c g.synthesisIdx
              (fun j => s.mWindowFunction.data (g.windowOffset + j))
              (s.mAnalysis.buffer.readPointer c g.analysisIdx) samplesToProcess)
        else (Status.outOfBounds, buf)
    else (Status.returned, buf)

/-- Lines 98-149: the synthesis step.  The inner loop of a channel is given as much fuel
as the grain has samples: a block that makes no progress would repeat forever. -/
def synthesisStep (L : Library) (currentFramePeriod : Int) (semitones : ℚ) (ls : LoopState) :
    Status × LoopState :=
  let grainSize := 2 * ls.sola.mAnalysis.lastPeriod
  let grainSizeHalf := ls.sola.mAnalysis.lastPeriod
  match updateWindow L ls.sola grainSize with
  | (Status.returned, s1) =>
    match s1.mAnalysis.OffsetToIdx (s1.mAnalysis.lastMarkOffset + grainSizeHalf) with
    | none => (Status.assertFailed, { ls with sola := s1 })
    | some analysisStart =>
      if ¬ (s1.mReadyOutRange.startOffset ≥ ls.nextSynthesisOffset + grainSizeHalf) then
        (Status.assertFailed, { ls with sola := s1 })
      else if ¬ (ls.nextSynthesisOffset - grainSizeHalf > 0) then
        (Status.assertFailed, { ls with sola := s1 })
      else
        match s1.mSynthesis.OffsetToIdx (ls.nextSynthesisOffset + grainSizeHalf) with
        | none => (Status.assertFailed, { ls with sola := s1 })
        | some synthesisStart =>
          match forChannels
              (fun c buf => overlapAddChannel s1 c grainSize.toNat
                { remainingSamples := grainSize, windowOffset := 0,
                  synthesisIdx := synthesisStart, analysisIdx := analysisStart } buf)
              s1.mNumChannels.toNat s1.mSynthesis.buffer with
          | (Status.returned, buf) =>
            let synthesisPeriod :=
              if s1.mPrevFrameEndOffset ≥ ls.nextSynthesisOffset then
                stretchedPeriod L currentFramePeriod semitones
              else ls.synthesisPeriod
            (Status.returned,
              { ls with
                sola :=
                  { s1 with
                    mSynthesis :=
                      { s1.mSynthesis with
                        buffer := buf
                        lastMarkOffset := ls.nextSynthesisOffset } }
                synthesisPeriod := synthesisPeriod
                nextSynthesisOffset := ls.nextSynthesisOffset - synthesisPeriod })
          | (st, buf) =>
            (st, { ls with sola := { s1 with mSynthesis := { s1.mSynthesis with buffer := buf } } })
  | (st, s1) => (st, { ls with sola := s1 })

/-- The body of the `while` at lines 85-149. -/
def loopBody (L : Library) (currentFramePeriod : Int) (semitones : ℚ) (ls : LoopState) :
    Status × LoopState :=
  if ¬ (ls.sola.mSearchRange.startOffset ≥ ls.nextAnalysisOffset ∧
        ls.sola.mSearchRange.startOffset ≥ ls.nextSynthesisOffset) then
    (Status.assertFailed, ls)
  else if ls.nextAnalysisOffset ≥ ls.nextSynthesisOffset then
    (Status.returned, analysisStep currentFramePeriod ls)
  else synthesisStep L currentFramePeriod semitones ls

/-- The mark-advance loop (lines 84-150), run for at most `fuel` iterations. -/
def markAdvanceLoop (L : Library) (currentFramePeriod : Int) (semitones : ℚ) :
    Nat → LoopState → Status × LoopState
  | fuel, ls =>
    if loopCond ls then
      match fuel with
      | 0 => (Status.outOfFuel, ls)
      | fuel + 1 =>
        match loopBody L currentFramePeriod semitones ls with
        | (Status.returned, ls') => markAdvanceLoop L currentFramePeriod semitones fuel ls'
        | r => r
    else (Status.returned, ls)

/-- Lines 151-154: store the working periods and check the two exit assertions. -/
def finishLoop (ls : LoopState) : Status × Sola :=
  let s := ls.sola
  let s1 : Sola :=
    { s with
      mAnalysis := { s.mAnalysis with lastPeriod := ls.analysisPeriod }
      mSynthesis := { s.mSynthesis with lastPeriod := ls.synthesisPeriod } }
  if (2 * s1.mMaxPeriod ≥ s1.mAnalysis.lastMarkOffset ∧
        s1.mAnalysis.lastMarkOffset > s1.mMaxPeriod) ∧
      (2 * s1.mMaxPeriod + s1.mMaxPeriod ≥ s1.mSynthesis.lastMarkOffset ∧
        s1.mSynthesis.lastMarkOffset > s1.mMaxPeriod) then
    (Status.returned, s1)
  else (Status.assertFailed, s1)

/-- One pass of the loop at lines 158-172 on the pair (frame, synthesis buffer). -/
def emitChannel (s : Sola) (readStartIdx : Int) (c : Int) (p : AudioBuffer × AudioBuffer) :
    Status × (AudioBuffer × AudioBuffer) :=
  let frame := p.1
  let synth := p.2
  let samplesUntilWrap := s.mSynthesis.numSamples - readStartIdx
  if samplesUntilWrap ≥ s.mFrameSize then
    if frame.inRange c 0 s.mFrameSize ∧ synth.inRange c readStartIdx s.mFrameSize then
      (Status.returned,
        (frame.copyFrom c 0 (synth.readPointer c readStartIdx) s.mFrameSize,
         synth.clear c readStartIdx s.mFrameSize))
    else (Status.outOfBounds, p)
  else
    let partOneSize := samplesUntilWrap
    let partTwoSize := s.mFrameSize - partOneSize
    if frame.inRange c 0 partOneSize ∧ frame.inRange c partOneSize partTwoSize ∧
        synth.inRange c readStartIdx partOneSize ∧ synth.inRange c 0 partTwoSize then
      (Status.returned,
        ((frame.copyFrom c 0 (synth.readPointer c readStartIdx) partOneSize).copyFrom c
            partOneSize (synth.readPointer c 0) partTwoSize,
         (synth.clear c readStartIdx partOneSize).clear c 0 partTwoSize))
    else (Status.outOfBounds, p)

/-- Lines 156-172: copy the ready region out into the frame and clear it. -/
def emit (s : Sola) (frame : AudioBuffer) : ProcessResult :=
  match s.mSynthesis.OffsetToIdx s.mReadyOutRange.startOffset with
  | none => { status := Status.assertFailed, sola := s, frame := frame }
  | some readStartIdx =>
    match forChannels (s.emitChannel readStartIdx) s.mNumChannels.toNat
        (frame, s.mSynthesis.buffer) with
    | (st, (frame', synth')) =>
      { status := st
        sola := { s with mSynthesis := { s.mSynthesis with buffer := synth' } }
        frame := frame' }

/-- The engine after ingest and the mark-advance loop (lines 56-154), before the emit. -/
def advance (L : Library) (fuel : Nat) (s : Sola) (frame : AudioBuffer)
    (currentFramePeriod : Int) (semitones : ℚ) : Status × Sola :=
  match s.ingest frame with
  | (Status.returned, s1) =>
    match loopInit s1 with
    | (Status.returned, ls) =>
      match markAdvanceLoop L currentFramePeriod semitones fuel ls with
      | (Status.returned, ls') => finishLoop ls'
      | (st, ls') => (st, ls'.sola)
    | (st, ls) => (st, ls.sola)
  | r => r

/-- Method `Sola::Process(frame, currentFramePeriod, semitones)`. -/
def Process (L : Library) (fuel : Nat) (s : Sola) (frame : AudioBuffer)
    (currentFramePeriod : Int) (semitones : ℚ) : ProcessResult :=
  if ¬ s.preconditions frame currentFramePeriod semitones then
    { status := Status.assertFailed, sola := s, frame := frame }
  else
    match advance L fuel s frame currentFramePeriod semitones with
    | (Status.returned, s1) => s1.emit frame
    | (st, s1) => { status := st, sola := s1, frame := frame }

end Sola

/-! ## The orchestrator (`psola.h`, `psola.cpp`) -/

namespace FloatVector

/-- Function `std::copy_backward(first, last, dLast)` on positions of one vector: the element
at `last - n` goes to `dLast - n`, for `n = 1 .. last - first`. -/
def copyBackward (v : FloatVector) (first last dLast : Int) : FloatVector :=
  { v with data := fun i =>
      if dLast - (last - first) ≤ i ∧ i < dLast then v.data (i - dLast + last) else v.data i }

/-- Function `std::fill(first, last, value)` on positions of one vector. -/
def fill (v : FloatVector) (first last : Int) (value : Sample) : FloatVector :=
  { v with data := fun i => if first ≤ i ∧ i < last then value else v.data i }

/-- Function `FloatVectorOperations::addWithMultiply(dest, src, multiplier, n)` applied at
`dest = data()`: `dest[i] += src[i] * multiplier`. -/
def addWithMultiply (v : FloatVector) (src : Int → Sample) (multiplier : Sample) (n : Int) :
    FloatVector :=
  { v with data := fun i => if 0 ≤ i ∧ i < n then v.data i + src i * multiplier else v.data i }

end FloatVector

/-- Result of the pitch estimator (`pyinResult.freq`, `pyinResult.isVoiced`). -/
structure PyinResult where
  freq : ℚ
  isVoiced : Bool

/-- The pitch estimator of the library `pyin.h`, taken as a parameter: `process` maps the
estimator state and the window handed to it to its result and its next state, and
`getDefaultFrameSize sampleRate minFreq` is the static function of that name. -/
structure PyinLibrary (π : Type) where
  process : π → (Int → Sample) → PyinResult × π
  getDefaultFrameSize : ℚ → ℚ → Int

/-- Model of the class `Psola`, for an estimator with states of type `π`. -/
structure Psola (π : Type) where
  mSampleRate : ℚ
  mNumChannels : Int
  mFrameSize : Int
  mPyinFrameSize : Int
  mNumFrameSplit : Int
  mSola : Sola
  mPyin : π
  mPyinBuffer : FloatVector

/-- What a call of `Psola::Process` leaves behind. -/
structure PsolaResult (π : Type) where
  status : Status
  psola : Psola π
  frame : AudioBuffer

/-- Constant `kPyinUpdatePeriod` (0.05 seconds). -/
def kPyinUpdatePeriod : ℚ := 1 / 20

namespace Psola

/-- The loop of `Psola::getFrameSize` (line 56), run for at most `fuel` iterations from the
value `numFrameSplit`; it yields the final `numFrameSplit`. -/
def getFrameSizeLoop (sampleRate : ℚ) (pyinFrameSize : Int) : Nat → Int → Option Int
  | fuel, numFrameSplit =>
    if ((pyinFrameSize.tdiv numFrameSplit : Int) : ℚ) > kPyinUpdatePeriod * sampleRate then
      match fuel with
      | 0 => none
      | fuel + 1 => getFrameSizeLoop sampleRate pyinFrameSize fuel (numFrameSplit * 2)
    else some numFrameSplit

/-- Static function `Psola::getFrameSize(sampleRate, numChannels, minFreq, maxFreq)`
(lines 48-59). -/
def getFrameSize {π : Type} (P : PyinLibrary π) (fuel : Nat) (sampleRate : ℚ)
    (_numChannels : Int) (minFreq _maxFreq : ℚ) : Status × Int :=
  let pyinFrameSize := P.getDefaultFrameSize sampleRate minFreq
  if ¬ (pyinFrameSize > 0) then (Status.assertFailed, 0)
  else if ¬ (Int.land pyinFrameSize (pyinFrameSize - 1) = 0) then (Status.assertFailed, 0)
  else
    match getFrameSizeLoop sampleRate pyinFrameSize fuel 1 with
    | none => (Status.outOfFuel, 0)
    | some numFrameSplit => (Status.returned, pyinFrameSize.tdiv numFrameSplit)

/-- One pass of the loop at lines 72-75: add channel `c` of the frame, scaled by
`1 / numChannels`, onto the head of the rolling buffer. -/
def mixChannel {π : Type} (st : Psola π) (frame : AudioBuffer) (c : Int) (v : FloatVector) :
    Status × FloatVector :=
  let gain : Sample := 1 / (st.mNumChannels : ℚ)
  if frame.inRange c 0 st.mFrameSize ∧ st.mFrameSize ≤ v.size then
    (Status.returned, v.addWithMultiply (frame.readPointer c 0) gain st.mFrameSize)
  else (Status.outOfBounds, v)

/-- Lines 69-75: the update of the rolling mono buffer `mPyinBuffer`. -/
def updatePyinBuffer {π : Type} (st : Psola π) (frame : AudioBuffer) : Status × FloatVector :=
  let v := st.mPyinBuffer
  if ¬ (0 ≤ st.mFrameSize ∧ st.mFrameSize ≤ v.size) then (Status.outOfBounds, v)
  else
    let v1 := v.copyBackward 0 (v.size - st.mFrameSize) v.size
    let v2 := v1.fill 0 (0 + st.mFrameSize) 0
    forChannels (st.mixChannel frame) st.mNumChannels.toNat v2

/-- Lines 66-77: the entry assertions, the update of the rolling buffer and the call of the
estimator on it. -/
def analyse {π : Type} (P : PyinLibrary π) (st : Psola π) (frame : AudioBuffer) :
    Status × Psola π × PyinResult :=
  if ¬ (frame.numChannels = st.mNumChannels) then
    (Status.assertFailed, st, { freq := 0, isVoiced := false })
  else if ¬ (frame.numSamples = st.mFrameSize) then
    (Status.assertFailed, st, { freq := 0, isVoiced := false })
  else
    match st.updatePyinBuffer frame with
    | (Status.returned, v) =>
      let r := P.process st.mPyin v.data
      (Status.returned, { st with mPyinBuffer := v, mPyin := r.2 }, r.1)
    | (status, v) => (status, { st with mPyinBuffer := v }, { freq := 0, isVoiced := false })

/-- Method `Psola::Process(frame, semitones)` (lines 65-84).  A zero frequency makes the
quotient `mSampleRate / freq` zero in the model. -/
def Process {π : Type} (P : PyinLibrary π) (L : Library) (fuel : Nat) (st : Psola π)
    (frame : AudioBuffer) (semitones : ℚ) : PsolaResult π :=
  match analyse P st frame with
  | (Status.returned, st1, pyinResult) =>
    let period := roundToInt (st1.mSampleRate / pyinResult.freq)
    let r :=
      if pyinResult.isVoiced then Sola.Process L fuel st1.mSola frame period semitones
      else Sola.Process L fuel st1.mSola frame period 0
    { status := r.status, psola := { st1 with mSola := r.sola }, frame := r.frame }
  | (status, st1, _) => { status := status, psola := st1, frame := frame }

end Psola

/-! ## Proof devices: closed forms of the buffer operations, invariants, the steering
locals of the loop seen on their own, and small concrete inputs -/

/-- The data of the analysis buffer after channels `0 .. k-1` of the frame were pushed at
`head`, written out in closed form. -/
def pushedData (head cap F : Int) (frame old : AudioBuffer) (k : Int) : Int → Int → Sample :=
  fun c i =>
    if (0 ≤ c ∧ c < k) ∧ (0 ≤ i ∧ i < cap) ∧ (i - head) % cap < F then
      frame.data c ((i - head) % cap)
    else old.data c i

/-- Shape and configuration facts of an engine that no call changes. -/
structure Sola.Shaped (s : Sola) : Prop where
  numChannels_pos : 0 < s.mNumChannels
  frameSize_pos : 0 < s.mFrameSize
  maxPeriod_pos : 0 < s.mMaxPeriod
  analysis_cap : s.mAnalysis.numSamples = s.mFrameSize + 3 * s.mMaxPeriod
  synthesis_cap : s.mSynthesis.numSamples = s.mFrameSize + 2 * s.mMaxPeriod
  analysis_channels : s.mAnalysis.buffer.numChannels = s.mNumChannels
  analysis_samples : s.mAnalysis.buffer.numSamples = s.mAnalysis.numSamples
  synthesis_channels : s.mSynthesis.buffer.numChannels = s.mNumChannels
  synthesis_samples : s.mSynthesis.buffer.numSamples = s.mSynthesis.numSamples
  analysis_head : 0 ≤ s.mAnalysis.head ∧ s.mAnalysis.head < s.mAnalysis.numSamples
  synthesis_head : 0 ≤ s.mSynthesis.head ∧ s.mSynthesis.head < s.mSynthesis.numSamples
  searchRange_start : s.mSearchRange.startOffset = s.mMaxPeriod + s.mFrameSize
  searchRange_end : s.mSearchRange.endOffset = s.mMaxPeriod
  readyOut_start : s.mReadyOutRange.startOffset = 2 * s.mMaxPeriod + s.mFrameSize
  readyOut_end : s.mReadyOutRange.endOffset = 2 * s.mMaxPeriod
  prevFrameEnd : s.mPrevFrameEndOffset = s.mFrameSize
  window_size : s.mWindowFunction.size = 2 * s.mMaxPeriod

/-- Bounds on the two pitch-mark cursors between calls. -/
structure Sola.CursorsOk (s : Sola) : Prop where
  aMark_lo : s.mMaxPeriod < s.mAnalysis.lastMarkOffset
  aMark_hi : s.mAnalysis.lastMarkOffset ≤ 2 * s.mMaxPeriod
  aPeriod_pos : 0 < s.mAnalysis.lastPeriod
  aPeriod_le : s.mAnalysis.lastPeriod ≤ s.mMaxPeriod
  aNext : s.mAnalysis.lastMarkOffset - s.mAnalysis.lastPeriod ≤ s.mMaxPeriod
  sMark_lo : s.mMaxPeriod < s.mSynthesis.lastMarkOffset
  sPeriod_nonneg : 0 ≤ s.mSynthesis.lastPeriod
  sPeriod_le : s.mSynthesis.lastPeriod ≤ 2 * s.mMaxPeriod
  sNext : s.mSynthesis.lastMarkOffset - s.mSynthesis.lastPeriod ≤ s.mMaxPeriod

/-- The engine right after a successful ingest of `frame`, written out in closed form. -/
def Sola.ingested (s : Sola) (frame : AudioBuffer) : Sola :=
  { s with
    mAnalysis :=
      { s.mAnalysis with
        buffer :=
          { s.mAnalysis.buffer with
            data := pushedData s.mAnalysis.head s.mAnalysis.numSamples s.mFrameSize frame
              s.mAnalysis.buffer s.mNumChannels }
        head := (s.mAnalysis.head + s.mFrameSize) % s.mAnalysis.numSamples
        lastMarkOffset := s.mAnalysis.lastMarkOffset + s.mFrameSize }
    mSynthesis :=
      { s.mSynthesis with
        head := (s.mSynthesis.head + s.mFrameSize) % s.mSynthesis.numSamples
        lastMarkOffset := s.mSynthesis.lastMarkOffset + s.mFrameSize } }

/-- The part of an engine that `Sola.Shaped` talks about. -/
def Sola.config (s : Sola) : List Int :=
  [s.mNumChannels, s.mFrameSize, s.mMaxPeriod, s.mAnalysis.numSamples, s.mSynthesis.numSamples,
   s.mAnalysis.buffer.numChannels, s.mAnalysis.buffer.numSamples,
   s.mSynthesis.buffer.numChannels, s.mSynthesis.buffer.numSamples,
   s.mAnalysis.head, s.mSynthesis.head,
   s.mSearchRange.startOffset, s.mSearchRange.endOffset,
   s.mReadyOutRange.startOffset, s.mReadyOutRange.endOffset,
   s.mPrevFrameEndOffset, s.mWindowFunction.size]

/-- What the model asks of `std::pow(2.0, x)` on the exponents `-semitones / 12` of a valid
call: the value lies between 0 and 2. -/
def Library.Pow2Bounded (L : Library) : Prop :=
  ∀ x : ℚ, -1 ≤ x → x ≤ 1 → 0 ≤ L.pow2 x ∧ L.pow2 x ≤ 2

/-- Invariant of the mark-advance loop. -/
structure LoopInv (ls : LoopState) : Prop where
  shaped : ls.sola.Shaped
  aMark_lo : ls.sola.mMaxPeriod < ls.sola.mAnalysis.lastMarkOffset
  aMark_hi : ls.sola.mAnalysis.lastMarkOffset ≤ 2 * ls.sola.mMaxPeriod + ls.sola.mFrameSize
  aPeriod_pos : 0 < ls.sola.mAnalysis.lastPeriod
  aPeriod_le : ls.sola.mAnalysis.lastPeriod ≤ ls.sola.mMaxPeriod
  anPeriod_pos : 0 < ls.analysisPeriod
  anPeriod_le : ls.analysisPeriod ≤ ls.sola.mMaxPeriod
  nextA_eq : ls.nextAnalysisOffset = ls.sola.mAnalysis.lastMarkOffset - ls.analysisPeriod
  nextA_le : ls.nextAnalysisOffset ≤ ls.sola.mMaxPeriod + ls.sola.mFrameSize
  sMark_lo : ls.sola.mMaxPeriod < ls.sola.mSynthesis.lastMarkOffset
  syPeriod_nonneg : 0 ≤ ls.synthesisPeriod
  syPeriod_le : ls.synthesisPeriod ≤ 2 * ls.sola.mMaxPeriod
  nextS_eq : ls.nextSynthesisOffset = ls.sola.mSynthesis.lastMarkOffset - ls.synthesisPeriod
  nextS_le : ls.nextSynthesisOffset ≤ ls.sola.mMaxPeriod + ls.sola.mFrameSize

/-- The frame after channels `0 .. k-1` were emitted from the synthesis data `old`
starting at index `r`, in closed form. -/
def emittedData (r cap F : Int) (frame old : AudioBuffer) (k : Int) : Int → Int → Sample :=
  fun c i =>
    if (0 ≤ c ∧ c < k) ∧ (0 ≤ i ∧ i < F) then old.data c ((r + i) % cap)
    else frame.data c i

/-- The synthesis data after the emitted region of channels `0 .. k-1` was cleared, in closed form. -/
def clearedData (r cap F : Int) (old : AudioBuffer) (k : Int) : Int → Int → Sample :=
  fun c i =>
    if (0 ≤ c ∧ c < k) ∧ (0 ≤ i ∧ i < cap) ∧ (i - r) % cap < F then 0
    else old.data c i

/-- The engine and the frame right after a successful emit, in closed form. -/
def Sola.emitted (s : Sola) (frame : AudioBuffer) : ProcessResult :=
  { status := Status.returned
    sola :=
      { s with
        mSynthesis :=
          { s.mSynthesis with
            buffer :=
              { s.mSynthesis.buffer with
                data := clearedData s.mSynthesis.head s.mSynthesis.numSamples s.mFrameSize
                  s.mSynthesis.buffer s.mNumChannels } } }
    frame :=
      { frame with
        data := emittedData s.mSynthesis.head s.mSynthesis.numSamples s.mFrameSize frame
          s.mSynthesis.buffer s.mNumChannels } }

/-- The bounds a synthesis step relies on, read off the loop state at its start:
the offsets handed to `OffsetToIdx`, the two assertions at lines 112-113, the span of
the grain in both ring buffers and the length of the grain against the window vector. -/
structure GrainBounds (ls : LoopState) : Prop where
  readStart_lo : 0 ≤ ls.sola.mAnalysis.lastMarkOffset + ls.sola.mAnalysis.lastPeriod
  readStart_hi : ls.sola.mAnalysis.lastMarkOffset + ls.sola.mAnalysis.lastPeriod
    ≤ ls.sola.mAnalysis.numSamples
  readEnd_lo : 1 ≤ ls.sola.mAnalysis.lastMarkOffset - ls.sola.mAnalysis.lastPeriod + 1
  writeStart_lo : 0 ≤ ls.nextSynthesisOffset + ls.sola.mAnalysis.lastPeriod
  writeStart_hi : ls.nextSynthesisOffset + ls.sola.mAnalysis.lastPeriod
    ≤ ls.sola.mSynthesis.numSamples
  writeEnd_lo : 1 ≤ ls.nextSynthesisOffset - ls.sola.mAnalysis.lastPeriod + 1
  assert112 : ls.sola.mReadyOutRange.startOffset
    ≥ ls.nextSynthesisOffset + ls.sola.mAnalysis.lastPeriod
  assert113 : ls.nextSynthesisOffset - ls.sola.mAnalysis.lastPeriod > 0
  grain_nonneg : 0 ≤ 2 * ls.sola.mAnalysis.lastPeriod
  grain_le_window : 2 * ls.sola.mAnalysis.lastPeriod ≤ ls.sola.mWindowFunction.size
  window_size : ls.sola.mWindowFunction.size = 2 * ls.sola.mMaxPeriod

/-- The loop state after exactly `n` iterations of the mark-advance loop, when the loop
runs that long without failing. -/
def Sola.loopIter (L : Library) (currentFramePeriod : Int) (semitones : ℚ) :
    Nat → LoopState → Option LoopState
  | 0, ls => some ls
  | n + 1, ls =>
    if Sola.loopCond ls then
      match Sola.loopBody L currentFramePeriod semitones ls with
      | (Status.returned, ls') => Sola.loopIter L currentFramePeriod semitones n ls'
      | _ => none
    else none

/-- Engine states reachable from construction by calls of `Process` that satisfy the
preconditions and return. -/
inductive Sola.Reachable (L : Library) : Sola → Prop where
  | init (numChannels frameSize maxPeriod : Int) (s : Sola)
      (h : Sola.new numChannels frameSize maxPeriod = some s) : Sola.Reachable L s
  | step (s : Sola) (fuel : Nat) (frame : AudioBuffer) (currentFramePeriod : Int)
      (semitones : ℚ) (hs : Sola.Reachable L s)
      (hpre : s.preconditions frame currentFramePeriod semitones)
      (hret : (Sola.Process L fuel s frame currentFramePeriod semitones).status
        = Status.returned) :
      Sola.Reachable L (Sola.Process L fuel s frame currentFramePeriod semitones).sola

/-- A stand-in for the library code, used to run the model on concrete inputs: `pow2` is
exact at the exponents -1, 0 and 1 and equal to 1 elsewhere, the window table and the
interpolator are constant. -/
def testLibrary : Library :=
  { pow2 := fun x => if x = -1 then 1 / 2 else if x = 1 then 2 else 1
    kHanningWindow := fun _ => 1
    interpolate := fun _ _ _ _ => 1 }

/-- The engine `Sola(1, 2, 1)`: one channel, frames of two samples, longest period one. -/
def testEngine : Sola :=
  (Sola.new 1 2 1).get (by decide)

/-- A frame of one channel holding the samples 5 and 6. -/
def testFrame : AudioBuffer :=
  { numChannels := 1, numSamples := 2, data := fun _ i => if i = 0 then 5 else 6 }

/-- The four locals that steer the mark-advance loop: the two next candidates and the two
working periods. -/
structure Cursor where
  nextA : Int
  nextS : Int
  anP : Int
  syP : Int
  deriving DecidableEq, Repr

/-- The steering locals of a loop state. -/
def LoopState.cursor (ls : LoopState) : Cursor :=
  { nextA := ls.nextAnalysisOffset, nextS := ls.nextSynthesisOffset,
    anP := ls.analysisPeriod, syP := ls.synthesisPeriod }

/-- One iteration of the mark-advance loop seen on the steering locals alone, for frame size
`F`, caller period `cur` and recomputed synthesis period `p`
(lines 88-96 and 142-148 without the buffers). -/
def cursorStep (F cur p : Int) (c : Cursor) : Cursor :=
  if c.nextA ≥ c.nextS then
    let anP := if F ≥ c.nextA then cur else c.anP
    { c with anP := anP, nextA := c.nextA - anP }
  else
    let syP := if F ≥ c.nextS then p else c.syP
    { c with syP := syP, nextS := c.nextS - syP }

/-- The mark-advance loop seen on the steering locals alone, for search bound `M`;
`none` when the fuel ends before the loop does. -/
def cursorLoop (F M cur p : Int) : Nat → Cursor → Option Cursor
  | fuel, c =>
    if c.nextA > M ∨ c.nextS > M then
      match fuel with
      | 0 => none
      | fuel + 1 => cursorLoop F M cur p fuel (cursorStep F cur p c)
    else some c

/-- The steering locals at the start of the loop of a call made in engine state `s`. -/
def Sola.entryCursor (s : Sola) : Cursor :=
  { nextA := s.mAnalysis.lastMarkOffset + s.mFrameSize - s.mAnalysis.lastPeriod
    nextS := s.mSynthesis.lastMarkOffset + s.mFrameSize - s.mSynthesis.lastPeriod
    anP := s.mAnalysis.lastPeriod
    syP := s.mSynthesis.lastPeriod }

/-- The engine `Sola(1, 4, 3)`: one channel, frames of four samples, longest period three. -/
def testEngine43 : Sola :=
  (Sola.new 1 4 3).get (by decide)

/-- A frame of one channel holding the samples 1, 2, 3, 4. -/
def testFrame4 : AudioBuffer :=
  { numChannels := 1, numSamples := 4, data := fun _ i => (i : ℚ) + 1 }

/-- A stand-in for the estimator, used to run the model on concrete inputs: it has no
state, reports the frequency 24000 and calls the window voiced exactly when its first
sample is positive; its default frame size is 4. -/
def testPyin : PyinLibrary Unit :=
  { process := fun _ w => ({ freq := 24000, isVoiced := decide (0 < w 0) }, ())
    getDefaultFrameSize := fun _ _ => 4 }

/-- An orchestrator around the engine `Sola(1, 2, 1)` with an estimator window of four
samples holding 1, 2, 3, 4. -/
def testPsola : Psola Unit :=
  { mSampleRate := 48000
    mNumChannels := 1
    mFrameSize := 2
    mPyinFrameSize := 4
    mNumFrameSplit := 2
    mSola := testEngine
    mPyin := ()
    mPyinBuffer := { size := 4, data := fun i => (i : ℚ) + 1 } }

/-- A frame of one channel holding the samples -5 and -6. -/
def testFrameNeg : AudioBuffer :=
  { numChannels := 1, numSamples := 2, data := fun _ i => if i = 0 then -5 else -6 }

/-- Lines 78-83 seen from the engine: the period and the semitones that a call of
`Psola::Process` hands to `Sola::Process`, when the call gets that far. -/
def Psola.engineArgs {π : Type} (P : PyinLibrary π) (st : Psola π) (frame : AudioBuffer)
    (semitones : ℚ) : Option (Int × ℚ) :=
  match Psola.analyse P st frame with
  | (Status.returned, st1, pyinResult) =>
    some (roundToInt (st1.mSampleRate / pyinResult.freq),
      if pyinResult.isVoiced then semitones else 0)
  | _ => none

/-- The orchestrator `testPsola` at the sample rate 24000, for which the estimate 24000 of
`testPyin` is the period 1. -/
def testPsola24 : Psola Unit :=
  { testPsola with mSampleRate := 24000 }

/-- A second stand-in for the estimator: voiced with frequency 24000 when the first sample
of its window is positive, unvoiced with frequency 12000 otherwise. -/
def testPyin2 : PyinLibrary Unit :=
  { process := fun _ w =>
      ({ freq := if 0 < w 0 then 24000 else 12000, isVoiced := decide (0 < w 0) }, ())
    getDefaultFrameSize := fun _ _ => 4 }

/-- The cached window agrees with the canonical table resampled to the cached length. -/
def Sola.WindowCoherent (L : Library) (s : Sola) : Prop :=
  ∀ i : Int, 0 ≤ i → i < s.mCurrentWindowSize →
    s.mWindowFunction.data i
      = L.interpolate ((kWindowLen : ℚ) / (s.mCurrentWindowSize : ℚ)) L.kHanningWindow
          s.mCurrentWindowSize i

/-- Function template `GetHanningWindow<length>()` (sola.cpp lines 11-20): entry `i` of the
returned array, `0.5 * (1.0 - cos(2.0 * M_PI * i / (length - 1)))` for `0 <= i < length`.
The cosine and the constant `M_PI` are parameters, so that the table can be read in any
field; the conversion to `float` is left out. -/
def GetHanningWindow {α : Type} [Field α] (cosine : α → α) (pi : α) (length : Int) (i : Int) :
    α :=
  if 0 ≤ i ∧ i < length then
    (1 / 2) * (1 - cosine (2 * pi * (i : α) / ((length - 1 : Int) : α)))
  else 0

/-- The first `n` iterations of the mark-advance loop seen on the steering locals alone;
`none` when the loop ends before that. -/
def cursorIter (F M cur p : Int) : Nat → Cursor → Option Cursor
  | 0, c => some c
  | n + 1, c =>
    if c.nextA > M ∨ c.nextS > M then cursorIter F M cur p n (cursorStep F cur p c)
    else none

/-- The engine `Sola(1, 4, 2)`: one channel, frames of four samples, longest period two. -/
def testEngine42 : Sola :=
  (Sola.new 1 4 2).get (by decide)

/-- The engine `Sola(1, 2, 2)`: one channel, frames of two samples, longest period two. -/
def testEngine22 : Sola :=
  (Sola.new 1 2 2).get (by decide)

/-! ### Closed form of the overlap-add loop -/

/-- The index of a ring buffer with the given head and capacity that lies `offset` behind
the head: the value computed by `OffsetToIdx`. -/
def ringIdx (head cap offset : Int) : Int :=
  if head - offset ≥ 0 then head - offset else head - offset + cap

/-- The row of the synthesis buffer after a grain of `n` samples was overlap-added, in
closed form: the grain starts at synthesis index `sStart`, analysis index `aStart` and
window position `w0`, and both indices wrap at the end of their buffer. -/
def grainAddedRow (capS capA : Int) (win A : Int → Sample) (sStart aStart w0 n : Int)
    (old : Int → Sample) : Int → Sample :=
  fun i =>
    if 0 ≤ i ∧ i < capS ∧ (if i ≥ sStart then i - sStart else i - sStart + capS) < n then
      old i + win (w0 + (if i ≥ sStart then i - sStart else i - sStart + capS))
        * A (if aStart + (if i ≥ sStart then i - sStart else i - sStart + capS) < capA then
              aStart + (if i ≥ sStart then i - sStart else i - sStart + capS)
            else aStart + (if i ≥ sStart then i - sStart else i - sStart + capS) - capA)
    else old i

/-! ### Pass-through operation in the words of the spec

With semitones = 0 the spec describes the output as the input delayed by `2 * maxPeriod`
samples and scaled by the sum of the window weights covering it.  The definitions below
write that description down without the ring buffers, to be compared with `Sola.Process`. -/

/-- The weight that a grain of half length `h` centred at offset `a` puts on the sample at
offset `o`: the canonical window resampled to the grain length `2 h`, read at the grain
position `a + h - o`; zero outside the grain. -/
def grainWeight (L : Library) (a h o : Int) : Sample :=
  if a - h < o ∧ o ≤ a + h then
    L.interpolate ((kWindowLen : ℚ) / ((2 * h : Int) : ℚ)) L.kHanningWindow (2 * h) (a + h - o)
  else 0

/-- Pass-through operation as the spec words it: the sum of the window weights covering
each offset, accumulated over the synthesis steps of one call.  It is computed from the
steering locals alone (frame size `F`, search bound `M`, caller period `cur`): a synthesis
step at the cursor `c` places a grain of half length `c.syP` at the mark `c.nextS`. -/
def cursorWeights (L : Library) (F M cur : Int) :
    Nat → Cursor → (Int → Sample) → (Int → Sample)
  | fuel, c, W =>
    if c.nextA > M ∨ c.nextS > M then
      match fuel with
      | 0 => W
      | fuel + 1 =>
        cursorWeights L F M cur fuel (cursorStep F cur cur c)
          (if c.nextA ≥ c.nextS then W else fun o => W o + grainWeight L c.nextS c.syP o)
    else W

/-- The weights by offset after a frame of `F` samples came in: every offset grows by `F`
and the `F` newest offsets carry no weight yet. -/
def shiftWeights (F : Int) (W : Int → Sample) : Int → Sample :=
  fun o => if o ≤ F then 0 else W (o - F)

/-- The input samples by channel and offset after the frame came in: offset `o` is the
sample that came in `o - 1` samples before the newest one. -/
def pushHistory (F : Int) (frame : AudioBuffer) (hist : Int → Int → Sample) :
    Int → Int → Sample :=
  fun c o => if o ≤ F then frame.data c (F - o) else hist c (o - F)

/-- The weight sums by offset at the end of the mark-advance loop of a pass-through call
made in engine state `s`, when `W` are the weight sums before the call. -/
def Sola.callWeights (L : Library) (fuel : Nat) (s : Sola) (cur : Int) (W : Int → Sample) :
    Int → Sample :=
  cursorWeights L s.mFrameSize s.mMaxPeriod cur fuel s.entryCursor
    (shiftWeights s.mFrameSize W)

/-- Engine states reached from construction by calls of `Process` with semitones = 0 that
satisfy the preconditions and return, together with the weight sums by offset and the
input samples by channel and offset that the calls so far produce. -/
inductive Sola.PassThrough (L : Library) : Sola → (Int → Sample) → (Int → Int → Sample) → Prop where
  | init (numChannels frameSize maxPeriod : Int) (s : Sola)
      (h : Sola.new numChannels frameSize maxPeriod = some s) :
      Sola.PassThrough L s (fun _ => 0) (fun _ _ => 0)
  | step (s : Sola) (W : Int → Sample) (hist : Int → Int → Sample) (fuel : Nat)
      (frame : AudioBuffer) (currentFramePeriod : Int)
      (hs : Sola.PassThrough L s W hist)
      (hpre : s.preconditions frame currentFramePeriod 0)
      (hret : (Sola.Process L fuel s frame currentFramePeriod 0).status = Status.returned) :
      Sola.PassThrough L (Sola.Process L fuel s frame currentFramePeriod 0).sola
        (Sola.callWeights L fuel s currentFramePeriod W)
        (pushHistory s.mFrameSize frame hist)

/-- Invariant of the mark-advance loop of a pass-through call with caller period `cur`:
the loop invariant, the window cache, both ring buffers against the input samples `hist`
and the weight sums `W`, and the two cursors in step (before an analysis step) or half a
step apart (before a synthesis step). -/
structure PassInv (L : Library) (cur : Int) (hist : Int → Int → Sample) (ls : LoopState)
    (W : Int → Sample) : Prop where
  inv : LoopInv ls
  coherent : ls.sola.WindowCoherent L
  analysis : ∀ c o : Int, 0 ≤ c → c < ls.sola.mNumChannels → 1 ≤ o →
    o ≤ ls.sola.mAnalysis.numSamples → ls.sola.mAnalysis.sampleAt c o = hist c o
  synthesis : ∀ c o : Int, 0 ≤ c → c < ls.sola.mNumChannels → 1 ≤ o →
    o ≤ ls.sola.mSynthesis.numSamples → ls.sola.mSynthesis.sampleAt c o = W o * hist c o
  lock :
    (ls.nextAnalysisOffset = ls.nextSynthesisOffset ∧ ls.analysisPeriod = ls.synthesisPeriod) ∨
    (ls.sola.mMaxPeriod < ls.nextSynthesisOffset ∧
      ls.sola.mAnalysis.lastMarkOffset = ls.nextSynthesisOffset ∧
      ls.sola.mAnalysis.lastPeriod = ls.synthesisPeriod ∧
      ls.analysisPeriod
        = (if ls.sola.mFrameSize ≥ ls.nextSynthesisOffset then cur else ls.synthesisPeriod))

/-- What holds between the calls of a pass-through run: the engine is reachable, the two
cursors agree, the analysis buffer holds the input samples `hist`, the synthesis buffer
holds them scaled by the weight sums `W` up to offset `2 * maxPeriod` and is zero beyond. -/
structure Sola.PassOk (L : Library) (s : Sola) (W : Int → Sample)
    (hist : Int → Int → Sample) : Prop where
  reach : Sola.Reachable L s
  lock : s.mSynthesis.lastMarkOffset = s.mAnalysis.lastMarkOffset ∧
    s.mSynthesis.lastPeriod = s.mAnalysis.lastPeriod
  analysis : ∀ c o : Int, 0 ≤ c → c < s.mNumChannels → 1 ≤ o → o ≤ s.mAnalysis.numSamples →
    s.mAnalysis.sampleAt c o = hist c o
  synthesis : ∀ c o : Int, 0 ≤ c → c < s.mNumChannels → 1 ≤ o → o ≤ 2 * s.mMaxPeriod →
    s.mSynthesis.sampleAt c o = W o * hist c o
  cleared : ∀ c o : Int, 0 ≤ c → c < s.mNumChannels → 2 * s.mMaxPeriod < o →
    o ≤ s.mSynthesis.numSamples → s.mSynthesis.sampleAt c o = 0

end TD_pitch_shift

namespace TD_pitch_shift

/-! ## Lemmas -/

theorem forChannels_ind {α : Type} (body : Int → α → Status × α) (P : Nat → α → Prop)
    (n : Nat) (a : α) (h0 : P 0 a)
    (hstep : ∀ c : Nat, c < n → ∀ x, P c x →
      (body c x).1 = Status.returned ∧ P (c + 1) (body c x).2) :
    (forChannels body n a).1 = Status.returned ∧ P n (forChannels body n a).2 := by
  induction n with
  | zero => exact ⟨rfl, h0⟩
  | succ k ih =>
    have ih' := ih (fun c hc => hstep c (Nat.lt_succ_of_lt hc))
    rcases hk : forChannels body k a with ⟨st, a'⟩
    rw [hk] at ih'
    obtain ⟨h1, h2⟩ := ih'
    simp only at h1 h2
    subst h1
    have := hstep k (Nat.lt_succ_self k) a' h2
    simp only [forChannels, hk]
    exact this

theorem emod_sub_head (h cap i : Int) (hh : 0 ≤ h ∧ h < cap) (hi : 0 ≤ i ∧ i < cap) :
    (i - h) % cap = if h ≤ i then i - h else i - h + cap := by
  split
  · exact Int.emod_eq_of_lt (by omega) (by omega)
  · have h2 : (i - h) % cap = (i - h + cap) % cap := by rw [Int.add_emod_self]
    rw [h2]
    exact Int.emod_eq_of_lt (by omega) (by omega)

theorem pushChannel_spec (s : Sola) (frame old buf : AudioBuffer) (k : Nat)
    (hcap : s.mFrameSize ≤ s.mAnalysis.numSamples) (hF : 0 < s.mFrameSize)
    (hhead : 0 ≤ s.mAnalysis.head ∧ s.mAnalysis.head < s.mAnalysis.numSamples)
    (hk : (k : Int) < s.mNumChannels)
    (hfc : frame.numChannels = s.mNumChannels) (hfs : frame.numSamples = s.mFrameSize)
    (hbc : buf.numChannels = s.mNumChannels) (hbs : buf.numSamples = s.mAnalysis.numSamples)
    (hdata : buf.data = pushedData s.mAnalysis.head s.mAnalysis.numSamples s.mFrameSize frame old k) :
    (s.pushChannel frame k buf).1 = Status.returned ∧
    (s.pushChannel frame k buf).2.numChannels = s.mNumChannels ∧
    (s.pushChannel frame k buf).2.numSamples = s.mAnalysis.numSamples ∧
    (s.pushChannel frame k buf).2.data =
      pushedData s.mAnalysis.head s.mAnalysis.numSamples s.mFrameSize frame old (k + 1) := by
  obtain ⟨hh0, hh1⟩ := hhead
  unfold Sola.pushChannel
  simp only [AudioBuffer.inRange, hfc, hfs, hbc, hbs]
  by_cases hw : s.mAnalysis.numSamples - s.mAnalysis.head ≥ s.mFrameSize
  · rw [if_pos hw, if_pos (by omega)]
    refine ⟨rfl, hbc, hbs, ?_⟩
    funext c i
    simp only [AudioBuffer.copyFrom, AudioBuffer.readPointer, hdata, pushedData]
    by_cases hi : 0 ≤ i ∧ i < s.mAnalysis.numSamples
    · rw [emod_sub_head _ _ _ ⟨hh0, hh1⟩ hi]
      by_cases hc : c = (k : Int)
      · subst hc
        split_ifs <;> first | rfl | (exfalso; omega) | (congr 1; omega)
      · split_ifs <;> first | rfl | (exfalso; omega)
    · have : ¬ (c = (k:Int) ∧ s.mAnalysis.head ≤ i ∧ i < s.mAnalysis.head + s.mFrameSize) := by
        omega
      simp only [this, hi, false_and, and_false, if_false]
  · rw [if_neg hw, if_pos (by omega)]
    refine ⟨rfl, hbc, hbs, ?_⟩
    funext c i
    simp only [AudioBuffer.copyFrom, AudioBuffer.readPointer, hdata, pushedData]
    by_cases hi : 0 ≤ i ∧ i < s.mAnalysis.numSamples
    · rw [emod_sub_head _ _ _ ⟨hh0, hh1⟩ hi]
      by_cases hc : c = (k : Int)
      · subst hc
        split_ifs <;> first | rfl | (exfalso; omega) | (congr 1; omega)
      · split_ifs <;> first | rfl | (exfalso; omega)
    · have h1 : ¬ (c = (k:Int) ∧ 0 ≤ i ∧ i < 0 + (s.mFrameSize - (s.mAnalysis.numSamples - s.mAnalysis.head))) := by
        omega
      have h2 : ¬ (c = (k:Int) ∧ s.mAnalysis.head ≤ i ∧ i < s.mAnalysis.head + (s.mAnalysis.numSamples - s.mAnalysis.head)) := by
        omega
      simp only [h1, h2, hi, false_and, and_false, if_false]

theorem Sola.new_shaped (nc F M : Int) (s : Sola) (h : Sola.new nc F M = some s) :
    s.Shaped ∧ s.CursorsOk := by
  unfold Sola.new at h
  split at h
  · rename_i hpos
    obtain ⟨h1, h2, h3⟩ := hpos
    simp only [Option.some.injEq] at h
    subst h
    constructor
    · constructor <;> simp [AudioBuffer.zeros] <;> omega
    · constructor <;> simp <;> omega
  · exact absurd h (by simp)

theorem pushedData_zero (head cap F : Int) (frame old : AudioBuffer) :
    pushedData head cap F frame old 0 = old.data := by
  funext c i
  unfold pushedData
  rw [if_neg]
  omega

theorem Sola.ingest_eq (s : Sola) (hs : s.Shaped) (frame : AudioBuffer)
    (hfc : frame.numChannels = s.mNumChannels) (hfs : frame.numSamples = s.mFrameSize) :
    s.ingest frame = (Status.returned, s.ingested frame) := by
  have hM := hs.maxPeriod_pos
  have hF := hs.frameSize_pos
  have hnc := hs.numChannels_pos
  have key := forChannels_ind (s.pushChannel frame)
    (fun k buf => buf.numChannels = s.mNumChannels ∧ buf.numSamples = s.mAnalysis.numSamples ∧
      buf.data = pushedData s.mAnalysis.head s.mAnalysis.numSamples s.mFrameSize frame
        s.mAnalysis.buffer k)
    s.mNumChannels.toNat s.mAnalysis.buffer
    ⟨hs.analysis_channels, hs.analysis_samples, by
      simp only [Nat.cast_zero]; exact (pushedData_zero _ _ _ _ _).symm⟩
    (by
      intro c hc x hx
      obtain ⟨hx1, hx2, hx3⟩ := hx
      have hc' : (c : Int) < s.mNumChannels := by omega
      have := pushChannel_spec s frame s.mAnalysis.buffer x c
        (by rw [hs.analysis_cap]; omega) hF hs.analysis_head hc' hfc hfs hx1 hx2 hx3
      simpa using this)
  obtain ⟨k1, k2, k3, k4⟩ := key
  have hnat : ((s.mNumChannels.toNat : Nat) : Int) = s.mNumChannels := Int.toNat_of_nonneg (le_of_lt hnc)
  rw [hnat] at k4
  unfold Sola.ingest
  rcases hfc' : forChannels (s.pushChannel frame) s.mNumChannels.toNat s.mAnalysis.buffer
    with ⟨st, buf⟩
  rw [hfc'] at k1 k2 k3 k4
  simp only at k1 k2 k3 k4
  subst k1
  simp only [Sola.ingested]
  have e1 : (s.mAnalysis.head + s.mFrameSize).tmod s.mAnalysis.numSamples
      = (s.mAnalysis.head + s.mFrameSize) % s.mAnalysis.numSamples :=
    Int.tmod_eq_emod (by have := hs.analysis_head; omega) (by have := hs.analysis_head; omega)
  have e2 : (s.mSynthesis.head + s.mFrameSize).tmod s.mSynthesis.numSamples
      = (s.mSynthesis.head + s.mFrameSize) % s.mSynthesis.numSamples :=
    Int.tmod_eq_emod (by have := hs.synthesis_head; omega) (by have := hs.synthesis_head; omega)
  rw [e1, e2]
  have eb : buf = { s.mAnalysis.buffer with
      data := pushedData s.mAnalysis.head s.mAnalysis.numSamples s.mFrameSize frame
        s.mAnalysis.buffer s.mNumChannels } := by
    cases buf
    simp only at k2 k3 k4
    subst k2 k3 k4
    simp [hs.analysis_channels, hs.analysis_samples]
  rw [eb]

theorem Sola.Shaped.congr {s s1 : Sola} (hs : s.Shaped) (h : s1.config = s.config) :
    s1.Shaped := by
  simp only [Sola.config, List.cons.injEq, and_true] at h
  obtain ⟨h1, h2, h3, h4, h5, h6, h7, h8, h9, h10, h11, h12, h13, h14, h15, h16, h17⟩ := h
  cases hs
  constructor <;> simp only [h1, h2, h3, h4, h5, h6, h7, h8, h9, h10, h11, h12, h13, h14, h15, h16, h17] <;> assumption

theorem Sola.overlapAddChannel_ok (s : Sola) (c : Int) (fuel : Nat) :
    ∀ (g : GrainCursor) (buf : AudioBuffer),
      0 ≤ c → c < buf.numChannels → c < s.mAnalysis.buffer.numChannels →
      buf.numSamples = s.mSynthesis.numSamples →
      s.mAnalysis.buffer.numSamples = s.mAnalysis.numSamples →
      0 ≤ g.synthesisIdx → g.synthesisIdx < s.mSynthesis.numSamples →
      0 ≤ g.analysisIdx → g.analysisIdx < s.mAnalysis.numSamples →
      0 ≤ g.windowOffset → g.windowOffset + g.remainingSamples ≤ s.mWindowFunction.size →
      g.remainingSamples ≤ fuel →
      (s.overlapAddChannel c fuel g buf).1 = Status.returned ∧
      (s.overlapAddChannel c fuel g buf).2.numChannels = buf.numChannels ∧
      (s.overlapAddChannel c fuel g buf).2.numSamples = buf.numSamples := by
  induction fuel with
  | zero =>
    intro g buf _ _ _ _ _ _ _ _ _ _ _ hf
    unfold Sola.overlapAddChannel
    rw [if_neg (by simp at hf; omega)]
    exact ⟨rfl, rfl, rfl⟩
  | succ k ih =>
    intro g buf hc0 hc1 hc2 hbs has hs0 hs1 ha0 ha1 hw0 hw1 hf
    unfold Sola.overlapAddChannel
    by_cases hr : g.remainingSamples > 0
    · rw [if_pos hr]
      simp only
      have hn1 : 1 ≤ min g.remainingSamples
          (min (s.mSynthesis.numSamples - g.synthesisIdx)
            (s.mAnalysis.numSamples - g.analysisIdx)) := by
        simp only [le_min_iff]; omega
      have hn2 := min_le_left g.remainingSamples
          (min (s.mSynthesis.numSamples - g.synthesisIdx)
            (s.mAnalysis.numSamples - g.analysisIdx))
      have hn3 : min g.remainingSamples
          (min (s.mSynthesis.numSamples - g.synthesisIdx)
            (s.mAnalysis.numSamples - g.analysisIdx)) ≤ s.mSynthesis.numSamples - g.synthesisIdx :=
        le_trans (min_le_right _ _) (min_le_left _ _)
      have hn4 : min g.remainingSamples
          (min (s.mSynthesis.numSamples - g.synthesisIdx)
            (s.mAnalysis.numSamples - g.analysisIdx)) ≤ s.mAnalysis.numSamples - g.analysisIdx :=
        le_trans (min_le_right _ _) (min_le_right _ _)
      generalize min g.remainingSamples
          (min (s.mSynthesis.numSamples - g.synthesisIdx)
            (s.mAnalysis.numSamples - g.analysisIdx)) = n at hn1 hn2 hn3 hn4
      rw [if_pos (by simp only [AudioBuffer.inRange]; omega)]
      have e1 : (g.synthesisIdx + n).tmod s.mSynthesis.numSamples
          = (g.synthesisIdx + n) % s.mSynthesis.numSamples :=
        Int.tmod_eq_emod (by omega) (by omega)
      have e2 : (g.analysisIdx + n).tmod s.mAnalysis.numSamples
          = (g.analysisIdx + n) % s.mAnalysis.numSamples :=
        Int.tmod_eq_emod (by omega) (by omega)
      have := ih
        { remainingSamples := g.remainingSamples - n, windowOffset := g.windowOffset + n,
          synthesisIdx := (g.synthesisIdx + n).tmod s.mSynthesis.numSamples,
          analysisIdx := (g.analysisIdx + n).tmod s.mAnalysis.numSamples }
        (buf.addWithMultiply c g.synthesisIdx
          (fun j => s.mWindowFunction.data (g.windowOffset + j))
          (s.mAnalysis.buffer.readPointer c g.analysisIdx) n)
        hc0 hc1 hc2 hbs has
        (by simp only [e1]; exact Int.emod_nonneg _ (by omega))
        (by simp only [e1]; exact Int.emod_lt_of_pos _ (by omega))
        (by simp only [e2]; exact Int.emod_nonneg _ (by omega))
        (by simp only [e2]; exact Int.emod_lt_of_pos _ (by omega))
        (by simp only; omega) (by simp only; omega)
        (by simp only; push_cast at hf; omega)
      exact this
    · rw [if_neg hr]
      exact ⟨rfl, rfl, rfl⟩

theorem Sola.updateWindow_spec (L : Library) (s : Sola) (g : Int)
    (h0 : 0 ≤ g) (h1 : g ≤ s.mWindowFunction.size) :
    (updateWindow L s g).1 = Status.returned ∧
    (updateWindow L s g).2.mAnalysis = s.mAnalysis ∧
    (updateWindow L s g).2.mSynthesis = s.mSynthesis ∧
    (updateWindow L s g).2.config = s.config ∧
    (updateWindow L s g).2.mCurrentWindowSize = g := by
  unfold Sola.updateWindow
  by_cases h : s.mCurrentWindowSize ≠ g
  · rw [if_pos h]
    simp only [h0, h1, and_self, if_true, Sola.config]
  · rw [if_neg h]
    simp only [and_self, true_and]
    exact not_not.mp h

theorem stretchedPeriod_bounds (L : Library) (hL : L.Pow2Bounded) (cur M : Int) (sem : ℚ)
    (hcur : 0 < cur ∧ cur ≤ M) (hsem : -12 ≤ sem ∧ sem ≤ 12) :
    0 ≤ stretchedPeriod L cur sem ∧ stretchedPeriod L cur sem ≤ 2 * M := by
  unfold stretchedPeriod
  simp only
  obtain ⟨hp0, hp2⟩ := hL (-sem / 12) (by linarith [hsem.1, hsem.2]) (by linarith [hsem.1, hsem.2])
  have hc : (0 : ℚ) < (cur : ℚ) := by exact_mod_cast hcur.1
  have hprod : 0 ≤ (cur : ℚ) * L.pow2 (-sem / 12) := mul_nonneg (le_of_lt hc) hp0
  unfold truncToInt
  rw [if_pos hprod]
  refine ⟨Int.floor_nonneg.mpr hprod, ?_⟩
  have h1 : ((Int.floor ((cur : ℚ) * L.pow2 (-sem / 12)) : Int) : ℚ) ≤ (cur : ℚ) * L.pow2 (-sem / 12) :=
    Int.floor_le _
  have h2 : (cur : ℚ) * L.pow2 (-sem / 12) ≤ (cur : ℚ) * 2 := by
    exact mul_le_mul_of_nonneg_left hp2 (le_of_lt hc)
  have h3 : ((cur : Int) : ℚ) ≤ (M : ℚ) := by exact_mod_cast hcur.2
  have h4 : ((Int.floor ((cur : ℚ) * L.pow2 (-sem / 12)) : Int) : ℚ) ≤ ((2 * M : Int) : ℚ) := by
    push_cast; linarith
  exact_mod_cast h4

theorem LoopInv.analysisStep {ls : LoopState} (h : LoopInv ls) (cur : Int)
    (hcur : 0 < cur ∧ cur ≤ ls.sola.mMaxPeriod) (hcond : Sola.loopCond ls)
    (hbr : ls.nextAnalysisOffset ≥ ls.nextSynthesisOffset) :
    LoopInv (Sola.analysisStep cur ls) ∧
    (Sola.analysisStep cur ls).sola.config = ls.sola.config ∧
    ∀ p : Int, (Sola.analysisStep cur ls).cursor = cursorStep ls.sola.mFrameSize cur p ls.cursor := by
  refine ⟨?_, by simp [Sola.analysisStep, Sola.config], ?_⟩
  swap
  · intro p
    have hb : ls.cursor.nextA ≥ ls.cursor.nextS := hbr
    simp only [cursorStep, if_pos hb]
    simp only [Sola.analysisStep, LoopState.cursor, h.shaped.prevFrameEnd]
  have hsh := h.shaped
  have hend := hsh.searchRange_end
  unfold Sola.loopCond at hcond
  rw [hend] at hcond
  have hA : ls.sola.mMaxPeriod < ls.nextAnalysisOffset := by omega
  have h1 := h.nextA_le
  have h2 := h.anPeriod_pos
  have h3 := h.anPeriod_le
  have hF := hsh.frameSize_pos
  have h4 := h.sMark_lo
  have h5 := h.syPeriod_nonneg
  have h6 := h.syPeriod_le
  have h7 := h.nextS_eq
  have h8 := h.nextS_le
  constructor
  · exact hsh.congr (by simp [Sola.analysisStep, Sola.config])
  all_goals simp only [Sola.analysisStep]
  all_goals first | assumption | omega

theorem OffsetToIdx_some (b : CircularBuffer) (hhead : 0 ≤ b.head ∧ b.head < b.numSamples)
    (offset : Int) (h0 : 0 ≤ offset) (h1 : offset ≤ b.numSamples) :
    ∃ idx, b.OffsetToIdx offset = some idx ∧ 0 ≤ idx ∧ idx < b.numSamples ∧
      idx = (b.head - offset) % b.numSamples := by
  have hcap : 0 < b.numSamples := by omega
  refine ⟨(b.head - offset) % b.numSamples, ?_, Int.emod_nonneg _ (ne_of_gt hcap),
    Int.emod_lt_of_pos _ hcap, rfl⟩
  unfold CircularBuffer.OffsetToIdx
  rw [if_pos ⟨h0, h1⟩]
  by_cases hraw : b.head - offset ≥ 0
  · simp only [hraw, if_true]
    rw [Int.emod_eq_of_lt hraw (by omega)]
  · simp only [hraw, if_false]
    have h2 : (b.head - offset) % b.numSamples
        = (b.head - offset + b.numSamples) % b.numSamples := by
      rw [Int.add_emod_self]
    rw [h2, Int.emod_eq_of_lt (by omega) (by omega)]

theorem LoopInv.synthesisStep {ls : LoopState} (h : LoopInv ls) (L : Library)
    (hL : L.Pow2Bounded) (cur : Int) (sem : ℚ)
    (hcur : 0 < cur ∧ cur ≤ ls.sola.mMaxPeriod) (hsem : -12 ≤ sem ∧ sem ≤ 12)
    (hcond : Sola.loopCond ls)
    (hbr : ¬ ls.nextAnalysisOffset ≥ ls.nextSynthesisOffset) :
    (Sola.synthesisStep L cur sem ls).1 = Status.returned ∧
    LoopInv (Sola.synthesisStep L cur sem ls).2 ∧
    (Sola.synthesisStep L cur sem ls).2.sola.config = ls.sola.config ∧
    (Sola.synthesisStep L cur sem ls).2.cursor
      = cursorStep ls.sola.mFrameSize cur (stretchedPeriod L cur sem) ls.cursor := by
  have hsh := h.shaped
  have hend := hsh.searchRange_end
  unfold Sola.loopCond at hcond
  rw [hend] at hcond
  have hS : ls.sola.mMaxPeriod < ls.nextSynthesisOffset := by omega
  have hM := hsh.maxPeriod_pos
  have hF := hsh.frameSize_pos
  have hnc := hsh.numChannels_pos
  have hp := stretchedPeriod_bounds L hL cur ls.sola.mMaxPeriod sem hcur hsem
  have hap0 := h.aPeriod_pos
  have hap1 := h.aPeriod_le
  have hw := Sola.updateWindow_spec L ls.sola (2 * ls.sola.mAnalysis.lastPeriod) (by omega)
    (by rw [hsh.window_size]; omega)
  unfold Sola.synthesisStep
  simp only
  rcases hu : Sola.updateWindow L ls.sola (2 * ls.sola.mAnalysis.lastPeriod) with ⟨st, s1⟩
  rw [hu] at hw
  obtain ⟨hw1, hw2, hw3, hw4, hw5⟩ := hw
  simp only at hw1 hw2 hw3 hw4 hw5
  subst hw1
  have hsh1 : s1.Shaped := hsh.congr hw4
  have hcfg := hw4
  simp only [Sola.config, List.cons.injEq, and_true] at hcfg
  obtain ⟨c1, c2, c3, c4, c5, c6, c7, c8, c9, c10, c11, c12, c13, c14, c15, c16, c17⟩ := hcfg
  simp only
  obtain ⟨ia, hia, hia0, hia1, -⟩ := OffsetToIdx_some s1.mAnalysis hsh1.analysis_head
    (s1.mAnalysis.lastMarkOffset + ls.sola.mAnalysis.lastPeriod)
    (by rw [hw2]; have := h.aMark_lo; omega)
    (by rw [hw2, hsh.analysis_cap]; have := h.aMark_hi; omega)
  rw [hia]
  simp only
  have hns := h.nextS_le
  rw [if_neg (by rw [c14, hsh.readyOut_start]; omega), if_neg (by omega)]
  obtain ⟨is, his, his0, his1, -⟩ := OffsetToIdx_some s1.mSynthesis hsh1.synthesis_head
    (ls.nextSynthesisOffset + ls.sola.mAnalysis.lastPeriod)
    (by omega) (by rw [hw3, hsh.synthesis_cap]; omega)
  rw [his]
  simp only
  have key := forChannels_ind
    (fun c buf => Sola.overlapAddChannel s1 c (2 * ls.sola.mAnalysis.lastPeriod).toNat
      { remainingSamples := 2 * ls.sola.mAnalysis.lastPeriod, windowOffset := 0,
        synthesisIdx := is, analysisIdx := ia } buf)
    (fun _ buf => buf.numChannels = s1.mSynthesis.buffer.numChannels ∧
      buf.numSamples = s1.mSynthesis.buffer.numSamples)
    s1.mNumChannels.toNat s1.mSynthesis.buffer ⟨rfl, rfl⟩
    (by
      intro c hc x hx
      obtain ⟨hx1, hx2⟩ := hx
      have hc' : (c : Int) < s1.mNumChannels := by omega
      have := Sola.overlapAddChannel_ok s1 c (2 * ls.sola.mAnalysis.lastPeriod).toNat
        { remainingSamples := 2 * ls.sola.mAnalysis.lastPeriod, windowOffset := 0,
          synthesisIdx := is, analysisIdx := ia } x
        (by omega) (by rw [hx1, hsh1.synthesis_channels]; exact hc')
        (by rw [hsh1.analysis_channels]; exact hc')
        (by rw [hx2, hsh1.synthesis_samples]) hsh1.analysis_samples
        his0 his1 hia0 hia1 (le_refl _)
        (by simp only; rw [hsh1.window_size, c3]; omega)
        (by simp only; rw [Int.toNat_of_nonneg (by omega)])
      obtain ⟨t1, t2, t3⟩ := this
      exact ⟨t1, by rw [t2, hx1], by rw [t3, hx2]⟩)
  rcases hfc : forChannels
    (fun c buf => Sola.overlapAddChannel s1 c (2 * ls.sola.mAnalysis.lastPeriod).toNat
      { remainingSamples := 2 * ls.sola.mAnalysis.lastPeriod, windowOffset := 0,
        synthesisIdx := is, analysisIdx := ia } buf)
    s1.mNumChannels.toNat s1.mSynthesis.buffer with ⟨st, buf⟩
  rw [hfc] at key
  obtain ⟨k1, k2, k3⟩ := key
  simp only at k1 k2 k3
  subst k1
  simp only
  refine ⟨trivial, ?_, ?_, ?_⟩
  rotate_left
  · rw [← hw4]
    simp [Sola.config, k2, k3]
  · have hb : ¬ ls.cursor.nextA ≥ ls.cursor.nextS := hbr
    simp only [cursorStep, if_neg hb]
    simp only [LoopState.cursor, c16, hsh.prevFrameEnd]
  constructor
  · refine hsh1.congr ?_
    simp [Sola.config, k2, k3]
  all_goals simp only [hw2, c1, c2, c3]
  all_goals first
    | assumption | exact h.aMark_lo | exact h.aMark_hi | exact h.anPeriod_pos
    | exact h.anPeriod_le | exact h.nextA_eq | exact h.nextA_le | trivial
    | (obtain ⟨hp1, hp2⟩ := hp
       have := h.syPeriod_nonneg
       have := h.syPeriod_le
       split <;> omega)

theorem emod_add_head (h cap k : Int) (hh : 0 ≤ h ∧ h < cap) (hk : 0 ≤ k ∧ k < cap) :
    (h + k) % cap = if h + k < cap then h + k else h + k - cap := by
  split
  · exact Int.emod_eq_of_lt (by omega) (by omega)
  · have h2 : (h + k - cap) % cap = (h + k) % cap := by
      rw [Int.sub_emod, Int.emod_self, Int.sub_zero, Int.emod_emod]
    rw [← h2]
    exact Int.emod_eq_of_lt (by omega) (by omega)

theorem emitChannel_spec (s : Sola) (r : Int) (frame old : AudioBuffer)
    (p : AudioBuffer × AudioBuffer) (k : Nat)
    (hcap : s.mFrameSize ≤ s.mSynthesis.numSamples) (hF : 0 < s.mFrameSize)
    (hr : 0 ≤ r ∧ r < s.mSynthesis.numSamples)
    (hk : (k : Int) < s.mNumChannels)
    (hfc : p.1.numChannels = s.mNumChannels) (hfs : p.1.numSamples = s.mFrameSize)
    (hbc : p.2.numChannels = s.mNumChannels) (hbs : p.2.numSamples = s.mSynthesis.numSamples)
    (hfd : p.1.data = emittedData r s.mSynthesis.numSamples s.mFrameSize frame old k)
    (hsd : p.2.data = clearedData r s.mSynthesis.numSamples s.mFrameSize old k) :
    (s.emitChannel r k p).1 = Status.returned ∧
    (s.emitChannel r k p).2.1.numChannels = s.mNumChannels ∧
    (s.emitChannel r k p).2.1.numSamples = s.mFrameSize ∧
    (s.emitChannel r k p).2.2.numChannels = s.mNumChannels ∧
    (s.emitChannel r k p).2.2.numSamples = s.mSynthesis.numSamples ∧
    (s.emitChannel r k p).2.1.data
      = emittedData r s.mSynthesis.numSamples s.mFrameSize frame old (k + 1) ∧
    (s.emitChannel r k p).2.2.data
      = clearedData r s.mSynthesis.numSamples s.mFrameSize old (k + 1) := by
  obtain ⟨hr0, hr1⟩ := hr
  obtain ⟨fr, sy⟩ := p
  simp only at hfc hfs hbc hbs hfd hsd
  unfold Sola.emitChannel
  simp only [AudioBuffer.inRange, hfc, hfs, hbc, hbs]
  by_cases hw : s.mSynthesis.numSamples - r ≥ s.mFrameSize
  · rw [if_pos hw, if_pos (by omega)]
    refine ⟨rfl, hfc, hfs, hbc, hbs, ?_, ?_⟩
    · funext c i
      simp only [AudioBuffer.copyFrom, AudioBuffer.readPointer, hfd, hsd, emittedData, clearedData]
      by_cases hi : 0 ≤ i ∧ i < s.mFrameSize
      · rw [emod_add_head _ _ _ ⟨hr0, hr1⟩ (by omega)]
        rw [emod_sub_head _ _ _ ⟨hr0, hr1⟩ (by omega)]
        by_cases hc : c = (k : Int)
        · subst hc
          split_ifs <;> first | rfl | (exfalso; omega) | (congr 1; omega)
        · split_ifs <;> first | rfl | (exfalso; omega)
      · split_ifs <;> first | rfl | (exfalso; omega)
    · funext c i
      simp only [AudioBuffer.clear, hsd, clearedData]
      by_cases hi : 0 ≤ i ∧ i < s.mSynthesis.numSamples
      · rw [emod_sub_head _ _ _ ⟨hr0, hr1⟩ hi]
        by_cases hc : c = (k : Int)
        · subst hc
          split_ifs <;> first | rfl | (exfalso; omega)
        · split_ifs <;> first | rfl | (exfalso; omega)
      · split_ifs <;> first | rfl | (exfalso; omega)
  · rw [if_neg hw, if_pos (by omega)]
    refine ⟨rfl, hfc, hfs, hbc, hbs, ?_, ?_⟩
    · funext c i
      simp only [AudioBuffer.copyFrom, AudioBuffer.readPointer, hfd, hsd, emittedData, clearedData]
      by_cases hi : 0 ≤ i ∧ i < s.mFrameSize
      · rw [emod_add_head _ _ _ ⟨hr0, hr1⟩ (by omega)]
        have e0 := emod_sub_head r s.mSynthesis.numSamples (i - (s.mSynthesis.numSamples - r))
          ⟨hr0, hr1⟩
        have e1 := emod_sub_head r s.mSynthesis.numSamples (r + i) ⟨hr0, hr1⟩
        by_cases hc : c = (k : Int)
        · subst hc
          split_ifs <;> first | rfl | (exfalso; omega) | (congr 1; omega)
        · split_ifs <;> first | rfl | (exfalso; omega)
      · split_ifs <;> first | rfl | (exfalso; omega)
    · funext c i
      simp only [AudioBuffer.clear, hsd, clearedData]
      by_cases hi : 0 ≤ i ∧ i < s.mSynthesis.numSamples
      · rw [emod_sub_head _ _ _ ⟨hr0, hr1⟩ hi]
        by_cases hc : c = (k : Int)
        · subst hc
          split_ifs <;> first | rfl | (exfalso; omega)
        · split_ifs <;> first | rfl | (exfalso; omega)
      · split_ifs <;> first | rfl | (exfalso; omega)

theorem Sola.emit_eq (s : Sola) (hs : s.Shaped) (frame : AudioBuffer)
    (hfc : frame.numChannels = s.mNumChannels) (hfs : frame.numSamples = s.mFrameSize) :
    s.emit frame = s.emitted frame := by
  have hM := hs.maxPeriod_pos
  have hF := hs.frameSize_pos
  have hnc := hs.numChannels_pos
  have hh := hs.synthesis_head
  have hcap := hs.synthesis_cap
  have hcap_sym : s.mSynthesis.numSamples = 2 * s.mMaxPeriod + s.mFrameSize := by omega
  obtain ⟨r, hr, hr0, hr1, hr2⟩ := OffsetToIdx_some s.mSynthesis hs.synthesis_head
    s.mReadyOutRange.startOffset (by rw [hs.readyOut_start]; omega)
    (by rw [hs.readyOut_start, hcap]; omega)
  have hrh : r = s.mSynthesis.head := by
    rw [hr2, hs.readyOut_start, ← hcap_sym]
    have h2 : (s.mSynthesis.head - s.mSynthesis.numSamples) % s.mSynthesis.numSamples
        = (s.mSynthesis.head - s.mSynthesis.numSamples + s.mSynthesis.numSamples)
          % s.mSynthesis.numSamples := by
      rw [Int.add_emod_self]
    rw [h2, Int.emod_eq_of_lt (by omega) (by omega)]
    omega
  clear hr2
  subst hrh
  have key := forChannels_ind (s.emitChannel s.mSynthesis.head)
    (fun k p => p.1.numChannels = s.mNumChannels ∧ p.1.numSamples = s.mFrameSize ∧
      p.2.numChannels = s.mNumChannels ∧ p.2.numSamples = s.mSynthesis.numSamples ∧
      p.1.data = emittedData s.mSynthesis.head s.mSynthesis.numSamples s.mFrameSize frame
        s.mSynthesis.buffer k ∧
      p.2.data = clearedData s.mSynthesis.head s.mSynthesis.numSamples s.mFrameSize
        s.mSynthesis.buffer k)
    s.mNumChannels.toNat (frame, s.mSynthesis.buffer)
    ⟨hfc, hfs, hs.synthesis_channels, hs.synthesis_samples, by
      funext c i; simp only [emittedData, Nat.cast_zero]; rw [if_neg (by omega)], by
      funext c i; simp only [clearedData, Nat.cast_zero]; rw [if_neg (by omega)]⟩
    (by
      intro c hc x hx
      obtain ⟨hx1, hx2, hx3, hx4, hx5, hx6⟩ := hx
      have hc' : (c : Int) < s.mNumChannels := by omega
      have := emitChannel_spec s s.mSynthesis.head frame s.mSynthesis.buffer x c
        (by omega) hF hh hc' hx1 hx2 hx3 hx4 hx5 hx6
      simpa using this)
  have hnat : ((s.mNumChannels.toNat : Nat) : Int) = s.mNumChannels :=
    Int.toNat_of_nonneg (le_of_lt hnc)
  simp only [hnat] at key
  unfold Sola.emit
  rw [hr]
  simp only
  rcases hfc' : forChannels (s.emitChannel s.mSynthesis.head) s.mNumChannels.toNat
    (frame, s.mSynthesis.buffer) with ⟨st, fr, sy⟩
  rw [hfc'] at key
  obtain ⟨k1, k2, k3, k4, k5, k6, k7⟩ := key
  simp only at k1 k2 k3 k4 k5 k6 k7
  subst k1
  simp only [Sola.emitted]
  have e1 : fr = { frame with
      data := emittedData s.mSynthesis.head s.mSynthesis.numSamples s.mFrameSize frame
        s.mSynthesis.buffer s.mNumChannels } := by
    cases fr
    simp only at k2 k3 k6
    subst k2 k3 k6
    simp [hfc, hfs]
  have e2 : sy = { s.mSynthesis.buffer with
      data := clearedData s.mSynthesis.head s.mSynthesis.numSamples s.mFrameSize
        s.mSynthesis.buffer s.mNumChannels } := by
    cases sy
    simp only at k4 k5 k7
    subst k4 k5 k7
    simp [hs.synthesis_channels, hs.synthesis_samples]
  rw [e1, e2]

theorem LoopInv.grainBounds {ls : LoopState} (h : LoopInv ls) (hcond : Sola.loopCond ls)
    (hbr : ls.nextAnalysisOffset < ls.nextSynthesisOffset) : GrainBounds ls := by
  have hsh := h.shaped
  have hend := hsh.searchRange_end
  unfold Sola.loopCond at hcond
  rw [hend] at hcond
  have h1 := h.aMark_lo
  have h2 := h.aMark_hi
  have h3 := h.aPeriod_pos
  have h4 := h.aPeriod_le
  have h5 := h.nextS_le
  have h6 := hsh.analysis_cap
  have h7 := hsh.synthesis_cap
  have h8 := hsh.readyOut_start
  have h9 := hsh.window_size
  have h10 := hsh.maxPeriod_pos
  have h11 := hsh.frameSize_pos
  constructor <;> omega

theorem Sola.config_maxPeriod {s s1 : Sola} (h : s1.config = s.config) :
    s1.mMaxPeriod = s.mMaxPeriod := by
  simp only [Sola.config, List.cons.injEq, and_true] at h
  exact h.2.2.1

theorem LoopInv.loopBody {ls : LoopState} (h : LoopInv ls) (L : Library)
    (hL : L.Pow2Bounded) (cur : Int) (sem : ℚ)
    (hcur : 0 < cur ∧ cur ≤ ls.sola.mMaxPeriod) (hsem : -12 ≤ sem ∧ sem ≤ 12)
    (hcond : Sola.loopCond ls) :
    (Sola.loopBody L cur sem ls).1 = Status.returned ∧
    LoopInv (Sola.loopBody L cur sem ls).2 ∧
    (Sola.loopBody L cur sem ls).2.sola.config = ls.sola.config ∧
    (Sola.loopBody L cur sem ls).2.cursor
      = cursorStep ls.sola.mFrameSize cur (stretchedPeriod L cur sem) ls.cursor := by
  have hsh := h.shaped
  have h1 := h.nextA_le
  have h2 := h.nextS_le
  have h3 := hsh.searchRange_start
  unfold Sola.loopBody
  rw [if_neg (by rw [h3]; omega)]
  by_cases hbr : ls.nextAnalysisOffset ≥ ls.nextSynthesisOffset
  · rw [if_pos hbr]
    obtain ⟨a1, a2, a3⟩ := h.analysisStep cur hcur hcond hbr
    exact ⟨rfl, a1, a2, a3 _⟩
  · rw [if_neg hbr]
    exact h.synthesisStep L hL cur sem hcur hsem hcond hbr

theorem Sola.markAdvanceLoop_inv (L : Library) (hL : L.Pow2Bounded) (cur : Int) (sem : ℚ)
    (hsem : -12 ≤ sem ∧ sem ≤ 12) (fuel : Nat) :
    ∀ ls : LoopState, LoopInv ls → (0 < cur ∧ cur ≤ ls.sola.mMaxPeriod) →
      ((markAdvanceLoop L cur sem fuel ls).1 = Status.returned ∧
        LoopInv (markAdvanceLoop L cur sem fuel ls).2 ∧
        ¬ loopCond (markAdvanceLoop L cur sem fuel ls).2 ∧
        (markAdvanceLoop L cur sem fuel ls).2.sola.config = ls.sola.config) ∨
      (markAdvanceLoop L cur sem fuel ls).1 = Status.outOfFuel := by
  induction fuel with
  | zero =>
    intro ls h _
    unfold markAdvanceLoop
    by_cases hc : loopCond ls
    · rw [if_pos hc]; exact Or.inr rfl
    · rw [if_neg hc]; exact Or.inl ⟨rfl, h, hc, rfl⟩
  | succ k ih =>
    intro ls h hcur
    unfold markAdvanceLoop
    by_cases hc : loopCond ls
    · rw [if_pos hc]
      obtain ⟨b1, b2, b3, -⟩ := h.loopBody L hL cur sem hcur hsem hc
      rcases hb : loopBody L cur sem ls with ⟨st, ls'⟩
      rw [hb] at b1 b2 b3
      simp only at b1 b2 b3
      subst b1
      simp only
      have hM := Sola.config_maxPeriod b3
      rcases ih ls' b2 (by rw [hM]; exact hcur) with hr | hr
      · exact Or.inl ⟨hr.1, hr.2.1, hr.2.2.1, by rw [hr.2.2.2, b3]⟩
      · exact Or.inr hr
    · rw [if_neg hc]; exact Or.inl ⟨rfl, h, hc, rfl⟩

theorem Sola.loopIter_inv (L : Library) (hL : L.Pow2Bounded) (cur : Int) (sem : ℚ)
    (hsem : -12 ≤ sem ∧ sem ≤ 12) (n : Nat) :
    ∀ ls ls' : LoopState, LoopInv ls → (0 < cur ∧ cur ≤ ls.sola.mMaxPeriod) →
      loopIter L cur sem n ls = some ls' → LoopInv ls' := by
  induction n with
  | zero =>
    intro ls ls' h _ he
    simp only [loopIter, Option.some.injEq] at he
    subst he
    exact h
  | succ k ih =>
    intro ls ls' h hcur he
    unfold loopIter at he
    by_cases hc : loopCond ls
    · rw [if_pos hc] at he
      obtain ⟨b1, b2, b3, -⟩ := h.loopBody L hL cur sem hcur hsem hc
      rcases hb : loopBody L cur sem ls with ⟨st, ls1⟩
      rw [hb] at b1 b2 b3 he
      simp only at b1 b2 b3
      subst b1
      simp only at he
      have hM := Sola.config_maxPeriod b3
      exact ih ls1 ls' b2 (by rw [hM]; exact hcur) he
    · rw [if_neg hc] at he
      exact absurd he (by simp)

theorem Sola.ingested_shaped (s : Sola) (hs : s.Shaped) (frame : AudioBuffer) :
    (s.ingested frame).Shaped := by
  have h1 := hs.analysis_head
  have h2 := hs.synthesis_head
  have h3 := hs.frameSize_pos
  cases hs
  constructor <;> simp only [Sola.ingested] <;> try assumption
  · exact ⟨Int.emod_nonneg _ (by omega), Int.emod_lt_of_pos _ (by omega)⟩
  · exact ⟨Int.emod_nonneg _ (by omega), Int.emod_lt_of_pos _ (by omega)⟩

theorem Sola.loopInit_ingested (s : Sola) (hs : s.Shaped) (hc : s.CursorsOk)
    (frame : AudioBuffer) :
    (loopInit (s.ingested frame)).1 = Status.returned ∧
    LoopInv (loopInit (s.ingested frame)).2 ∧
    (loopInit (s.ingested frame)).2.sola = s.ingested frame := by
  have hsh := Sola.ingested_shaped s hs frame
  have h1 := hc.aMark_lo
  have h2 := hc.aMark_hi
  have h3 := hc.aPeriod_pos
  have h4 := hc.aPeriod_le
  have h5 := hc.aNext
  have h6 := hc.sMark_lo
  have h7 := hc.sPeriod_nonneg
  have h8 := hc.sPeriod_le
  have h9 := hc.sNext
  have h10 := hs.searchRange_start
  have h11 := hs.frameSize_pos
  unfold loopInit
  have hcond : (s.ingested frame).mAnalysis.lastMarkOffset
        > (s.ingested frame).mSearchRange.startOffset ∧
      (s.ingested frame).mSynthesis.lastMarkOffset
        > (s.ingested frame).mSearchRange.startOffset := by
    simp only [Sola.ingested]
    omega
  simp only [hcond, and_self, if_true, and_true, true_and]
  constructor
  · exact hsh
  all_goals simp only [Sola.ingested]
  all_goals omega

theorem Sola.finishLoop_spec (ls : LoopState) (h : LoopInv ls) (hc : ¬ loopCond ls) :
    (finishLoop ls).1 = Status.returned ∧ (finishLoop ls).2.Shaped ∧
    (finishLoop ls).2.CursorsOk ∧ (finishLoop ls).2.config = ls.sola.config := by
  have hsh := h.shaped
  have hend := hsh.searchRange_end
  unfold loopCond at hc
  rw [hend] at hc
  have h1 := h.aMark_lo
  have h3 := h.anPeriod_pos
  have h4 := h.anPeriod_le
  have h5 := h.nextA_eq
  have h6 := h.sMark_lo
  have h7 := h.syPeriod_nonneg
  have h8 := h.syPeriod_le
  have h9 := h.nextS_eq
  unfold finishLoop
  simp only
  rw [if_pos (by omega)]
  refine ⟨rfl, hsh.congr (by simp [Sola.config]), ?_, by simp [Sola.config]⟩
  constructor <;> simp only <;> omega

theorem testLibrary_pow2Bounded : testLibrary.Pow2Bounded := by
  intro x _ _
  simp only [testLibrary]
  split_ifs <;> norm_num

theorem testEngine_new : Sola.new 1 2 1 = some testEngine :=
  (Option.some_get _).symm

theorem Sola.emitted_shaped (s : Sola) (hs : s.Shaped) (hc : s.CursorsOk)
    (frame : AudioBuffer) :
    (s.emitted frame).sola.Shaped ∧ (s.emitted frame).sola.CursorsOk ∧
    (s.emitted frame).sola.config = s.config := by
  refine ⟨hs.congr (by simp [Sola.emitted, Sola.config]), ?_, by simp [Sola.emitted, Sola.config]⟩
  cases hc
  constructor <;> simp only [Sola.emitted] <;> assumption

theorem Sola.advance_inv (L : Library) (hL : L.Pow2Bounded) (s : Sola) (hs : s.Shaped)
    (hc : s.CursorsOk) (frame : AudioBuffer) (cur : Int) (sem : ℚ)
    (hpre : s.preconditions frame cur sem) (fuel : Nat) :
    ((advance L fuel s frame cur sem).1 = Status.returned ∧
      (advance L fuel s frame cur sem).2.Shaped ∧
      (advance L fuel s frame cur sem).2.CursorsOk ∧
      (advance L fuel s frame cur sem).2.config = (s.ingested frame).config) ∨
    (advance L fuel s frame cur sem).1 = Status.outOfFuel := by
  obtain ⟨hfc, hfs, hsem, hcur⟩ := hpre
  unfold advance
  rw [Sola.ingest_eq s hs frame hfc hfs]
  simp only
  obtain ⟨i1, i2, i3⟩ := Sola.loopInit_ingested s hs hc frame
  rcases hi : loopInit (s.ingested frame) with ⟨st, ls⟩
  rw [hi] at i1 i2 i3
  simp only at i1 i2 i3
  subst i1
  simp only
  have hM : ls.sola.mMaxPeriod = s.mMaxPeriod := by rw [i3]; rfl
  rcases Sola.markAdvanceLoop_inv L hL cur sem hsem fuel ls i2 (by rw [hM]; exact hcur)
    with hr | hr
  · obtain ⟨r1, r2, r3, r4⟩ := hr
    rcases hl : markAdvanceLoop L cur sem fuel ls with ⟨st, ls'⟩
    rw [hl] at r1 r2 r3 r4
    simp only at r1 r2 r3 r4
    subst r1
    simp only
    obtain ⟨f1, f2, f3, f4⟩ := Sola.finishLoop_spec ls' r2 r3
    exact Or.inl ⟨f1, f2, f3, by rw [f4, r4, i3]⟩
  · rcases hl : markAdvanceLoop L cur sem fuel ls with ⟨st, ls'⟩
    rw [hl] at hr
    simp only at hr
    subst hr
    exact Or.inr rfl

theorem Sola.Process_inv (L : Library) (hL : L.Pow2Bounded) (s : Sola) (hs : s.Shaped)
    (hc : s.CursorsOk) (frame : AudioBuffer) (cur : Int) (sem : ℚ)
    (hpre : s.preconditions frame cur sem) (fuel : Nat) :
    ((Process L fuel s frame cur sem).status = Status.returned ∧
      (Process L fuel s frame cur sem).sola.Shaped ∧
      (Process L fuel s frame cur sem).sola.CursorsOk ∧
      (Process L fuel s frame cur sem).sola.config = (s.ingested frame).config) ∨
    (Process L fuel s frame cur sem).status = Status.outOfFuel := by
  have hpre' := hpre
  obtain ⟨hfc, hfs, hsem, hcur⟩ := hpre
  unfold Process
  rw [if_neg (not_not.mpr hpre')]
  rcases Sola.advance_inv L hL s hs hc frame cur sem hpre' fuel with ha | ha
  · obtain ⟨a1, a2, a3, a4⟩ := ha
    rcases hadv : advance L fuel s frame cur sem with ⟨st, s1⟩
    rw [hadv] at a1 a2 a3 a4
    simp only at a1 a2 a3 a4
    subst a1
    simp only
    have e1 : s1.mNumChannels = s.mNumChannels := by
      have := a4; simp only [Sola.config, List.cons.injEq] at this; exact this.1
    have e2 : s1.mFrameSize = s.mFrameSize := by
      have := a4; simp only [Sola.config, List.cons.injEq] at this; exact this.2.1
    rw [Sola.emit_eq s1 a2 frame (by rw [e1]; exact hfc) (by rw [e2]; exact hfs)]
    obtain ⟨m1, m2, m3⟩ := Sola.emitted_shaped s1 a2 a3 frame
    exact Or.inl ⟨rfl, m1, m2, by rw [m3, a4]⟩
  · rcases hadv : advance L fuel s frame cur sem with ⟨st, s1⟩
    rw [hadv] at ha
    simp only at ha
    subst ha
    exact Or.inr rfl

theorem Sola.Reachable.inv {L : Library} (hL : L.Pow2Bounded) {s : Sola}
    (h : Sola.Reachable L s) : s.Shaped ∧ s.CursorsOk := by
  induction h with
  | init nc F M s h => exact Sola.new_shaped nc F M s h
  | step s fuel frame cur sem _ hpre hret ih =>
    rcases Sola.Process_inv L hL s ih.1 ih.2 frame cur sem hpre fuel with hr | hr
    · exact ⟨hr.2.1, hr.2.2.1⟩
    · rw [hr] at hret
      exact absurd hret (by decide)

theorem Sola.config_frameSize {s s1 : Sola} (h : s1.config = s.config) :
    s1.mFrameSize = s.mFrameSize := by
  simp only [Sola.config, List.cons.injEq, and_true] at h
  exact h.2.1

theorem Sola.markAdvanceLoop_cursor (L : Library) (hL : L.Pow2Bounded) (cur : Int) (sem : ℚ)
    (hsem : -12 ≤ sem ∧ sem ≤ 12) (F M : Int) (fuel : Nat) :
    ∀ ls : LoopState, LoopInv ls → (0 < cur ∧ cur ≤ ls.sola.mMaxPeriod) →
      ls.sola.mFrameSize = F → ls.sola.mMaxPeriod = M →
      (cursorLoop F M cur (stretchedPeriod L cur sem) fuel ls.cursor = none →
        (markAdvanceLoop L cur sem fuel ls).1 = Status.outOfFuel) ∧
      (∀ c, cursorLoop F M cur (stretchedPeriod L cur sem) fuel ls.cursor = some c →
        (markAdvanceLoop L cur sem fuel ls).1 = Status.returned ∧
        (markAdvanceLoop L cur sem fuel ls).2.cursor = c) := by
  induction fuel with
  | zero =>
    intro ls h _ hF hM
    have hend := h.shaped.searchRange_end
    unfold markAdvanceLoop cursorLoop
    by_cases hc : loopCond ls
    · have hc' : ls.cursor.nextA > M ∨ ls.cursor.nextS > M := by
        unfold loopCond at hc; rw [hend, hM] at hc; exact hc
      rw [if_pos hc, if_pos hc']
      exact ⟨fun _ => rfl, fun c hcc => absurd hcc (by simp)⟩
    · have hc' : ¬ (ls.cursor.nextA > M ∨ ls.cursor.nextS > M) := by
        unfold loopCond at hc; rw [hend, hM] at hc; exact hc
      rw [if_neg hc, if_neg hc']
      refine ⟨fun hn => absurd hn (by simp), fun c hcc => ⟨rfl, ?_⟩⟩
      simpa using hcc
  | succ k ih =>
    intro ls h hcur hF hM
    have hend := h.shaped.searchRange_end
    unfold markAdvanceLoop cursorLoop
    by_cases hc : loopCond ls
    · have hc' : ls.cursor.nextA > M ∨ ls.cursor.nextS > M := by
        unfold loopCond at hc; rw [hend, hM] at hc; exact hc
      rw [if_pos hc, if_pos hc']
      obtain ⟨b1, b2, b3, b4⟩ := h.loopBody L hL cur sem hcur hsem hc
      rcases hb : loopBody L cur sem ls with ⟨st, ls'⟩
      rw [hb] at b1 b2 b3 b4
      simp only at b1 b2 b3 b4
      subst b1
      simp only
      rw [hF] at b4
      rw [← b4]
      exact ih ls' b2 (by rw [Sola.config_maxPeriod b3]; exact hcur)
        (by rw [Sola.config_frameSize b3]; exact hF)
        (by rw [Sola.config_maxPeriod b3]; exact hM)
    · have hc' : ¬ (ls.cursor.nextA > M ∨ ls.cursor.nextS > M) := by
        unfold loopCond at hc; rw [hend, hM] at hc; exact hc
      rw [if_neg hc, if_neg hc']
      refine ⟨fun hn => absurd hn (by simp), fun c hcc => ⟨rfl, ?_⟩⟩
      simpa using hcc

theorem Sola.Process_cursor (L : Library) (hL : L.Pow2Bounded) (s : Sola) (hs : s.Shaped)
    (hc : s.CursorsOk) (frame : AudioBuffer) (cur : Int) (sem : ℚ)
    (hpre : s.preconditions frame cur sem) (fuel : Nat) :
    (cursorLoop s.mFrameSize s.mMaxPeriod cur (stretchedPeriod L cur sem) fuel s.entryCursor
        = none →
      (Process L fuel s frame cur sem).status = Status.outOfFuel) ∧
    (∀ c, cursorLoop s.mFrameSize s.mMaxPeriod cur (stretchedPeriod L cur sem) fuel
        s.entryCursor = some c →
      (Process L fuel s frame cur sem).status = Status.returned ∧
      (Process L fuel s frame cur sem).sola.mAnalysis.lastMarkOffset = c.nextA + c.anP ∧
      (Process L fuel s frame cur sem).sola.mAnalysis.lastPeriod = c.anP ∧
      (Process L fuel s frame cur sem).sola.mSynthesis.lastMarkOffset = c.nextS + c.syP ∧
      (Process L fuel s frame cur sem).sola.mSynthesis.lastPeriod = c.syP) := by
  have hpre' := hpre
  obtain ⟨hfc, hfs, hsem, hcur⟩ := hpre
  obtain ⟨i1, i2, i3⟩ := Sola.loopInit_ingested s hs hc frame
  have hcur0 : (loopInit (s.ingested frame)).2.cursor = s.entryCursor := by
    simp only [loopInit, Sola.ingested, LoopState.cursor, Sola.entryCursor]
    split <;> rfl
  have hM : (loopInit (s.ingested frame)).2.sola.mMaxPeriod = s.mMaxPeriod := by
    rw [i3]; rfl
  have hF : (loopInit (s.ingested frame)).2.sola.mFrameSize = s.mFrameSize := by
    rw [i3]; rfl
  obtain ⟨m1, m2⟩ := Sola.markAdvanceLoop_cursor L hL cur sem hsem s.mFrameSize s.mMaxPeriod
    fuel _ i2 (by rw [hM]; exact hcur) hF hM
  rw [hcur0] at m1 m2
  have hadv : advance L fuel s frame cur sem
      = match markAdvanceLoop L cur sem fuel (loopInit (s.ingested frame)).2 with
        | (Status.returned, ls') => finishLoop ls'
        | (st, ls') => (st, ls'.sola) := by
    unfold advance
    rw [Sola.ingest_eq s hs frame hfc hfs]
    simp only
    rcases hi : loopInit (s.ingested frame) with ⟨st, ls⟩
    rw [hi] at i1
    simp only at i1
    subst i1
    rfl
  constructor
  · intro hn
    have := m1 hn
    unfold Process
    rw [if_neg (not_not.mpr hpre'), hadv]
    rcases hl : markAdvanceLoop L cur sem fuel (loopInit (s.ingested frame)).2 with ⟨st, ls'⟩
    rw [hl] at this
    simp only at this
    subst this
    rfl
  · intro c hcc
    obtain ⟨r1, r2⟩ := m2 c hcc
    rcases Sola.markAdvanceLoop_inv L hL cur sem hsem fuel _ i2 (by rw [hM]; exact hcur)
      with hr | hr
    swap
    · rw [r1] at hr; exact absurd hr (by decide)
    obtain ⟨-, q2, q3, q4⟩ := hr
    unfold Process
    rw [if_neg (not_not.mpr hpre'), hadv]
    rcases hl : markAdvanceLoop L cur sem fuel (loopInit (s.ingested frame)).2 with ⟨st, ls'⟩
    rw [hl] at r1 r2 q2 q3 q4
    simp only at r1 r2 q2 q3 q4
    subst r1
    simp only
    obtain ⟨f1, f2, f3, f4⟩ := Sola.finishLoop_spec ls' q2 q3
    rcases hf : finishLoop ls' with ⟨st, s1⟩
    rw [hf] at f1 f2 f3 f4
    simp only at f1 f2 f3 f4
    subst f1
    simp only
    have e1 : s1.mNumChannels = s.mNumChannels := by
      have := f4.trans (q4.trans (congrArg Sola.config i3))
      simp only [Sola.config, List.cons.injEq] at this; exact this.1
    have e2 : s1.mFrameSize = s.mFrameSize := by
      have := f4.trans (q4.trans (congrArg Sola.config i3))
      simp only [Sola.config, List.cons.injEq] at this; exact this.2.1
    rw [Sola.emit_eq s1 f2 frame (by rw [e1]; exact hfc) (by rw [e2]; exact hfs)]
    have g : s1 = (finishLoop ls').2 := by rw [hf]
    have hA := q2.nextA_eq
    have hS := q2.nextS_eq
    subst r2
    refine ⟨rfl, ?_, ?_, ?_, ?_⟩
    · simp only [Sola.emitted, g, finishLoop, LoopState.cursor]
      split <;> simp only <;> omega
    · simp only [Sola.emitted, g, finishLoop, LoopState.cursor]
      split <;> rfl
    · simp only [Sola.emitted, g, finishLoop, LoopState.cursor]
      split <;> simp only <;> omega
    · simp only [Sola.emitted, g, finishLoop, LoopState.cursor]
      split <;> rfl

theorem cursorLoop_none_of_step (F M cur p : Int) (c : Cursor)
    (hcond : c.nextA > M ∨ c.nextS > M)
    (h : ∀ fuel, cursorLoop F M cur p fuel (cursorStep F cur p c) = none) :
    ∀ fuel, cursorLoop F M cur p fuel c = none := by
  intro fuel
  cases fuel with
  | zero => unfold cursorLoop; rw [if_pos hcond]
  | succ k => unfold cursorLoop; rw [if_pos hcond]; exact h k

theorem cursorLoop_none_of_fixed (F M cur p : Int) (c : Cursor)
    (hcond : c.nextA > M ∨ c.nextS > M) (hfix : cursorStep F cur p c = c) :
    ∀ fuel, cursorLoop F M cur p fuel c = none := by
  intro fuel
  induction fuel with
  | zero => unfold cursorLoop; rw [if_pos hcond]
  | succ k ih => unfold cursorLoop; rw [if_pos hcond]; simp only; rw [hfix]; exact ih

theorem testEngine_inv : testEngine.Shaped ∧ testEngine.CursorsOk :=
  Sola.new_shaped 1 2 1 testEngine testEngine_new

theorem stretchedPeriod_test_one : stretchedPeriod testLibrary 1 12 = 0 := by
  have h : ((1 : Int) : ℚ) * testLibrary.pow2 (-12 / 12) = 1 / 2 := by
    norm_num [testLibrary]
  unfold stretchedPeriod truncToInt
  simp only
  rw [h, if_pos (by norm_num), Int.floor_eq_iff]
  norm_num

theorem emod_eq_of_shift (x y cap k : Int) (hx : x = y + k * cap) (h0 : 0 ≤ y)
    (h1 : y < cap) : x % cap = y := by
  subst hx
  rw [Int.add_mul_emod_self]
  exact Int.emod_eq_of_lt h0 h1

theorem sampleAt_eq (b : CircularBuffer) (hhead : 0 ≤ b.head ∧ b.head < b.numSamples)
    (c offset : Int) (h0 : 0 ≤ offset) (h1 : offset ≤ b.numSamples) :
    b.sampleAt c offset = b.buffer.data c ((b.head - offset) % b.numSamples) := by
  obtain ⟨idx, hi, -, -, he⟩ := OffsetToIdx_some b hhead offset h0 h1
  unfold CircularBuffer.sampleAt
  rw [hi, he]

theorem stretchedPeriod_test_zero : stretchedPeriod testLibrary 1 0 = 1 := by
  have h : ((1 : Int) : ℚ) * testLibrary.pow2 (-0 / 12) = 1 := by
    norm_num [testLibrary]
  unfold stretchedPeriod truncToInt
  simp only
  rw [h, if_pos (by norm_num), Int.floor_eq_iff]
  norm_num

theorem testEngine_returns :
    (Sola.Process testLibrary 10 testEngine testFrame 1 0).status = Status.returned := by
  refine ((Sola.Process_cursor testLibrary testLibrary_pow2Bounded testEngine testEngine_inv.1
    testEngine_inv.2 testFrame 1 0 (by decide) 10).2 ⟨1, 1, 1, 1⟩ ?_).1
  rw [stretchedPeriod_test_zero]
  decide

theorem testEngine43_new : Sola.new 1 4 3 = some testEngine43 :=
  (Option.some_get _).symm

theorem testEngine43_inv : testEngine43.Shaped ∧ testEngine43.CursorsOk :=
  Sola.new_shaped 1 4 3 testEngine43 testEngine43_new

theorem stretchedPeriod_half (L : Library) (hpow : L.pow2 (-1) = 1 / 2) (cur : Int)
    (hcur : 0 < cur) : stretchedPeriod L cur 12 = cur / 2 := by
  have h : ((cur : Int) : ℚ) * L.pow2 (-12 / 12) = (cur : ℚ) / ((2 : ℕ) : ℚ) := by
    rw [show (-12 / 12 : ℚ) = -1 by norm_num, hpow]
    push_cast
    ring
  have h0 : (0 : ℚ) ≤ (cur : ℚ) / ((2 : ℕ) : ℚ) := by
    have : (0 : ℚ) < (cur : ℚ) := by exact_mod_cast hcur
    positivity
  unfold stretchedPeriod truncToInt
  simp only
  rw [h, if_pos h0, Rat.floor_intCast_div_natCast]
  rfl

theorem Psola.analyse_keeps {π : Type} (P : PyinLibrary π) (st : Psola π)
    (frame : AudioBuffer) :
    (Psola.analyse P st frame).2.1.mSola = st.mSola ∧
    (Psola.analyse P st frame).2.1.mSampleRate = st.mSampleRate := by
  unfold Psola.analyse
  split_ifs <;> first | exact ⟨rfl, rfl⟩ | (split <;> exact ⟨rfl, rfl⟩)

theorem land_pow_two (k : Nat) : Int.land ((2 : Int) ^ k) ((2 : Int) ^ k - 1) = 0 := by
  have h1 : ((2 : Int) ^ k) = (((2 ^ k : Nat)) : Int) := by push_cast; rfl
  have h2 : ((2 : Int) ^ k - 1) = (((2 ^ k - 1 : Nat)) : Int) := by
    have : 1 ≤ 2 ^ k := Nat.one_le_two_pow
    push_cast [Nat.cast_sub this]
    rfl
  rw [h2, h1]
  show ((((2 ^ k) &&& (2 ^ k - 1) : Nat)) : Int) = 0
  rw [Nat.and_pow_two_sub_one_eq_mod, Nat.mod_self]
  rfl

theorem tdiv_pow_two (k i : Nat) (hi : i ≤ k) :
    ((2 : Int) ^ k).tdiv ((2 : Int) ^ i) = (2 : Int) ^ (k - i) := by
  rw [Int.tdiv_eq_ediv (by positivity) (by positivity)]
  have h : (2 : Int) ^ k = (2 : Int) ^ (k - i) * (2 : Int) ^ i := by
    rw [← pow_add, Nat.sub_add_cancel hi]
  rw [h, Int.mul_ediv_cancel _ (by positivity)]

theorem tdiv_pow_two_succ (k : Nat) :
    ((2 : Int) ^ k).tdiv ((2 : Int) ^ (k + 1)) = 0 := by
  rw [Int.tdiv_eq_ediv (by positivity) (by positivity)]
  apply Int.ediv_eq_zero_of_lt (by positivity)
  rw [pow_succ]
  have : (0 : Int) < 2 ^ k := by positivity
  omega

/-- The loop of getFrameSize started at numFrameSplit = 2^i, when every smaller split leaves
a quotient above the bound and the bound is at least 1. -/
theorem Psola.getFrameSizeLoop_spec (sampleRate : ℚ) (hsr : 1 ≤ kPyinUpdatePeriod * sampleRate)
    (k : Nat) (d : Nat) :
    ∀ (i fuel : Nat), i + d = k → d ≤ fuel →
      (∀ j : Nat, k - i < j → j ≤ k → ((2 : ℚ) ^ j) > kPyinUpdatePeriod * sampleRate) →
      ∃ m : Nat, m ≤ k ∧
        Psola.getFrameSizeLoop sampleRate ((2 : Int) ^ k) fuel ((2 : Int) ^ i)
          = some ((2 : Int) ^ (k - m)) ∧
        ((2 : ℚ) ^ m) ≤ kPyinUpdatePeriod * sampleRate ∧
        (∀ j : Nat, m < j → j ≤ k → ((2 : ℚ) ^ j) > kPyinUpdatePeriod * sampleRate) := by
  induction d with
  | zero =>
    intro i fuel hik _ hprev
    have hi : i = k := by omega
    subst hi
    refine ⟨0, Nat.zero_le _, ?_, by simpa using hsr, fun j hj0 hj1 => hprev j (by omega) hj1⟩
    unfold Psola.getFrameSizeLoop
    rw [tdiv_pow_two i i (le_refl _), Nat.sub_self]
    have : ¬ (((2 ^ 0 : Int) : ℚ) > kPyinUpdatePeriod * sampleRate) := by
      push_cast; simpa using hsr
    rw [if_neg this]
    simp
  | succ d ih =>
    intro i fuel hik hfuel hprev
    unfold Psola.getFrameSizeLoop
    rw [tdiv_pow_two k i (by omega)]
    by_cases hc : (((2 : Int) ^ (k - i) : Int) : ℚ) > kPyinUpdatePeriod * sampleRate
    · rw [if_pos hc]
      obtain ⟨f, rfl⟩ : ∃ f, fuel = f + 1 := ⟨fuel - 1, by omega⟩
      simp only
      rw [← pow_succ]
      refine ih (i + 1) f (by omega) (by omega) ?_
      intro j hj0 hj1
      by_cases hj : j = k - i
      · subst hj
        push_cast at hc
        exact hc
      · exact hprev j (by omega) hj1
    · rw [if_neg hc]
      refine ⟨k - i, by omega, ?_, ?_, hprev⟩
      · rw [show k - (k - i) = i by omega]
      · push_cast at hc
        exact not_lt.mp hc

/-- What the update of the rolling buffer does, for every state and frame of matching shape:
the old samples move from index i to index i + frameSize and the head receives the sum of
the channels scaled by 1 / numChannels. -/
theorem Psola.updatePyinBuffer_spec {π : Type} (st : Psola π) (frame : AudioBuffer)
    (hnc : 0 < st.mNumChannels) (hF : 0 ≤ st.mFrameSize)
    (hN : st.mFrameSize ≤ st.mPyinBuffer.size)
    (hfc : frame.numChannels = st.mNumChannels) (hfs : frame.numSamples = st.mFrameSize) :
    (st.updatePyinBuffer frame).1 = Status.returned ∧
    (st.updatePyinBuffer frame).2.size = st.mPyinBuffer.size ∧
    (∀ i : Int, st.mFrameSize ≤ i → i < st.mPyinBuffer.size →
      (st.updatePyinBuffer frame).2.data i = st.mPyinBuffer.data (i - st.mFrameSize)) ∧
    (∀ k : Int, 0 ≤ k → k < st.mFrameSize →
      (st.updatePyinBuffer frame).2.data k
        = (∑ c in Finset.range st.mNumChannels.toNat, frame.data (c : Int) k)
          / (st.mNumChannels : ℚ)) := by
  unfold Psola.updatePyinBuffer
  simp only
  rw [if_neg (not_not.mpr ⟨hF, hN⟩)]
  have key := forChannels_ind (st.mixChannel frame)
    (fun n v => v.size = st.mPyinBuffer.size ∧
      v.data = fun i =>
        if 0 ≤ i ∧ i < st.mFrameSize then
          ∑ c in Finset.range n, frame.data (c : Int) i * (1 / (st.mNumChannels : ℚ))
        else if st.mFrameSize ≤ i ∧ i < st.mPyinBuffer.size then
          st.mPyinBuffer.data (i - st.mFrameSize)
        else st.mPyinBuffer.data i)
    st.mNumChannels.toNat
    ((st.mPyinBuffer.copyBackward 0 (st.mPyinBuffer.size - st.mFrameSize)
      st.mPyinBuffer.size).fill 0 (0 + st.mFrameSize) 0)
    ⟨rfl, by
      funext i
      simp only [FloatVector.fill, FloatVector.copyBackward, Finset.range_zero,
        Finset.sum_empty]
      split_ifs <;> first | rfl | (exfalso; omega) | (congr 1; omega)⟩
    (by
      intro c hc v hv
      obtain ⟨hv1, hv2⟩ := hv
      have hc' : (c : Int) < st.mNumChannels := by omega
      unfold Psola.mixChannel
      simp only
      rw [if_pos ⟨⟨by omega, by omega, le_refl _, hF, by omega⟩, by omega⟩]
      refine ⟨rfl, hv1, ?_⟩
      funext i
      simp only [FloatVector.addWithMultiply, AudioBuffer.readPointer, hv2,
        Finset.sum_range_succ, zero_add]
      split_ifs <;> rfl)
  obtain ⟨k1, k2, k3⟩ := key
  refine ⟨k1, k2, ?_, ?_⟩
  · intro i hi0 hi1
    rw [k3]
    simp only
    rw [if_neg (by omega), if_pos ⟨hi0, hi1⟩]
  · intro k hk0 hk1
    rw [k3]
    simp only
    rw [if_pos ⟨hk0, hk1⟩, ← Finset.sum_mul, mul_one_div]

theorem cursorLoop_some_of_fuel (F M cur p : Int) (hcur : 0 < cur) (hp : 0 < p) (fuel : Nat) :
    ∀ c : Cursor, 0 < c.anP → 0 < c.syP →
      (c.nextA - M).toNat + (c.nextS - M).toNat ≤ fuel →
      ∃ c', cursorLoop F M cur p fuel c = some c' := by
  induction fuel with
  | zero =>
    intro c _ _ hm
    unfold cursorLoop
    rw [if_neg (by omega)]
    exact ⟨c, rfl⟩
  | succ k ih =>
    intro c ha hs hm
    unfold cursorLoop
    by_cases hc : c.nextA > M ∨ c.nextS > M
    · rw [if_pos hc]
      simp only
      apply ih
      · unfold cursorStep
        split_ifs <;> simp only <;> omega
      · unfold cursorStep
        split_ifs <;> simp only <;> omega
      · unfold cursorStep
        split_ifs <;> simp only <;> omega
    · rw [if_neg hc]
      exact ⟨c, rfl⟩

/-- From a reachable state, a call that satisfies the preconditions and recomputes a
synthesis period of at least 1 returns, given 2 * frameSize units of fuel or more. -/
theorem Sola.Process_returns_of_positive_period (L : Library) (hL : L.Pow2Bounded)
    (s : Sola) (hs : Sola.Reachable L s) (frame : AudioBuffer) (cur : Int) (sem : ℚ)
    (hpre : s.preconditions frame cur sem) (hp : 0 < stretchedPeriod L cur sem)
    (fuel : Nat) (hfuel : 2 * s.mFrameSize ≤ fuel) :
    (Sola.Process L fuel s frame cur sem).status = Status.returned := by
  obtain ⟨hsh, hc⟩ := hs.inv hL
  have h1 := hc.aNext
  have h2 := hc.sNext
  have h3 := hc.sMark_lo
  have h4 := hc.aPeriod_pos
  have h5 := hsh.frameSize_pos
  obtain ⟨c', hc'⟩ := cursorLoop_some_of_fuel s.mFrameSize s.mMaxPeriod cur
    (stretchedPeriod L cur sem) hpre.2.2.2.1 hp fuel s.entryCursor
    (by simp only [Sola.entryCursor]; exact h4)
    (by simp only [Sola.entryCursor]; omega)
    (by simp only [Sola.entryCursor]; omega)
  exact ((Sola.Process_cursor L hL s hsh hc frame cur sem hpre fuel).2 c' hc').1

theorem Psola.Process_of_analyse {π : Type} (P : PyinLibrary π) (L : Library) (fuel : Nat)
    (st : Psola π) (frame : AudioBuffer) (sem : ℚ) (st1 : Psola π) (res : PyinResult)
    (ha : Psola.analyse P st frame = (Status.returned, st1, res)) :
    Psola.engineArgs P st frame sem
      = some (roundToInt (st.mSampleRate / res.freq), if res.isVoiced then sem else 0) ∧
    Psola.Process P L fuel st frame sem =
      { status :=
          (Sola.Process L fuel st.mSola frame (roundToInt (st.mSampleRate / res.freq))
            (if res.isVoiced then sem else 0)).status
        psola :=
          { st1 with
            mSola :=
              (Sola.Process L fuel st.mSola frame (roundToInt (st.mSampleRate / res.freq))
                (if res.isVoiced then sem else 0)).sola }
        frame :=
          (Sola.Process L fuel st.mSola frame (roundToInt (st.mSampleRate / res.freq))
            (if res.isVoiced then sem else 0)).frame } := by
  have hk := Psola.analyse_keeps P st frame
  rw [ha] at hk
  simp only at hk
  constructor
  · unfold Psola.engineArgs
    rw [ha]
    simp only [hk.2]
  · unfold Psola.Process
    rw [ha]
    simp only [hk.1, hk.2]
    cases res.isVoiced <;> simp

theorem testPsola24_unvoiced :
    (Psola.analyse testPyin testPsola24 testFrameNeg).1 = Status.returned ∧
    (Psola.analyse testPyin testPsola24 testFrameNeg).2.2.isVoiced = false ∧
    (Psola.analyse testPyin testPsola24 testFrameNeg).2.2.freq = 24000 := by
  refine ⟨?_, ?_, ?_⟩ <;>
    norm_num [Psola.analyse, Psola.updatePyinBuffer, forChannels, Psola.mixChannel, testPsola24,
      testPsola, testFrameNeg, testPyin, FloatVector.addWithMultiply, FloatVector.fill,
      FloatVector.copyBackward, AudioBuffer.readPointer, AudioBuffer.inRange]

theorem roundToInt_one : roundToInt ((24000 : ℚ) / 24000) = 1 := by
  unfold roundToInt
  rw [if_pos (by norm_num), Int.floor_eq_iff]
  norm_num

theorem roundToInt_two : roundToInt ((24000 : ℚ) / 12000) = 2 := by
  unfold roundToInt
  rw [if_pos (by norm_num), Int.floor_eq_iff]
  norm_num

theorem testPyin2_first :
    (Psola.analyse testPyin2 testPsola24 testFrame).1 = Status.returned ∧
    (Psola.analyse testPyin2 testPsola24 testFrame).2.2.isVoiced = true ∧
    (Psola.analyse testPyin2 testPsola24 testFrame).2.2.freq = 24000 := by
  refine ⟨?_, ?_, ?_⟩ <;>
    norm_num [Psola.analyse, Psola.updatePyinBuffer, forChannels, Psola.mixChannel, testPsola24,
      testPsola, testFrame, testPyin2, FloatVector.addWithMultiply, FloatVector.fill,
      FloatVector.copyBackward, AudioBuffer.readPointer, AudioBuffer.inRange]

theorem testPyin2_second (X : Sola) :
    (Psola.analyse testPyin2
      { (Psola.analyse testPyin2 testPsola24 testFrame).2.1 with mSola := X }
      testFrameNeg).1 = Status.returned ∧
    (Psola.analyse testPyin2
      { (Psola.analyse testPyin2 testPsola24 testFrame).2.1 with mSola := X }
      testFrameNeg).2.2.isVoiced = false ∧
    (Psola.analyse testPyin2
      { (Psola.analyse testPyin2 testPsola24 testFrame).2.1 with mSola := X }
      testFrameNeg).2.2.freq = 12000 := by
  refine ⟨?_, ?_, ?_⟩ <;>
    norm_num [Psola.analyse, Psola.updatePyinBuffer, forChannels, Psola.mixChannel, testPsola24,
      testPsola, testFrame, testFrameNeg, testPyin2, FloatVector.addWithMultiply,
      FloatVector.fill, FloatVector.copyBackward, AudioBuffer.readPointer, AudioBuffer.inRange]

theorem Sola.updateWindow_same (L : Library) (s : Sola) (g : Int)
    (h : s.mCurrentWindowSize = g) : updateWindow L s g = (Status.returned, s) := by
  unfold Sola.updateWindow
  rw [if_neg (not_not.mpr h)]

theorem Sola.updateWindow_other (L : Library) (s : Sola) (g : Int)
    (h : s.mCurrentWindowSize ≠ g) :
    (updateWindow L s g).2.mCurrentWindowSize = g ∧
    ∀ i : Int, 0 ≤ i → i < g →
      (updateWindow L s g).2.mWindowFunction.data i
        = L.interpolate ((kWindowLen : ℚ) / (g : ℚ)) L.kHanningWindow g i := by
  unfold Sola.updateWindow
  rw [if_pos h]
  simp only
  refine ⟨by split <;> rfl, fun i h0 h1 => ?_⟩
  split <;> simp only [h0, h1, and_self, if_true]

theorem Sola.updateWindow_coherent (L : Library) (s : Sola) (g : Int)
    (h : s.WindowCoherent L) :
    (updateWindow L s g).2.WindowCoherent L ∧ (updateWindow L s g).2.mCurrentWindowSize = g := by
  by_cases hg : s.mCurrentWindowSize = g
  · rw [Sola.updateWindow_same L s g hg]
    exact ⟨h, hg⟩
  · obtain ⟨h1, h2⟩ := Sola.updateWindow_other L s g hg
    refine ⟨?_, h1⟩
    intro i hi0 hi1
    rw [h1] at hi1 ⊢
    exact h2 i hi0 hi1

theorem Sola.synthesisStep_window (L : Library) (cur : Int) (sem : ℚ) (ls : LoopState) :
    (synthesisStep L cur sem ls).2.sola.mWindowFunction
      = (updateWindow L ls.sola (2 * ls.sola.mAnalysis.lastPeriod)).2.mWindowFunction ∧
    (synthesisStep L cur sem ls).2.sola.mCurrentWindowSize
      = (updateWindow L ls.sola (2 * ls.sola.mAnalysis.lastPeriod)).2.mCurrentWindowSize := by
  unfold Sola.synthesisStep
  simp only
  rcases hu : updateWindow L ls.sola (2 * ls.sola.mAnalysis.lastPeriod) with ⟨st, s1⟩
  cases st
  · simp only
    repeat' first | exact ⟨rfl, rfl⟩ | split
  all_goals exact ⟨rfl, rfl⟩

theorem Sola.loopBody_coherent (L : Library) (cur : Int) (sem : ℚ) (ls : LoopState)
    (h : ls.sola.WindowCoherent L) : (loopBody L cur sem ls).2.sola.WindowCoherent L := by
  unfold Sola.loopBody
  by_cases h1 : ¬ (ls.sola.mSearchRange.startOffset ≥ ls.nextAnalysisOffset ∧
      ls.sola.mSearchRange.startOffset ≥ ls.nextSynthesisOffset)
  · rw [if_pos h1]
    exact h
  rw [if_neg h1]
  by_cases h2 : ls.nextAnalysisOffset ≥ ls.nextSynthesisOffset
  · rw [if_pos h2]
    exact h
  rw [if_neg h2]
  obtain ⟨w1, w2⟩ := Sola.synthesisStep_window L cur sem ls
  obtain ⟨c1, -⟩ := Sola.updateWindow_coherent L ls.sola (2 * ls.sola.mAnalysis.lastPeriod) h
  intro i hi0 hi1
  rw [w2] at hi1 ⊢
  rw [w1]
  exact c1 i hi0 hi1

theorem Sola.markAdvanceLoop_coherent (L : Library) (cur : Int) (sem : ℚ) (fuel : Nat) :
    ∀ ls : LoopState, ls.sola.WindowCoherent L →
      (markAdvanceLoop L cur sem fuel ls).2.sola.WindowCoherent L := by
  induction fuel with
  | zero =>
    intro ls h
    unfold markAdvanceLoop
    split_ifs <;> exact h
  | succ k ih =>
    intro ls h
    unfold markAdvanceLoop
    split_ifs
    · have hb := Sola.loopBody_coherent L cur sem ls h
      rcases hbody : loopBody L cur sem ls with ⟨st, ls'⟩
      rw [hbody] at hb
      cases st
      · exact ih ls' hb
      all_goals exact hb
    · exact h

theorem Sola.Process_coherent (L : Library) (fuel : Nat) (s : Sola) (frame : AudioBuffer)
    (cur : Int) (sem : ℚ) (h : s.WindowCoherent L) :
    (Process L fuel s frame cur sem).sola.WindowCoherent L := by
  have hing : (s.ingest frame).2.WindowCoherent L := by
    unfold Sola.ingest
    split <;> exact h
  have hadv : (advance L fuel s frame cur sem).2.WindowCoherent L := by
    unfold advance
    rcases hi : s.ingest frame with ⟨st, s1⟩
    rw [hi] at hing
    cases st
    · simp only
      have hli : (loopInit s1).2.sola.WindowCoherent L := by
        unfold loopInit
        split <;> exact hing
      rcases hl : loopInit s1 with ⟨st, ls⟩
      rw [hl] at hli
      cases st
      · simp only
        have hm := Sola.markAdvanceLoop_coherent L cur sem fuel ls hli
        rcases hml : markAdvanceLoop L cur sem fuel ls with ⟨st, ls'⟩
        rw [hml] at hm
        cases st
        · simp only [finishLoop]
          split <;> exact hm
        all_goals exact hm
      all_goals exact hli
    all_goals exact hing
  unfold Process
  by_cases hp : ¬ s.preconditions frame cur sem
  · rw [if_pos hp]
    exact h
  rw [if_neg hp]
  rcases ha : advance L fuel s frame cur sem with ⟨st, s1⟩
  rw [ha] at hadv
  cases st
  · simp only
    unfold emit
    repeat' first | exact hadv | split
  all_goals exact hadv

theorem Sola.Reachable.windowCoherent {L : Library} {s : Sola} (h : Sola.Reachable L s) :
    s.WindowCoherent L := by
  induction h with
  | init nc F M s h =>
    unfold Sola.new at h
    split at h
    · simp only [Option.some.injEq] at h
      subst h
      intro i hi0 hi1
      simp only at hi1
      omega
    · exact absurd h (by simp)
  | step s fuel frame cur sem _ _ _ ih => exact Sola.Process_coherent L fuel s frame cur sem ih

theorem Sola.loopIter_coherent (L : Library) (cur : Int) (sem : ℚ) :
    ∀ (n : Nat) (ls0 ls : LoopState), ls0.sola.WindowCoherent L →
      Sola.loopIter L cur sem n ls0 = some ls → ls.sola.WindowCoherent L := by
  intro n
  induction n with
  | zero =>
    intro ls0 ls h0 h
    simp only [Sola.loopIter, Option.some.injEq] at h
    subst h
    exact h0
  | succ n ih =>
    intro ls0 ls h0 h
    unfold Sola.loopIter at h
    split at h
    · have hb := Sola.loopBody_coherent L cur sem ls0 h0
      rcases hlb : Sola.loopBody L cur sem ls0 with ⟨st, ls1⟩
      rw [hlb] at h hb
      cases st
      · exact ih ls1 ls hb h
      all_goals exact absurd h (by simp)
    · exact absurd h (by simp)

theorem Sola.loopInit_window (s : Sola) :
    (Sola.loopInit s).2.sola.mWindowFunction = s.mWindowFunction ∧
    (Sola.loopInit s).2.sola.mCurrentWindowSize = s.mCurrentWindowSize := by
  unfold Sola.loopInit
  repeat' first | exact ⟨rfl, rfl⟩ | split

theorem Sola.ingest_window (s : Sola) (frame : AudioBuffer) :
    (s.ingest frame).2.mWindowFunction = s.mWindowFunction ∧
    (s.ingest frame).2.mCurrentWindowSize = s.mCurrentWindowSize := by
  unfold Sola.ingest
  repeat' first | exact ⟨rfl, rfl⟩ | split

theorem GetHanningWindow_pair (i : Int) (h0 : 0 ≤ i) (h1 : i < 1024) :
    GetHanningWindow Real.cos Real.pi kWindowLen i
        + GetHanningWindow Real.cos Real.pi kWindowLen (i + 1024)
      = 1 - Real.sin (Real.pi / 4094) * Real.sin ((4 * (i : ℝ) + 1) * (Real.pi / 4094)) := by
  unfold GetHanningWindow kWindowLen
  rw [if_pos ⟨h0, by omega⟩, if_pos ⟨by omega, by omega⟩]
  have e1 : 2 * Real.pi * ((i : Int) : ℝ) / (((2048 - 1 : Int) : Int) : ℝ)
      = 4 * (i : ℝ) * (Real.pi / 4094) := by
    push_cast
    ring
  have e2 : 2 * Real.pi * (((i + 1024 : Int) : Int) : ℝ) / (((2048 - 1 : Int) : Int) : ℝ)
      = (4 * (i : ℝ) * (Real.pi / 4094) + 2 * (Real.pi / 4094)) + Real.pi := by
    push_cast
    ring
  rw [e1, e2, Real.cos_add_pi]
  have e3 := Real.cos_sub_cos (4 * (i : ℝ) * (Real.pi / 4094))
    (4 * (i : ℝ) * (Real.pi / 4094) + 2 * (Real.pi / 4094))
  have e4 : (4 * (i : ℝ) * (Real.pi / 4094)
      + (4 * (i : ℝ) * (Real.pi / 4094) + 2 * (Real.pi / 4094))) / 2
      = (4 * (i : ℝ) + 1) * (Real.pi / 4094) := by ring
  have e5 : (4 * (i : ℝ) * (Real.pi / 4094)
      - (4 * (i : ℝ) * (Real.pi / 4094) + 2 * (Real.pi / 4094))) / 2
      = -(Real.pi / 4094) := by ring
  rw [e4, e5, Real.sin_neg] at e3
  linarith

theorem sin_small_pos : 0 < Real.sin (Real.pi / 4094) ∧ Real.sin (Real.pi / 4094) < 1 / 1000 := by
  have hp := Real.pi_pos
  have h3 := Real.pi_lt_d2
  have hx : 0 < Real.pi / 4094 := by positivity
  refine ⟨Real.sin_pos_of_pos_of_lt_pi hx (by linarith), ?_⟩
  have := Real.sin_lt hx
  have : Real.pi / 4094 < 1 / 1000 := by
    rw [div_lt_div_iff₀ (by norm_num) (by norm_num)]
    linarith
  linarith

theorem sin_grid_pos (i : Int) (h0 : 0 ≤ i) (h1 : i < 1024) :
    0 < Real.sin ((4 * (i : ℝ) + 1) * (Real.pi / 4094)) ∧
    Real.sin ((4 * (i : ℝ) + 1) * (Real.pi / 4094)) ≤ 1 := by
  have hp := Real.pi_pos
  have hi0 : (0 : ℝ) ≤ (i : ℝ) := by exact_mod_cast h0
  have hi1 : (i : ℝ) ≤ 1023 := by
    have : i ≤ 1023 := by omega
    exact_mod_cast this
  refine ⟨Real.sin_pos_of_pos_of_lt_pi (by positivity) ?_, Real.sin_le_one _⟩
  have : (4 * (i : ℝ) + 1) * (Real.pi / 4094) ≤ 4093 * (Real.pi / 4094) := by
    apply mul_le_mul_of_nonneg_right _ (by positivity)
    linarith
  linarith

theorem Sola.CursorsOk.sMark_hi {s : Sola} (hc : s.CursorsOk) :
    s.mSynthesis.lastMarkOffset ≤ 3 * s.mMaxPeriod := by
  have h1 := hc.sPeriod_le
  have h2 := hc.sNext
  omega

theorem Sola.loopIter_config (L : Library) (hL : L.Pow2Bounded) (cur : Int) (sem : ℚ)
    (hsem : -12 ≤ sem ∧ sem ≤ 12) (n : Nat) :
    ∀ ls ls' : LoopState, LoopInv ls → (0 < cur ∧ cur ≤ ls.sola.mMaxPeriod) →
      loopIter L cur sem n ls = some ls' → LoopInv ls' ∧ ls'.sola.config = ls.sola.config := by
  induction n with
  | zero =>
    intro ls ls' h _ he
    simp only [loopIter, Option.some.injEq] at he
    subst he
    exact ⟨h, rfl⟩
  | succ k ih =>
    intro ls ls' h hcur he
    unfold loopIter at he
    by_cases hc : loopCond ls
    · rw [if_pos hc] at he
      obtain ⟨b1, b2, b3, -⟩ := h.loopBody L hL cur sem hcur hsem hc
      rcases hb : loopBody L cur sem ls with ⟨st, ls1⟩
      rw [hb] at b1 b2 b3 he
      simp only at b1 b2 b3
      subst b1
      simp only at he
      have hM := Sola.config_maxPeriod b3
      obtain ⟨r1, r2⟩ := ih ls1 ls' b2 (by rw [hM]; exact hcur) he
      exact ⟨r1, r2.trans b3⟩
    · rw [if_neg hc] at he
      exact absurd he (by simp)

theorem Sola.loopIter_cursor (L : Library) (hL : L.Pow2Bounded) (cur : Int) (sem : ℚ)
    (hsem : -12 ≤ sem ∧ sem ≤ 12) (F M : Int) (n : Nat) :
    ∀ ls : LoopState, LoopInv ls → (0 < cur ∧ cur ≤ ls.sola.mMaxPeriod) →
      ls.sola.mFrameSize = F → ls.sola.mMaxPeriod = M →
      Option.map LoopState.cursor (loopIter L cur sem n ls)
        = cursorIter F M cur (stretchedPeriod L cur sem) n ls.cursor := by
  induction n with
  | zero =>
    intro ls _ _ _ _
    rfl
  | succ k ih =>
    intro ls h hcur hF hM
    have hend := h.shaped.searchRange_end
    unfold loopIter cursorIter
    by_cases hc : loopCond ls
    · have hc' : ls.cursor.nextA > M ∨ ls.cursor.nextS > M := by
        unfold loopCond at hc; rw [hend, hM] at hc; exact hc
      rw [if_pos hc, if_pos hc']
      obtain ⟨b1, b2, b3, b4⟩ := h.loopBody L hL cur sem hcur hsem hc
      rcases hb : loopBody L cur sem ls with ⟨st, ls'⟩
      rw [hb] at b1 b2 b3 b4
      simp only at b1 b2 b3 b4
      subst b1
      simp only
      rw [hF] at b4
      rw [← b4]
      exact ih ls' b2 (by rw [Sola.config_maxPeriod b3]; exact hcur)
        (by rw [Sola.config_frameSize b3]; exact hF)
        (by rw [Sola.config_maxPeriod b3]; exact hM)
    · have hc' : ¬ (ls.cursor.nextA > M ∨ ls.cursor.nextS > M) := by
        unfold loopCond at hc; rw [hend, hM] at hc; exact hc
      rw [if_neg hc, if_neg hc']
      rfl

theorem Sola.loopIter_of_cursor (L : Library) (hL : L.Pow2Bounded) (cur : Int) (sem : ℚ)
    (hsem : -12 ≤ sem ∧ sem ≤ 12) (n : Nat) (ls : LoopState) (h : LoopInv ls)
    (hcur : 0 < cur ∧ cur ≤ ls.sola.mMaxPeriod) (c : Cursor)
    (hc : cursorIter ls.sola.mFrameSize ls.sola.mMaxPeriod cur (stretchedPeriod L cur sem) n
      ls.cursor = some c) :
    ∃ ls', loopIter L cur sem n ls = some ls' ∧ ls'.cursor = c ∧ LoopInv ls' ∧
      ls'.sola.config = ls.sola.config := by
  have hm := Sola.loopIter_cursor L hL cur sem hsem _ _ n ls h hcur rfl rfl
  rw [hc] at hm
  rcases hl : loopIter L cur sem n ls with _ | ls'
  · rw [hl] at hm
    exact absurd hm (by simp)
  · rw [hl] at hm
    simp only [Option.map_some', Option.some.injEq] at hm
    obtain ⟨r1, r2⟩ := Sola.loopIter_config L hL cur sem hsem n ls ls' h hcur hl
    exact ⟨ls', rfl, hm, r1, r2⟩

theorem Sola.loopIter_snoc (L : Library) (cur : Int) (sem : ℚ) (n : Nat) :
    ∀ ls0 la lb : LoopState, loopIter L cur sem n ls0 = some la → loopCond la →
      loopBody L cur sem la = (Status.returned, lb) →
      loopIter L cur sem (n + 1) ls0 = some lb := by
  induction n with
  | zero =>
    intro ls0 la lb h hc hb
    simp only [loopIter, Option.some.injEq] at h
    subst h
    unfold loopIter
    rw [if_pos hc, hb]
    rfl
  | succ k ih =>
    intro ls0 la lb h hc hb
    unfold loopIter at h
    unfold loopIter
    by_cases hc0 : loopCond ls0
    · rw [if_pos hc0] at h ⊢
      rcases hb0 : loopBody L cur sem ls0 with ⟨st, ls1⟩
      rw [hb0] at h
      cases st
      · exact ih ls1 la lb h hc hb
      all_goals exact absurd h (by simp)
    · rw [if_neg hc0] at h
      exact absurd h (by simp)

theorem LoopInv.commit_decreases {ls : LoopState} (h : LoopInv ls) (L : Library)
    (hL : L.Pow2Bounded) (cur : Int) (sem : ℚ)
    (hcur : 0 < cur ∧ cur ≤ ls.sola.mMaxPeriod) (hsem : -12 ≤ sem ∧ sem ≤ 12)
    (hcond : Sola.loopCond ls) :
    (ls.nextAnalysisOffset ≥ ls.nextSynthesisOffset →
      (Sola.loopBody L cur sem ls).2.sola.mAnalysis.lastMarkOffset
        = ls.sola.mAnalysis.lastMarkOffset - ls.analysisPeriod ∧
      (Sola.loopBody L cur sem ls).2.sola.mAnalysis.lastMarkOffset
        < ls.sola.mAnalysis.lastMarkOffset ∧
      (Sola.loopBody L cur sem ls).2.sola.mSynthesis.lastMarkOffset
        = ls.sola.mSynthesis.lastMarkOffset) ∧
    (ls.nextAnalysisOffset < ls.nextSynthesisOffset →
      (Sola.loopBody L cur sem ls).2.sola.mSynthesis.lastMarkOffset
        = ls.sola.mSynthesis.lastMarkOffset - ls.synthesisPeriod ∧
      (Sola.loopBody L cur sem ls).2.sola.mAnalysis.lastMarkOffset
        = ls.sola.mAnalysis.lastMarkOffset) := by
  obtain ⟨-, b2, -, b4⟩ := h.loopBody L hL cur sem hcur hsem hcond
  have a1 := h.nextA_eq
  have a2 := h.nextS_eq
  have a3 := h.anPeriod_pos
  have c1 := b2.nextA_eq
  have c2 := b2.nextS_eq
  have d1 : (Sola.loopBody L cur sem ls).2.nextAnalysisOffset
      = (cursorStep ls.sola.mFrameSize cur (stretchedPeriod L cur sem) ls.cursor).nextA := by
    rw [← b4]; rfl
  have d2 : (Sola.loopBody L cur sem ls).2.nextSynthesisOffset
      = (cursorStep ls.sola.mFrameSize cur (stretchedPeriod L cur sem) ls.cursor).nextS := by
    rw [← b4]; rfl
  have d3 : (Sola.loopBody L cur sem ls).2.analysisPeriod
      = (cursorStep ls.sola.mFrameSize cur (stretchedPeriod L cur sem) ls.cursor).anP := by
    rw [← b4]; rfl
  have d4 : (Sola.loopBody L cur sem ls).2.synthesisPeriod
      = (cursorStep ls.sola.mFrameSize cur (stretchedPeriod L cur sem) ls.cursor).syP := by
    rw [← b4]; rfl
  constructor
  · intro hbr
    simp only [cursorStep, LoopState.cursor, if_pos hbr] at d1 d2 d3 d4
    refine ⟨by omega, by omega, by omega⟩
  · intro hbr
    have hb : ¬ ls.nextAnalysisOffset ≥ ls.nextSynthesisOffset := not_le.mpr hbr
    simp only [cursorStep, LoopState.cursor, if_neg hb] at d1 d2 d3 d4
    refine ⟨by omega, by omega⟩

theorem testEngine_loopInit :
    Sola.loopInit (testEngine.ingest testFrame).2
        = (Status.returned, (Sola.loopInit (testEngine.ingested testFrame)).2) ∧
    LoopInv (Sola.loopInit (testEngine.ingested testFrame)).2 ∧
    (Sola.loopInit (testEngine.ingested testFrame)).2.sola.mFrameSize = 2 ∧
    (Sola.loopInit (testEngine.ingested testFrame)).2.sola.mMaxPeriod = 1 ∧
    (Sola.loopInit (testEngine.ingested testFrame)).2.cursor = ⟨3, 3, 1, 1⟩ := by
  obtain ⟨i1, i2, i3⟩ := Sola.loopInit_ingested testEngine testEngine_inv.1 testEngine_inv.2
    testFrame
  refine ⟨?_, i2, ?_, ?_, ?_⟩
  · rw [Sola.ingest_eq testEngine testEngine_inv.1 testFrame (by decide) (by decide)]
    exact Prod.ext i1 rfl
  · rw [i3]; decide
  · rw [i3]; decide
  · have hcur0 : (Sola.loopInit (testEngine.ingested testFrame)).2.cursor
        = testEngine.entryCursor := by
      simp only [Sola.loopInit, Sola.ingested, LoopState.cursor, Sola.entryCursor]
      split <;> rfl
    rw [hcur0]
    decide

theorem testEngine42_new : Sola.new 1 4 2 = some testEngine42 :=
  (Option.some_get _).symm

theorem testEngine42_inv : testEngine42.Shaped ∧ testEngine42.CursorsOk :=
  Sola.new_shaped 1 4 2 testEngine42 testEngine42_new

theorem testEngine42_returns :
    (Sola.Process testLibrary 10 testEngine42 testFrame4 1 0).status = Status.returned := by
  refine ((Sola.Process_cursor testLibrary testLibrary_pow2Bounded testEngine42
    testEngine42_inv.1 testEngine42_inv.2 testFrame4 1 0 (by decide) 10).2 ⟨2, 2, 1, 1⟩ ?_).1
  rw [stretchedPeriod_test_zero]
  decide

theorem Sola.loopInit_cursor (s : Sola) (frame : AudioBuffer) :
    (Sola.loopInit (s.ingested frame)).2.cursor = s.entryCursor := by
  simp only [Sola.loopInit, Sola.ingested, LoopState.cursor, Sola.entryCursor]
  split <;> rfl

theorem cursorLoop_anP (F M cur p : Int) (hFM : 2 * M ≤ F) (hcur : cur ≤ M) (fuel : Nat) :
    ∀ c c' : Cursor, c.anP ≤ M → (c.anP = cur ∨ c.nextA + c.anP > F) →
      cursorLoop F M cur p fuel c = some c' → c'.anP = cur := by
  induction fuel with
  | zero =>
    intro c c' h1 h2 h
    unfold cursorLoop at h
    by_cases hc : c.nextA > M ∨ c.nextS > M
    · rw [if_pos hc] at h
      exact absurd h (by simp)
    · rw [if_neg hc] at h
      simp only [Option.some.injEq] at h
      subst h
      omega
  | succ k ih =>
    intro c c' h1 h2 h
    unfold cursorLoop at h
    by_cases hc : c.nextA > M ∨ c.nextS > M
    · rw [if_pos hc] at h
      refine ih (cursorStep F cur p c) c' ?_ ?_ h
      · unfold cursorStep
        split_ifs <;> simp only <;> omega
      · unfold cursorStep
        split_ifs <;> simp only <;> first | omega | exact Or.inl trivial
    · rw [if_neg hc] at h
      simp only [Option.some.injEq] at h
      subst h
      omega

theorem cursorLoop_exit (F M cur p : Int) (fuel : Nat) :
    ∀ c c' : Cursor, cursorLoop F M cur p fuel c = some c' → c'.nextA ≤ M ∧ c'.nextS ≤ M := by
  induction fuel with
  | zero =>
    intro c c' h
    unfold cursorLoop at h
    by_cases hc : c.nextA > M ∨ c.nextS > M
    · rw [if_pos hc] at h
      exact absurd h (by simp)
    · rw [if_neg hc] at h
      simp only [Option.some.injEq] at h
      subst h
      omega
  | succ k ih =>
    intro c c' h
    unfold cursorLoop at h
    by_cases hc : c.nextA > M ∨ c.nextS > M
    · rw [if_pos hc] at h
      exact ih _ c' h
    · rw [if_neg hc] at h
      simp only [Option.some.injEq] at h
      subst h
      omega

theorem cursorLoop_analysis_step (F M cur p : Int) (fuel : Nat) :
    ∀ c c' : Cursor, c.nextA > M → cursorLoop F M cur p fuel c = some c' →
      ∃ (n : Nat) (cn : Cursor), cursorIter F M cur p n c = some cn ∧
        (cn.nextA > M ∨ cn.nextS > M) ∧ cn.nextA ≥ cn.nextS := by
  induction fuel with
  | zero =>
    intro c c' h1 h
    unfold cursorLoop at h
    rw [if_pos (Or.inl h1)] at h
    exact absurd h (by simp)
  | succ k ih =>
    intro c c' h1 h
    unfold cursorLoop at h
    rw [if_pos (Or.inl h1)] at h
    by_cases hb : c.nextA ≥ c.nextS
    · exact ⟨0, c, rfl, Or.inl h1, hb⟩
    · have hs : (cursorStep F cur p c).nextA = c.nextA := by
        unfold cursorStep
        rw [if_neg hb]
      obtain ⟨n, cn, i1, i2, i3⟩ := ih (cursorStep F cur p c) c' (by rw [hs]; exact h1) h
      refine ⟨n + 1, cn, ?_, i2, i3⟩
      unfold cursorIter
      rw [if_pos (Or.inl h1)]
      exact i1

theorem testEngine22_new : Sola.new 1 2 2 = some testEngine22 :=
  (Option.some_get _).symm

theorem Sola.updateWindow_prevFrameEnd (L : Library) (s : Sola) (g : Int) :
    (updateWindow L s g).2.mPrevFrameEndOffset = s.mPrevFrameEndOffset := by
  unfold Sola.updateWindow
  repeat' first | rfl | split

theorem Sola.synthesisStep_indep (L : Library) (cur cur' : Int) (sem sem' : ℚ) (ls : LoopState)
    (h : ¬ (ls.sola.mPrevFrameEndOffset ≥ ls.nextSynthesisOffset)) :
    synthesisStep L cur sem ls = synthesisStep L cur' sem' ls := by
  have hu := Sola.updateWindow_prevFrameEnd L ls.sola (2 * ls.sola.mAnalysis.lastPeriod)
  unfold Sola.synthesisStep
  simp only
  rcases hq : updateWindow L ls.sola (2 * ls.sola.mAnalysis.lastPeriod) with ⟨st, s1⟩
  rw [hq] at hu
  simp only at hu
  have hn : ¬ (s1.mPrevFrameEndOffset ≥ ls.nextSynthesisOffset) := by rw [hu]; exact h
  cases st
  · simp only [hn, if_false]
  all_goals rfl

theorem Sola.analysisStep_indep (cur cur' : Int) (ls : LoopState)
    (h : ¬ (ls.sola.mPrevFrameEndOffset ≥ ls.nextAnalysisOffset)) :
    analysisStep cur ls = analysisStep cur' ls := by
  unfold Sola.analysisStep
  simp only [h, if_false]

theorem LoopInv.commit_above_frame {ls : LoopState} (h : LoopInv ls)
    (hFM : ls.sola.mFrameSize ≤ ls.sola.mMaxPeriod) (hcond : Sola.loopCond ls) :
    (ls.nextAnalysisOffset ≥ ls.nextSynthesisOffset →
      ls.nextAnalysisOffset > ls.sola.mFrameSize) ∧
    (ls.nextAnalysisOffset < ls.nextSynthesisOffset →
      ls.nextSynthesisOffset > ls.sola.mFrameSize) := by
  have hend := h.shaped.searchRange_end
  unfold Sola.loopCond at hcond
  rw [hend] at hcond
  constructor <;> intro _ <;> omega

theorem LoopInv.loopBody_indep {ls : LoopState} (h : LoopInv ls)
    (hFM : ls.sola.mFrameSize ≤ ls.sola.mMaxPeriod) (hcond : Sola.loopCond ls)
    (L : Library) (cur cur' : Int) (sem sem' : ℚ) :
    Sola.loopBody L cur sem ls = Sola.loopBody L cur' sem' ls := by
  obtain ⟨c1, c2⟩ := h.commit_above_frame hFM hcond
  have hp := h.shaped.prevFrameEnd
  unfold Sola.loopBody
  by_cases h1 : ¬ (ls.sola.mSearchRange.startOffset ≥ ls.nextAnalysisOffset ∧
      ls.sola.mSearchRange.startOffset ≥ ls.nextSynthesisOffset)
  · rw [if_pos h1, if_pos h1]
  rw [if_neg h1, if_neg h1]
  by_cases h2 : ls.nextAnalysisOffset ≥ ls.nextSynthesisOffset
  · rw [if_pos h2, if_pos h2]
    rw [Sola.analysisStep_indep cur cur' ls (by rw [hp]; have := c1 h2; omega)]
  · rw [if_neg h2, if_neg h2]
    exact Sola.synthesisStep_indep L cur cur' sem sem' ls
      (by rw [hp]; have := c2 (by omega); omega)

theorem Sola.markAdvanceLoop_indep (L : Library) (hL : L.Pow2Bounded) (cur cur' : Int)
    (sem sem' : ℚ) (hsem : -12 ≤ sem ∧ sem ≤ 12) (fuel : Nat) :
    ∀ ls : LoopState, LoopInv ls → (0 < cur ∧ cur ≤ ls.sola.mMaxPeriod) →
      ls.sola.mFrameSize ≤ ls.sola.mMaxPeriod →
      markAdvanceLoop L cur sem fuel ls = markAdvanceLoop L cur' sem' fuel ls := by
  induction fuel with
  | zero =>
    intro ls _ _ _
    unfold markAdvanceLoop
    rfl
  | succ k ih =>
    intro ls h hcur hFM
    unfold markAdvanceLoop
    by_cases hc : loopCond ls
    · rw [if_pos hc, if_pos hc]
      simp only
      rw [← h.loopBody_indep hFM hc L cur cur' sem sem']
      obtain ⟨b1, b2, b3, -⟩ := h.loopBody L hL cur sem hcur hsem hc
      rcases hb : loopBody L cur sem ls with ⟨st, ls'⟩
      rw [hb] at b1 b2 b3
      simp only at b1 b2 b3
      subst b1
      simp only
      exact ih ls' b2 (by rw [Sola.config_maxPeriod b3]; exact hcur)
        (by rw [Sola.config_maxPeriod b3, Sola.config_frameSize b3]; exact hFM)
    · rw [if_neg hc, if_neg hc]

theorem Sola.Process_indep (L : Library) (hL : L.Pow2Bounded) (s : Sola) (hs : s.Shaped)
    (hc : s.CursorsOk) (hFM : s.mFrameSize ≤ s.mMaxPeriod) (frame : AudioBuffer)
    (cur cur' : Int) (sem sem' : ℚ) (hpre : s.preconditions frame cur sem)
    (hpre' : s.preconditions frame cur' sem') (fuel : Nat) :
    Process L fuel s frame cur sem = Process L fuel s frame cur' sem' := by
  obtain ⟨hfc, hfs, hsem, hcur⟩ := id hpre
  obtain ⟨i1, i2, i3⟩ := Sola.loopInit_ingested s hs hc frame
  have hM : (loopInit (s.ingested frame)).2.sola.mMaxPeriod = s.mMaxPeriod := by
    rw [i3]; rfl
  have hF : (loopInit (s.ingested frame)).2.sola.mFrameSize = s.mFrameSize := by
    rw [i3]; rfl
  have hm := Sola.markAdvanceLoop_indep L hL cur cur' sem sem' hsem fuel _ i2
    (by rw [hM]; exact hcur) (by rw [hM, hF]; exact hFM)
  have hadv : advance L fuel s frame cur sem = advance L fuel s frame cur' sem' := by
    unfold advance
    rw [Sola.ingest_eq s hs frame hfc hfs]
    simp only
    rcases hi : loopInit (s.ingested frame) with ⟨st, ls⟩
    rw [hi] at hm
    simp only at hm
    cases st
    · simp only
      rw [hm]
    all_goals rfl
  unfold Process
  rw [if_neg (not_not.mpr hpre), if_neg (not_not.mpr hpre'), hadv]

theorem cursorStep_periods (F M cur p : Int) (hFM : F ≤ M) (c : Cursor)
    (hc : c.nextA > M ∨ c.nextS > M) :
    (cursorStep F cur p c).anP = c.anP ∧ (cursorStep F cur p c).syP = c.syP := by
  unfold cursorStep
  split_ifs <;> first | exact ⟨rfl, rfl⟩ | (exfalso; omega)

theorem cursorLoop_periods (F M cur p : Int) (hFM : F ≤ M) (fuel : Nat) :
    ∀ c c' : Cursor, cursorLoop F M cur p fuel c = some c' →
      c'.anP = c.anP ∧ c'.syP = c.syP := by
  induction fuel with
  | zero =>
    intro c c' h
    unfold cursorLoop at h
    by_cases hc : c.nextA > M ∨ c.nextS > M
    · rw [if_pos hc] at h
      exact absurd h (by simp)
    · rw [if_neg hc] at h
      simp only [Option.some.injEq] at h
      subst h
      exact ⟨rfl, rfl⟩
  | succ k ih =>
    intro c c' h
    unfold cursorLoop at h
    by_cases hc : c.nextA > M ∨ c.nextS > M
    · rw [if_pos hc] at h
      obtain ⟨r1, r2⟩ := ih _ c' h
      obtain ⟨s1, s2⟩ := cursorStep_periods F M cur p hFM c hc
      exact ⟨r1.trans s1, r2.trans s2⟩
    · rw [if_neg hc] at h
      simp only [Option.some.injEq] at h
      subst h
      exact ⟨rfl, rfl⟩

theorem cursorIter_periods (F M cur p : Int) (hFM : F ≤ M) (n : Nat) :
    ∀ c c' : Cursor, cursorIter F M cur p n c = some c' →
      c'.anP = c.anP ∧ c'.syP = c.syP := by
  induction n with
  | zero =>
    intro c c' h
    simp only [cursorIter, Option.some.injEq] at h
    subst h
    exact ⟨rfl, rfl⟩
  | succ k ih =>
    intro c c' h
    unfold cursorIter at h
    by_cases hc : c.nextA > M ∨ c.nextS > M
    · rw [if_pos hc] at h
      obtain ⟨r1, r2⟩ := ih _ c' h
      obtain ⟨s1, s2⟩ := cursorStep_periods F M cur p hFM c hc
      exact ⟨r1.trans s1, r2.trans s2⟩
    · rw [if_neg hc] at h
      exact absurd h (by simp)

theorem Sola.Reachable.periods_fixed {L : Library} (hL : L.Pow2Bounded) {s : Sola}
    (h : Sola.Reachable L s) :
    s.mFrameSize ≤ s.mMaxPeriod →
      s.mAnalysis.lastPeriod = s.mMaxPeriod ∧ s.mSynthesis.lastPeriod = s.mMaxPeriod := by
  induction h with
  | init nc F M s h =>
    intro _
    unfold Sola.new at h
    split at h
    · simp only [Option.some.injEq] at h
      subst h
      exact ⟨rfl, rfl⟩
    · exact absurd h (by simp)
  | step s fuel frame cur sem hs hpre hret ih =>
    intro hFM
    obtain ⟨hsh, hc⟩ := Sola.Reachable.inv hL hs
    obtain ⟨p1, p2⟩ := Sola.Process_cursor L hL s hsh hc frame cur sem hpre fuel
    rcases Sola.Process_inv L hL s hsh hc frame cur sem hpre fuel with hr | hr
    swap
    · rw [hr] at hret
      exact absurd hret (by decide)
    obtain ⟨-, -, -, r4⟩ := hr
    have eM : (Process L fuel s frame cur sem).sola.mMaxPeriod = s.mMaxPeriod := by
      rw [Sola.config_maxPeriod r4]; rfl
    have eF : (Process L fuel s frame cur sem).sola.mFrameSize = s.mFrameSize := by
      rw [Sola.config_frameSize r4]; rfl
    rw [eM, eF] at hFM
    obtain ⟨ih1, ih2⟩ := ih hFM
    rcases hcl : cursorLoop s.mFrameSize s.mMaxPeriod cur (stretchedPeriod L cur sem) fuel
      s.entryCursor with _ | c
    · rw [p1 hcl] at hret
      exact absurd hret (by decide)
    obtain ⟨-, -, q3, -, q5⟩ := p2 c hcl
    obtain ⟨k1, k2⟩ := cursorLoop_periods _ _ _ _ hFM fuel _ c hcl
    rw [eM, q3, q5, k1, k2]
    exact ⟨ih1, ih2⟩

theorem add_mul_congr (x : ℚ) (w A : Int → ℚ) (a a' b b' : Int) (ha : a = a') (hb : b = b') :
    x + w a * A b = x + w a' * A b' := by
  rw [ha, hb]

theorem emod_wrap (x cap : Int) (h0 : 0 ≤ x) (h1 : x < 2 * cap) :
    x % cap = if x < cap then x else x - cap := by
  split
  · exact Int.emod_eq_of_lt h0 (by omega)
  · exact emod_eq_of_shift _ _ _ 1 (by omega) (by omega) (by omega)

theorem grainAddedRow_step (capS capA : Int) (win A old : Int → Sample)
    (sIdx aIdx w0 rem n s' a' : Int)
    (hs0 : 0 ≤ sIdx) (hn1 : 1 ≤ n) (hn2 : n ≤ rem)
    (hn3 : n ≤ capS - sIdx) (hn4 : n ≤ capA - aIdx) (hrs : rem ≤ capS) (hra : rem ≤ capA)
    (hs' : (sIdx + n < capS ∧ s' = sIdx + n) ∨ (sIdx + n = capS ∧ s' = 0))
    (ha' : (aIdx + n < capA ∧ a' = aIdx + n) ∨ (aIdx + n = capA ∧ a' = 0)) (i : Int) :
    grainAddedRow capS capA win A s' a' (w0 + n) (rem - n)
        (fun i => if sIdx ≤ i ∧ i < sIdx + n then
            old i + win (w0 + (i - sIdx)) * A (aIdx + (i - sIdx))
          else old i) i
      = grainAddedRow capS capA win A sIdx aIdx w0 rem old i := by
  unfold grainAddedRow
  simp only
  split_ifs <;>
    first
    | rfl
    | (exfalso; omega)
    | exact add_mul_congr _ _ _ _ _ _ _ (by omega) (by omega)

theorem Sola.overlapAddChannel_data (s : Sola) (c : Int) (fuel : Nat) :
    ∀ (g : GrainCursor) (buf : AudioBuffer),
      0 ≤ c → c < buf.numChannels → c < s.mAnalysis.buffer.numChannels →
      buf.numSamples = s.mSynthesis.numSamples →
      s.mAnalysis.buffer.numSamples = s.mAnalysis.numSamples →
      0 ≤ g.synthesisIdx → g.synthesisIdx < s.mSynthesis.numSamples →
      0 ≤ g.analysisIdx → g.analysisIdx < s.mAnalysis.numSamples →
      0 ≤ g.windowOffset → g.windowOffset + g.remainingSamples ≤ s.mWindowFunction.size →
      g.remainingSamples ≤ fuel →
      g.remainingSamples ≤ s.mSynthesis.numSamples →
      g.remainingSamples ≤ s.mAnalysis.numSamples →
      (s.overlapAddChannel c fuel g buf).2.data
        = fun c' i =>
            if c' = c then
              grainAddedRow s.mSynthesis.numSamples s.mAnalysis.numSamples
                s.mWindowFunction.data (s.mAnalysis.buffer.data c) g.synthesisIdx
                g.analysisIdx g.windowOffset g.remainingSamples (buf.data c) i
            else buf.data c' i := by
  induction fuel with
  | zero =>
    intro g buf _ _ _ _ _ _ _ _ _ _ _ hf _ _
    unfold Sola.overlapAddChannel
    have hr : g.remainingSamples ≤ 0 := by simpa using hf
    rw [if_neg (by omega)]
    funext c' i
    by_cases hcc : c' = c
    · subst hcc
      simp only [grainAddedRow, if_true]
      rw [if_neg (fun hx => by have := hx.2.2; split_ifs at this <;> omega)]
    · rw [if_neg hcc]
  | succ k ih =>
    intro g buf hc0 hc1 hc2 hbs has hs0 hs1 ha0 ha1 hw0 hw1 hf hrs hra
    unfold Sola.overlapAddChannel
    by_cases hr : g.remainingSamples > 0
    · rw [if_pos hr]
      simp only
      have hn1 : 1 ≤ min g.remainingSamples
          (min (s.mSynthesis.numSamples - g.synthesisIdx)
            (s.mAnalysis.numSamples - g.analysisIdx)) := by
        simp only [le_min_iff]; omega
      have hn2 := min_le_left g.remainingSamples
          (min (s.mSynthesis.numSamples - g.synthesisIdx)
            (s.mAnalysis.numSamples - g.analysisIdx))
      have hn3 : min g.remainingSamples
          (min (s.mSynthesis.numSamples - g.synthesisIdx)
            (s.mAnalysis.numSamples - g.analysisIdx)) ≤ s.mSynthesis.numSamples - g.synthesisIdx :=
        le_trans (min_le_right _ _) (min_le_left _ _)
      have hn4 : min g.remainingSamples
          (min (s.mSynthesis.numSamples - g.synthesisIdx)
            (s.mAnalysis.numSamples - g.analysisIdx)) ≤ s.mAnalysis.numSamples - g.analysisIdx :=
        le_trans (min_le_right _ _) (min_le_right _ _)
      generalize min g.remainingSamples
          (min (s.mSynthesis.numSamples - g.synthesisIdx)
            (s.mAnalysis.numSamples - g.analysisIdx)) = n at hn1 hn2 hn3 hn4
      rw [if_pos (by simp only [AudioBuffer.inRange]; omega)]
      have e1 : (g.synthesisIdx + n).tmod s.mSynthesis.numSamples
          = if g.synthesisIdx + n < s.mSynthesis.numSamples then g.synthesisIdx + n
            else g.synthesisIdx + n - s.mSynthesis.numSamples := by
        rw [Int.tmod_eq_emod (by omega) (by omega)]
        exact emod_wrap _ _ (by omega) (by omega)
      have e2 : (g.analysisIdx + n).tmod s.mAnalysis.numSamples
          = if g.analysisIdx + n < s.mAnalysis.numSamples then g.analysisIdx + n
            else g.analysisIdx + n - s.mAnalysis.numSamples := by
        rw [Int.tmod_eq_emod (by omega) (by omega)]
        exact emod_wrap _ _ (by omega) (by omega)
      have hs'v : (g.synthesisIdx + n < s.mSynthesis.numSamples ∧
            (g.synthesisIdx + n).tmod s.mSynthesis.numSamples = g.synthesisIdx + n) ∨
          (g.synthesisIdx + n = s.mSynthesis.numSamples ∧
            (g.synthesisIdx + n).tmod s.mSynthesis.numSamples = 0) := by
        rw [e1]; split_ifs <;> omega
      have ha'v : (g.analysisIdx + n < s.mAnalysis.numSamples ∧
            (g.analysisIdx + n).tmod s.mAnalysis.numSamples = g.analysisIdx + n) ∨
          (g.analysisIdx + n = s.mAnalysis.numSamples ∧
            (g.analysisIdx + n).tmod s.mAnalysis.numSamples = 0) := by
        rw [e2]; split_ifs <;> omega
      generalize (g.synthesisIdx + n).tmod s.mSynthesis.numSamples = s' at hs'v
      generalize (g.analysisIdx + n).tmod s.mAnalysis.numSamples = a' at ha'v
      have hs'0 : 0 ≤ s' ∧ s' < s.mSynthesis.numSamples := by omega
      have ha'0 : 0 ≤ a' ∧ a' < s.mAnalysis.numSamples := by omega
      have hfk : g.remainingSamples - n ≤ (k : Int) := by push_cast at hf; omega
      rw [ih
        { remainingSamples := g.remainingSamples - n, windowOffset := g.windowOffset + n,
          synthesisIdx := s', analysisIdx := a' }
        (buf.addWithMultiply c g.synthesisIdx
          (fun j => s.mWindowFunction.data (g.windowOffset + j))
          (s.mAnalysis.buffer.readPointer c g.analysisIdx) n)
        hc0 hc1 hc2 hbs has hs'0.1 hs'0.2 ha'0.1 ha'0.2
        (Int.add_nonneg hw0 (by omega)) (by simp only; omega) hfk
        (by simp only; omega) (by simp only; omega)]
      funext c' i
      by_cases hcc : c' = c
      swap
      · simp only [hcc, if_false, AudioBuffer.addWithMultiply, false_and]
      subst hcc
      simp only [if_true, AudioBuffer.addWithMultiply, AudioBuffer.readPointer, true_and]
      exact grainAddedRow_step _ _ _ _ _ _ _ _ _ n s' a' hs0 hn1 hn2 hn3 hn4 hrs hra hs'v ha'v i
    · rw [if_neg hr]
      funext c' i
      by_cases hcc : c' = c
      · subst hcc
        simp only [grainAddedRow, if_true]
        rw [if_neg (fun hx => by have := hx.2.2; split_ifs at this <;> omega)]
      · rw [if_neg hcc]

theorem grainAddedRow_at (capS capA headS headA m aM h o : Int) (win A old : Int → Sample)
    (hS : 0 ≤ headS ∧ headS < capS) (hA : 0 ≤ headA ∧ headA < capA)
    (ho : 1 ≤ o ∧ o ≤ capS) (hh : 0 < h) (hm : h < m) (hmS : m + h ≤ capS)
    (haM : h < aM) (hcap : capS ≤ capA) :
    grainAddedRow capS capA win A (ringIdx headS capS (m + h)) (ringIdx headA capA (aM + h))
        0 (2 * h) old (ringIdx headS capS o)
      = old (ringIdx headS capS o)
        + (if m - h < o ∧ o ≤ m + h then
            win (m + h - o) * A (ringIdx headA capA (aM - m + o))
          else 0) := by
  unfold grainAddedRow ringIdx
  split_ifs <;>
    first
    | (exfalso; omega)
    | exact (add_zero _).symm
    | exact add_mul_congr _ _ _ _ _ _ _ (by omega) (by omega)

theorem OffsetToIdx_ringIdx (b : CircularBuffer) (offset : Int) (h0 : 0 ≤ offset)
    (h1 : offset ≤ b.numSamples) :
    b.OffsetToIdx offset = some (ringIdx b.head b.numSamples offset) := by
  unfold CircularBuffer.OffsetToIdx ringIdx
  rw [if_pos ⟨h0, h1⟩]

theorem sampleAt_ringIdx (b : CircularBuffer) (c offset : Int) (h0 : 0 ≤ offset)
    (h1 : offset ≤ b.numSamples) :
    b.sampleAt c offset = b.buffer.data c (ringIdx b.head b.numSamples offset) := by
  unfold CircularBuffer.sampleAt
  rw [OffsetToIdx_ringIdx b offset h0 h1]

theorem ringIdx_bounds (head cap o : Int) (hh : 0 ≤ head ∧ head < cap) (ho : 0 ≤ o ∧ o ≤ cap) :
    0 ≤ ringIdx head cap o ∧ (1 ≤ o → ringIdx head cap o < cap) := by
  unfold ringIdx
  split_ifs <;> omega

theorem Sola.overlapAddAll_data (s : Sola) (hs : s.Shaped) (is ia g : Int)
    (his : 0 ≤ is ∧ is < s.mSynthesis.numSamples) (hia : 0 ≤ ia ∧ ia < s.mAnalysis.numSamples)
    (hg0 : 0 ≤ g) (hg1 : g ≤ 2 * s.mMaxPeriod) :
    (forChannels
        (fun c buf => Sola.overlapAddChannel s c g.toNat
          { remainingSamples := g, windowOffset := 0, synthesisIdx := is, analysisIdx := ia } buf)
        s.mNumChannels.toNat s.mSynthesis.buffer).1 = Status.returned ∧
    (forChannels
        (fun c buf => Sola.overlapAddChannel s c g.toNat
          { remainingSamples := g, windowOffset := 0, synthesisIdx := is, analysisIdx := ia } buf)
        s.mNumChannels.toNat s.mSynthesis.buffer).2.data
      = fun c' i =>
          if 0 ≤ c' ∧ c' < s.mNumChannels then
            grainAddedRow s.mSynthesis.numSamples s.mAnalysis.numSamples
              s.mWindowFunction.data (s.mAnalysis.buffer.data c') is ia 0 g
              (s.mSynthesis.buffer.data c') i
          else s.mSynthesis.buffer.data c' i := by
  have hnc := hs.numChannels_pos
  have hM := hs.maxPeriod_pos
  have hF := hs.frameSize_pos
  have hcapS := hs.synthesis_cap
  have hcapA := hs.analysis_cap
  have hws := hs.window_size
  have hnat : ((s.mNumChannels.toNat : Nat) : Int) = s.mNumChannels :=
    Int.toNat_of_nonneg (by omega)
  have hgn : g ≤ ((g.toNat : Nat) : Int) := by rw [Int.toNat_of_nonneg hg0]
  have step : ∀ c : Nat, c < s.mNumChannels.toNat → ∀ x : AudioBuffer,
      (x.numChannels = s.mSynthesis.buffer.numChannels ∧
        x.numSamples = s.mSynthesis.buffer.numSamples ∧
        x.data = fun c' i =>
          if 0 ≤ c' ∧ c' < (c : Int) then
            grainAddedRow s.mSynthesis.numSamples s.mAnalysis.numSamples
              s.mWindowFunction.data (s.mAnalysis.buffer.data c') is ia 0 g
              (s.mSynthesis.buffer.data c') i
          else s.mSynthesis.buffer.data c' i) →
      (Sola.overlapAddChannel s c g.toNat
          { remainingSamples := g, windowOffset := 0, synthesisIdx := is, analysisIdx := ia }
          x).1 = Status.returned ∧
      ((Sola.overlapAddChannel s c g.toNat
          { remainingSamples := g, windowOffset := 0, synthesisIdx := is, analysisIdx := ia }
          x).2.numChannels = s.mSynthesis.buffer.numChannels ∧
        (Sola.overlapAddChannel s c g.toNat
          { remainingSamples := g, windowOffset := 0, synthesisIdx := is, analysisIdx := ia }
          x).2.numSamples = s.mSynthesis.buffer.numSamples ∧
        (Sola.overlapAddChannel s c g.toNat
          { remainingSamples := g, windowOffset := 0, synthesisIdx := is, analysisIdx := ia }
          x).2.data = fun c' i =>
          if 0 ≤ c' ∧ c' < ((c + 1 : Nat) : Int) then
            grainAddedRow s.mSynthesis.numSamples s.mAnalysis.numSamples
              s.mWindowFunction.data (s.mAnalysis.buffer.data c') is ia 0 g
              (s.mSynthesis.buffer.data c') i
          else s.mSynthesis.buffer.data c' i) := by
    intro c hc x hx
    obtain ⟨hx1, hx2, hx3⟩ := hx
    have hc' : (c : Int) < s.mNumChannels := by omega
    have hc0 : (0 : Int) ≤ (c : Int) := Int.natCast_nonneg c
    have q1 : (c : Int) < x.numChannels := by rw [hx1, hs.synthesis_channels]; exact hc'
    have q2 : (c : Int) < s.mAnalysis.buffer.numChannels := by
      rw [hs.analysis_channels]; exact hc'
    have q3 : x.numSamples = s.mSynthesis.numSamples := by rw [hx2, hs.synthesis_samples]
    have q4 : (0 : Int) + g ≤ s.mWindowFunction.size := by rw [hws]; omega
    have q5 : g ≤ s.mSynthesis.numSamples := by omega
    have q6 : g ≤ s.mAnalysis.numSamples := by omega
    obtain ⟨t1, t2, t3⟩ := Sola.overlapAddChannel_ok s c g.toNat
      { remainingSamples := g, windowOffset := 0, synthesisIdx := is, analysisIdx := ia } x
      hc0 q1 q2 q3 hs.analysis_samples his.1 his.2 hia.1 hia.2 (le_refl _) q4 hgn
    have d := Sola.overlapAddChannel_data s c g.toNat
      { remainingSamples := g, windowOffset := 0, synthesisIdx := is, analysisIdx := ia } x
      hc0 q1 q2 q3 hs.analysis_samples his.1 his.2 hia.1 hia.2 (le_refl _) q4 hgn q5 q6
    refine ⟨t1, t2.trans hx1, t3.trans hx2, ?_⟩
    rw [d]
    funext c' i
    simp only
    rw [hx3]
    by_cases hcc : c' = (c : Int)
    · subst hcc
      rw [if_pos rfl, if_pos ⟨hc0, by push_cast; omega⟩]
      simp only [lt_self_iff_false, and_false, if_false]
    · rw [if_neg hcc]
      beta_reduce
      by_cases hlt : 0 ≤ c' ∧ c' < (c : Int)
      · rw [if_pos hlt, if_pos ⟨hlt.1, by push_cast; omega⟩]
      · rw [if_neg hlt, if_neg (by push_cast; omega)]
  have key := forChannels_ind
    (fun c buf => Sola.overlapAddChannel s c g.toNat
      { remainingSamples := g, windowOffset := 0, synthesisIdx := is, analysisIdx := ia } buf)
    (fun k buf => buf.numChannels = s.mSynthesis.buffer.numChannels ∧
      buf.numSamples = s.mSynthesis.buffer.numSamples ∧
      buf.data = fun c' i =>
        if 0 ≤ c' ∧ c' < (k : Int) then
          grainAddedRow s.mSynthesis.numSamples s.mAnalysis.numSamples
            s.mWindowFunction.data (s.mAnalysis.buffer.data c') is ia 0 g
            (s.mSynthesis.buffer.data c') i
        else s.mSynthesis.buffer.data c' i)
    s.mNumChannels.toNat s.mSynthesis.buffer
    ⟨rfl, rfl, by
      funext c' i
      rw [if_neg]
      simp only [Nat.cast_zero]
      omega⟩
    step
  obtain ⟨k1, -, -, k4⟩ := key
  refine ⟨k1, ?_⟩
  rw [k4, hnat]

theorem LoopInv.synthesisStep_data {ls : LoopState} (h : LoopInv ls) (L : Library)
    (cur : Int) (sem : ℚ) (hcond : Sola.loopCond ls)
    (hbr : ¬ ls.nextAnalysisOffset ≥ ls.nextSynthesisOffset) :
    (Sola.synthesisStep L cur sem ls).2.sola.mAnalysis = ls.sola.mAnalysis ∧
    ∀ c o : Int, 0 ≤ c → c < ls.sola.mNumChannels → 1 ≤ o → o ≤ ls.sola.mSynthesis.numSamples →
      (Sola.synthesisStep L cur sem ls).2.sola.mSynthesis.sampleAt c o
        = ls.sola.mSynthesis.sampleAt c o
          + (if ls.nextSynthesisOffset - ls.sola.mAnalysis.lastPeriod < o ∧
                o ≤ ls.nextSynthesisOffset + ls.sola.mAnalysis.lastPeriod then
              (Sola.synthesisStep L cur sem ls).2.sola.mWindowFunction.data
                  (ls.nextSynthesisOffset + ls.sola.mAnalysis.lastPeriod - o)
                * ls.sola.mAnalysis.sampleAt c
                    (ls.sola.mAnalysis.lastMarkOffset - ls.nextSynthesisOffset + o)
            else 0) := by
  have hsh := h.shaped
  have hend := hsh.searchRange_end
  unfold Sola.loopCond at hcond
  rw [hend] at hcond
  have hS : ls.sola.mMaxPeriod < ls.nextSynthesisOffset := by omega
  have hM := hsh.maxPeriod_pos
  have hF := hsh.frameSize_pos
  have hap0 := h.aPeriod_pos
  have hap1 := h.aPeriod_le
  have haM0 := h.aMark_lo
  have haM1 := h.aMark_hi
  have hns := h.nextS_le
  have hcapS := hsh.synthesis_cap
  have hcapA := hsh.analysis_cap
  have hw := Sola.updateWindow_spec L ls.sola (2 * ls.sola.mAnalysis.lastPeriod) (by omega)
    (by rw [hsh.window_size]; omega)
  unfold Sola.synthesisStep
  simp only
  rcases hu : Sola.updateWindow L ls.sola (2 * ls.sola.mAnalysis.lastPeriod) with ⟨st, s1⟩
  rw [hu] at hw
  obtain ⟨hw1, hw2, hw3, hw4, -⟩ := hw
  simp only at hw1 hw2 hw3 hw4
  subst hw1
  have hsh1 : s1.Shaped := hsh.congr hw4
  have c1 : s1.mNumChannels = ls.sola.mNumChannels := by
    have := hw4; simp only [Sola.config, List.cons.injEq] at this; exact this.1
  have c3 : s1.mMaxPeriod = ls.sola.mMaxPeriod := Sola.config_maxPeriod hw4
  have c14 : s1.mReadyOutRange.startOffset = 2 * ls.sola.mMaxPeriod + ls.sola.mFrameSize := by
    rw [hsh1.readyOut_start, c3, Sola.config_frameSize hw4]
  simp only
  rw [OffsetToIdx_ringIdx s1.mAnalysis _ (by rw [hw2]; omega) (by rw [hw2]; omega)]
  simp only
  rw [if_neg (by rw [c14]; omega), if_neg (by omega)]
  rw [OffsetToIdx_ringIdx s1.mSynthesis _ (by omega) (by rw [hw3]; omega)]
  simp only
  have bis := ringIdx_bounds s1.mSynthesis.head s1.mSynthesis.numSamples
    (ls.nextSynthesisOffset + ls.sola.mAnalysis.lastPeriod) hsh1.synthesis_head
    ⟨by omega, by rw [hw3]; omega⟩
  have bia := ringIdx_bounds s1.mAnalysis.head s1.mAnalysis.numSamples
    (s1.mAnalysis.lastMarkOffset + ls.sola.mAnalysis.lastPeriod) hsh1.analysis_head
    ⟨by rw [hw2]; omega, by rw [hw2]; omega⟩
  obtain ⟨k1, k4⟩ := Sola.overlapAddAll_data s1 hsh1
    (ringIdx s1.mSynthesis.head s1.mSynthesis.numSamples
      (ls.nextSynthesisOffset + ls.sola.mAnalysis.lastPeriod))
    (ringIdx s1.mAnalysis.head s1.mAnalysis.numSamples
      (s1.mAnalysis.lastMarkOffset + ls.sola.mAnalysis.lastPeriod))
    (2 * ls.sola.mAnalysis.lastPeriod)
    ⟨bis.1, bis.2 (by omega)⟩ ⟨bia.1, bia.2 (by rw [hw2]; omega)⟩ (by omega)
    (by rw [c3]; omega)
  rcases hfc : forChannels
    (fun c buf => Sola.overlapAddChannel s1 c (2 * ls.sola.mAnalysis.lastPeriod).toNat
      { remainingSamples := 2 * ls.sola.mAnalysis.lastPeriod, windowOffset := 0,
        synthesisIdx := ringIdx s1.mSynthesis.head s1.mSynthesis.numSamples
          (ls.nextSynthesisOffset + ls.sola.mAnalysis.lastPeriod),
        analysisIdx := ringIdx s1.mAnalysis.head s1.mAnalysis.numSamples
          (s1.mAnalysis.lastMarkOffset + ls.sola.mAnalysis.lastPeriod) } buf)
    s1.mNumChannels.toNat s1.mSynthesis.buffer with ⟨st, buf⟩
  rw [hfc] at k1 k4
  simp only at k1 k4
  subst k1
  simp only
  refine ⟨hw2, ?_⟩
  intro c o hc0 hc1 ho0 ho1
  rw [sampleAt_ringIdx _ c o (by omega) (by simp only; rw [hw3]; exact ho1),
    sampleAt_ringIdx _ c o (by omega) ho1]
  simp only
  rw [k4]
  simp only
  rw [if_pos ⟨hc0, by rw [c1]; exact hc1⟩, hw2, hw3]
  rw [grainAddedRow_at _ _ _ _ ls.nextSynthesisOffset ls.sola.mAnalysis.lastMarkOffset
    ls.sola.mAnalysis.lastPeriod o _ _ _ hsh.synthesis_head hsh.analysis_head ⟨ho0, ho1⟩
    hap0 (by omega) (by omega) (by omega) (by omega)]
  by_cases hcov : ls.nextSynthesisOffset - ls.sola.mAnalysis.lastPeriod < o ∧
      o ≤ ls.nextSynthesisOffset + ls.sola.mAnalysis.lastPeriod
  · rw [if_pos hcov, if_pos hcov, sampleAt_ringIdx _ c _ (by omega) (by omega)]
  · rw [if_neg hcov, if_neg hcov]

theorem OffsetToIdx_cases (b : CircularBuffer) (offset : Int) (h0 : 0 ≤ offset)
    (h1 : offset ≤ b.numSamples) :
    b.OffsetToIdx offset
      = some (if b.head - offset ≥ 0 then b.head - offset
          else b.head - offset + b.numSamples) := by
  unfold CircularBuffer.OffsetToIdx
  rw [if_pos ⟨h0, h1⟩]

theorem sampleAt_cases (b : CircularBuffer) (c offset : Int) (h0 : 0 ≤ offset)
    (h1 : offset ≤ b.numSamples) :
    b.sampleAt c offset
      = b.buffer.data c (if b.head - offset ≥ 0 then b.head - offset
          else b.head - offset + b.numSamples) := by
  unfold CircularBuffer.sampleAt
  rw [OffsetToIdx_cases b offset h0 h1]

theorem Sola.ingested_analysis_sampleAt (s : Sola) (hs : s.Shaped) (frame : AudioBuffer)
    (c o : Int) (hc0 : 0 ≤ c) (hc1 : c < s.mNumChannels) (ho0 : 1 ≤ o)
    (ho1 : o ≤ s.mAnalysis.numSamples) :
    (s.ingested frame).mAnalysis.sampleAt c o
      = if o ≤ s.mFrameSize then frame.data c (s.mFrameSize - o)
        else s.mAnalysis.sampleAt c (o - s.mFrameSize) := by
  have hhead := hs.analysis_head
  have hcap := hs.analysis_cap
  have hF := hs.frameSize_pos
  have hM := hs.maxPeriod_pos
  have hhd := emod_add_head s.mAnalysis.head s.mAnalysis.numSamples s.mFrameSize hhead
    ⟨by omega, by omega⟩
  rw [sampleAt_cases (s.ingested frame).mAnalysis c o (by omega) ho1]
  simp only [Sola.ingested]
  rw [hhd]
  obtain ⟨h', hh'eq, hh'v⟩ : ∃ h', (if s.mAnalysis.head + s.mFrameSize < s.mAnalysis.numSamples
        then s.mAnalysis.head + s.mFrameSize
        else s.mAnalysis.head + s.mFrameSize - s.mAnalysis.numSamples) = h' ∧
      ((s.mAnalysis.head + s.mFrameSize < s.mAnalysis.numSamples ∧
          h' = s.mAnalysis.head + s.mFrameSize) ∨
        (s.mAnalysis.head + s.mFrameSize ≥ s.mAnalysis.numSamples ∧
          h' = s.mAnalysis.head + s.mFrameSize - s.mAnalysis.numSamples)) :=
    ⟨_, rfl, by split_ifs <;> omega⟩
  rw [hh'eq]
  obtain ⟨i, hieq, hiv⟩ : ∃ i, (if h' - o ≥ 0 then h' - o else h' - o + s.mAnalysis.numSamples)
        = i ∧ ((h' - o ≥ 0 ∧ i = h' - o) ∨ (h' - o < 0 ∧ i = h' - o + s.mAnalysis.numSamples)) :=
    ⟨_, rfl, by split_ifs <;> omega⟩
  rw [hieq]
  have hi0 : 0 ≤ i ∧ i < s.mAnalysis.numSamples := by omega
  have hr := emod_sub_head s.mAnalysis.head s.mAnalysis.numSamples i hhead hi0
  simp only [pushedData]
  rw [hr]
  obtain ⟨r, hreq, hrv⟩ : ∃ r, (if s.mAnalysis.head ≤ i then i - s.mAnalysis.head
        else i - s.mAnalysis.head + s.mAnalysis.numSamples) = r ∧
      ((s.mAnalysis.head ≤ i ∧ r = i - s.mAnalysis.head) ∨
        (i < s.mAnalysis.head ∧ r = i - s.mAnalysis.head + s.mAnalysis.numSamples)) :=
    ⟨_, rfl, by split_ifs <;> omega⟩
  rw [hreq]
  by_cases hoF : o ≤ s.mFrameSize
  · rw [if_pos hoF, if_pos ⟨⟨hc0, hc1⟩, hi0, by omega⟩]
    congr 1
    omega
  · rw [if_neg hoF, if_neg (by omega), sampleAt_cases _ c _ (by omega) (by omega)]
    congr 1
    split_ifs <;> omega

theorem Sola.ingested_synthesis_sampleAt (s : Sola) (hs : s.Shaped) (frame : AudioBuffer)
    (c o : Int) (ho0 : 1 ≤ o) (ho1 : o ≤ s.mSynthesis.numSamples) :
    (s.ingested frame).mSynthesis.sampleAt c o
      = if o ≤ s.mFrameSize then
          s.mSynthesis.sampleAt c (o - s.mFrameSize + s.mSynthesis.numSamples)
        else s.mSynthesis.sampleAt c (o - s.mFrameSize) := by
  have hhead := hs.synthesis_head
  have hcap := hs.synthesis_cap
  have hF := hs.frameSize_pos
  have hM := hs.maxPeriod_pos
  have hhd := emod_add_head s.mSynthesis.head s.mSynthesis.numSamples s.mFrameSize hhead
    ⟨by omega, by omega⟩
  rw [sampleAt_cases (s.ingested frame).mSynthesis c o (by omega) ho1]
  simp only [Sola.ingested]
  rw [hhd]
  by_cases hoF : o ≤ s.mFrameSize
  · rw [if_pos hoF, sampleAt_cases _ c _ (by omega) (by omega)]
    congr 1
    split_ifs <;> omega
  · rw [if_neg hoF, sampleAt_cases _ c _ (by omega) (by omega)]
    congr 1
    split_ifs <;> omega

theorem Sola.emitted_frame_data (s : Sola) (hs : s.Shaped) (frame : AudioBuffer)
    (c k : Int) (hc0 : 0 ≤ c) (hc1 : c < s.mNumChannels) (hk0 : 0 ≤ k)
    (hk1 : k < s.mFrameSize) :
    (s.emitted frame).frame.data c k
      = s.mSynthesis.sampleAt c (2 * s.mMaxPeriod + s.mFrameSize - k) := by
  have hhead := hs.synthesis_head
  have hcap := hs.synthesis_cap
  have hF := hs.frameSize_pos
  have hM := hs.maxPeriod_pos
  rw [sampleAt_cases _ c _ (by omega) (by omega)]
  simp only [Sola.emitted, emittedData]
  rw [if_pos ⟨⟨hc0, hc1⟩, hk0, hk1⟩,
    emod_add_head s.mSynthesis.head s.mSynthesis.numSamples k hhead ⟨hk0, by omega⟩]
  congr 1
  split_ifs <;> omega

theorem Sola.emitted_synthesis_sampleAt (s : Sola) (hs : s.Shaped) (frame : AudioBuffer)
    (c o : Int) (hc0 : 0 ≤ c) (hc1 : c < s.mNumChannels) (ho0 : 1 ≤ o)
    (ho1 : o ≤ s.mSynthesis.numSamples) :
    (s.emitted frame).sola.mSynthesis.sampleAt c o
      = if 2 * s.mMaxPeriod < o then 0 else s.mSynthesis.sampleAt c o := by
  have hhead := hs.synthesis_head
  have hcap := hs.synthesis_cap
  have hF := hs.frameSize_pos
  have hM := hs.maxPeriod_pos
  rw [sampleAt_cases (s.emitted frame).sola.mSynthesis c o (by omega) ho1,
    sampleAt_cases s.mSynthesis c o (by omega) ho1]
  simp only [Sola.emitted, clearedData]
  obtain ⟨i, hieq, hiv⟩ : ∃ i, (if s.mSynthesis.head - o ≥ 0 then s.mSynthesis.head - o
        else s.mSynthesis.head - o + s.mSynthesis.numSamples) = i ∧
      ((s.mSynthesis.head - o ≥ 0 ∧ i = s.mSynthesis.head - o) ∨
        (s.mSynthesis.head - o < 0 ∧ i = s.mSynthesis.head - o + s.mSynthesis.numSamples)) :=
    ⟨_, rfl, by split_ifs <;> omega⟩
  rw [hieq]
  have hi0 : 0 ≤ i ∧ i < s.mSynthesis.numSamples := by omega
  rw [emod_sub_head s.mSynthesis.head s.mSynthesis.numSamples i hhead hi0]
  obtain ⟨r, hreq, hrv⟩ : ∃ r, (if s.mSynthesis.head ≤ i then i - s.mSynthesis.head
        else i - s.mSynthesis.head + s.mSynthesis.numSamples) = r ∧
      ((s.mSynthesis.head ≤ i ∧ r = i - s.mSynthesis.head) ∨
        (i < s.mSynthesis.head ∧ r = i - s.mSynthesis.head + s.mSynthesis.numSamples)) :=
    ⟨_, rfl, by split_ifs <;> omega⟩
  rw [hreq]
  by_cases h2 : 2 * s.mMaxPeriod < o
  · rw [if_pos h2, if_pos ⟨⟨hc0, hc1⟩, hi0, by omega⟩]
  · rw [if_neg h2, if_neg (by omega)]

theorem stretchedPeriod_zero (L : Library) (h0 : L.pow2 0 = 1) (cur : Int) :
    stretchedPeriod L cur 0 = cur := by
  unfold stretchedPeriod truncToInt
  simp only
  have e : (-0 : ℚ) / 12 = 0 := by norm_num
  rw [e, h0, mul_one]
  split
  · exact Int.floor_intCast cur
  · exact Int.ceil_intCast cur

theorem PassInv.afterAnalysis {L : Library} {cur : Int} {hist : Int → Int → Sample}
    {ls : LoopState} {W : Int → Sample} (h : PassInv L cur hist ls W)
    (hcur : 0 < cur ∧ cur ≤ ls.sola.mMaxPeriod) (hcond : Sola.loopCond ls)
    (hbr : ls.nextAnalysisOffset ≥ ls.nextSynthesisOffset) :
    PassInv L cur hist (Sola.analysisStep cur ls) W := by
  obtain ⟨a1, -, -⟩ := h.inv.analysisStep cur hcur hcond hbr
  have hA := h.inv.nextA_eq
  have hp := h.inv.anPeriod_pos
  have hend := h.inv.shaped.searchRange_end
  have hpf := h.inv.shaped.prevFrameEnd
  unfold Sola.loopCond at hcond
  rw [hend] at hcond
  have hl : ls.nextAnalysisOffset = ls.nextSynthesisOffset ∧
      ls.analysisPeriod = ls.synthesisPeriod := by
    rcases h.lock with hl | hl
    · exact hl
    · exfalso; omega
  refine ⟨a1, h.coherent, h.analysis, h.synthesis, Or.inr ?_⟩
  simp only [Sola.analysisStep]
  refine ⟨by omega, hl.1, hl.2, ?_⟩
  rw [hpf, hl.1, hl.2]

theorem PassInv.afterSynthesis {L : Library} {cur : Int} {hist : Int → Int → Sample}
    {ls : LoopState} {W : Int → Sample} (h : PassInv L cur hist ls W)
    (hL : L.Pow2Bounded) (h0 : L.pow2 0 = 1)
    (hcur : 0 < cur ∧ cur ≤ ls.sola.mMaxPeriod) (hcond : Sola.loopCond ls)
    (hbr : ¬ ls.nextAnalysisOffset ≥ ls.nextSynthesisOffset) :
    (Sola.synthesisStep L cur 0 ls).1 = Status.returned ∧
    PassInv L cur hist (Sola.synthesisStep L cur 0 ls).2
      (fun o => W o + grainWeight L ls.nextSynthesisOffset ls.synthesisPeriod o) := by
  obtain ⟨b1, b2, b3, b4⟩ := h.inv.synthesisStep L hL cur 0 hcur
    ⟨by norm_num, by norm_num⟩ hcond hbr
  obtain ⟨d1, d2⟩ := h.inv.synthesisStep_data L cur 0 hcond hbr
  obtain ⟨w1, w2⟩ := Sola.synthesisStep_window L cur 0 ls
  obtain ⟨u1, u2⟩ := Sola.updateWindow_coherent L ls.sola (2 * ls.sola.mAnalysis.lastPeriod)
    h.coherent
  have hA := h.inv.nextA_eq
  have hS := h.inv.nextS_eq
  have hp := h.inv.anPeriod_pos
  have hap := h.inv.aPeriod_pos
  have hl : ls.sola.mMaxPeriod < ls.nextSynthesisOffset ∧
      ls.sola.mAnalysis.lastMarkOffset = ls.nextSynthesisOffset ∧
      ls.sola.mAnalysis.lastPeriod = ls.synthesisPeriod ∧
      ls.analysisPeriod
        = (if ls.sola.mFrameSize ≥ ls.nextSynthesisOffset then cur else ls.synthesisPeriod) := by
    rcases h.lock with hl | hl
    · exfalso; omega
    · exact hl
  obtain ⟨l1, l2, l3, l4⟩ := hl
  have hcoh : (Sola.synthesisStep L cur 0 ls).2.sola.WindowCoherent L := by
    intro i hi0 hi1
    rw [w2] at hi1 ⊢
    rw [w1]
    exact u1 i hi0 hi1
  have hsize : (Sola.synthesisStep L cur 0 ls).2.sola.mCurrentWindowSize
      = 2 * ls.synthesisPeriod := by
    rw [w2, u2, l3]
  have enc : (Sola.synthesisStep L cur 0 ls).2.sola.mNumChannels = ls.sola.mNumChannels := by
    have := b3; simp only [Sola.config, List.cons.injEq] at this; exact this.1
  have ecs : (Sola.synthesisStep L cur 0 ls).2.sola.mSynthesis.numSamples
      = ls.sola.mSynthesis.numSamples := by
    have := b3; simp only [Sola.config, List.cons.injEq] at this; exact this.2.2.2.2.1
  have ec : (Sola.synthesisStep L cur 0 ls).2.cursor
      = cursorStep ls.sola.mFrameSize cur cur ls.cursor := by
    rw [b4, stretchedPeriod_zero L h0]
  have e1 : (Sola.synthesisStep L cur 0 ls).2.nextAnalysisOffset
      = (cursorStep ls.sola.mFrameSize cur cur ls.cursor).nextA := by rw [← ec]; rfl
  have e2 : (Sola.synthesisStep L cur 0 ls).2.nextSynthesisOffset
      = (cursorStep ls.sola.mFrameSize cur cur ls.cursor).nextS := by rw [← ec]; rfl
  have e3 : (Sola.synthesisStep L cur 0 ls).2.analysisPeriod
      = (cursorStep ls.sola.mFrameSize cur cur ls.cursor).anP := by rw [← ec]; rfl
  have e4 : (Sola.synthesisStep L cur 0 ls).2.synthesisPeriod
      = (cursorStep ls.sola.mFrameSize cur cur ls.cursor).syP := by rw [← ec]; rfl
  simp only [cursorStep, LoopState.cursor, if_neg hbr] at e1 e2 e3 e4
  refine ⟨b1, b2, hcoh, ?_, ?_, Or.inl ?_⟩
  · intro c o hc0 hc1 ho0 ho1
    rw [d1] at ho1 ⊢
    rw [enc] at hc1
    exact h.analysis c o hc0 hc1 ho0 ho1
  · intro c o hc0 hc1 ho0 ho1
    rw [enc] at hc1
    rw [ecs] at ho1
    rw [d2 c o hc0 hc1 ho0 ho1, h.synthesis c o hc0 hc1 ho0 ho1, l2, l3]
    unfold grainWeight
    by_cases hcov : ls.nextSynthesisOffset - ls.synthesisPeriod < o ∧
        o ≤ ls.nextSynthesisOffset + ls.synthesisPeriod
    · rw [if_pos hcov, if_pos hcov]
      have hwin := hcoh (ls.nextSynthesisOffset + ls.synthesisPeriod - o) (by omega)
        (by rw [hsize]; omega)
      rw [hsize] at hwin
      rw [hwin]
      have ha := h.analysis c (ls.nextSynthesisOffset - ls.nextSynthesisOffset + o) hc0 hc1
        (by omega) (by
          have := h.inv.shaped.analysis_cap
          have := h.inv.shaped.synthesis_cap
          have := h.inv.shaped.maxPeriod_pos
          omega)
      rw [ha, show ls.nextSynthesisOffset - ls.nextSynthesisOffset + o = o by omega]
      ring
    · rw [if_neg hcov, if_neg hcov]
      ring
  · constructor
    · rw [e1, e2]
      split_ifs at l4 ⊢ <;> omega
    · rw [e3, e4, l4]

theorem PassInv.afterBody {L : Library} {cur : Int} {hist : Int → Int → Sample}
    {ls : LoopState} {W : Int → Sample} (h : PassInv L cur hist ls W)
    (hL : L.Pow2Bounded) (h0 : L.pow2 0 = 1)
    (hcur : 0 < cur ∧ cur ≤ ls.sola.mMaxPeriod) (hcond : Sola.loopCond ls) :
    (Sola.loopBody L cur 0 ls).1 = Status.returned ∧
    PassInv L cur hist (Sola.loopBody L cur 0 ls).2
      (if ls.cursor.nextA ≥ ls.cursor.nextS then W
        else fun o => W o + grainWeight L ls.cursor.nextS ls.cursor.syP o) ∧
    (Sola.loopBody L cur 0 ls).2.sola.config = ls.sola.config ∧
    (Sola.loopBody L cur 0 ls).2.cursor = cursorStep ls.sola.mFrameSize cur cur ls.cursor := by
  obtain ⟨-, -, b3, b4⟩ := h.inv.loopBody L hL cur 0 hcur ⟨by norm_num, by norm_num⟩ hcond
  rw [stretchedPeriod_zero L h0] at b4
  refine ⟨?_, ?_, b3, b4⟩
  · exact (h.inv.loopBody L hL cur 0 hcur ⟨by norm_num, by norm_num⟩ hcond).1
  · have h1 := h.inv.nextA_le
    have h2 := h.inv.nextS_le
    have h3 := h.inv.shaped.searchRange_start
    unfold Sola.loopBody
    rw [if_neg (by rw [h3]; omega)]
    by_cases hbr : ls.nextAnalysisOffset ≥ ls.nextSynthesisOffset
    · have hb : ls.cursor.nextA ≥ ls.cursor.nextS := hbr
      rw [if_pos hbr, if_pos hb]
      exact h.afterAnalysis hcur hcond hbr
    · have hb : ¬ ls.cursor.nextA ≥ ls.cursor.nextS := hbr
      rw [if_neg hbr, if_neg hb]
      exact (h.afterSynthesis hL h0 hcur hcond hbr).2

theorem Sola.markAdvanceLoop_pass (L : Library) (hL : L.Pow2Bounded) (h0 : L.pow2 0 = 1)
    (cur : Int) (hist : Int → Int → Sample) (F M : Int) (fuel : Nat) :
    ∀ (ls : LoopState) (W : Int → Sample), PassInv L cur hist ls W →
      (0 < cur ∧ cur ≤ ls.sola.mMaxPeriod) → ls.sola.mFrameSize = F → ls.sola.mMaxPeriod = M →
      (markAdvanceLoop L cur 0 fuel ls).1 = Status.returned →
      PassInv L cur hist (markAdvanceLoop L cur 0 fuel ls).2
        (cursorWeights L F M cur fuel ls.cursor W) ∧
      ¬ loopCond (markAdvanceLoop L cur 0 fuel ls).2 ∧
      (markAdvanceLoop L cur 0 fuel ls).2.sola.config = ls.sola.config := by
  induction fuel with
  | zero =>
    intro ls W h _ hF hM hret
    have hend := h.inv.shaped.searchRange_end
    unfold markAdvanceLoop at hret ⊢
    unfold cursorWeights
    by_cases hc : loopCond ls
    · rw [if_pos hc] at hret
      simp at hret
    · have hc' : ¬ (ls.cursor.nextA > M ∨ ls.cursor.nextS > M) := by
        unfold loopCond at hc; rw [hend, hM] at hc; exact hc
      rw [if_neg hc, if_neg hc']
      exact ⟨h, hc, rfl⟩
  | succ k ih =>
    intro ls W h hcur hF hM hret
    have hend := h.inv.shaped.searchRange_end
    unfold markAdvanceLoop at hret ⊢
    unfold cursorWeights
    by_cases hc : loopCond ls
    · have hc' : ls.cursor.nextA > M ∨ ls.cursor.nextS > M := by
        unfold loopCond at hc; rw [hend, hM] at hc; exact hc
      rw [if_pos hc] at hret ⊢
      rw [if_pos hc']
      obtain ⟨b1, b2, b3, b4⟩ := h.afterBody hL h0 hcur hc
      rcases hb : loopBody L cur 0 ls with ⟨st, ls'⟩
      rw [hb] at b1 b2 b3 b4 hret
      simp only at b1 b2 b3 b4 hret
      subst b1
      simp only at hret ⊢
      rw [hF] at b4
      rw [← b4]
      obtain ⟨r1, r2, r3⟩ := ih ls' _ b2 (by rw [Sola.config_maxPeriod b3]; exact hcur)
        (by rw [Sola.config_frameSize b3]; exact hF)
        (by rw [Sola.config_maxPeriod b3]; exact hM) hret
      exact ⟨r1, r2, r3.trans b3⟩
    · have hc' : ¬ (ls.cursor.nextA > M ∨ ls.cursor.nextS > M) := by
        unfold loopCond at hc; rw [hend, hM] at hc; exact hc
      rw [if_neg hc, if_neg hc']
      exact ⟨h, hc, rfl⟩

theorem Sola.finishLoop_fields (ls : LoopState) :
    (∀ c o : Int, (finishLoop ls).2.mAnalysis.sampleAt c o = ls.sola.mAnalysis.sampleAt c o) ∧
    (∀ c o : Int, (finishLoop ls).2.mSynthesis.sampleAt c o
      = ls.sola.mSynthesis.sampleAt c o) ∧
    (finishLoop ls).2.mAnalysis.lastMarkOffset = ls.sola.mAnalysis.lastMarkOffset ∧
    (finishLoop ls).2.mSynthesis.lastMarkOffset = ls.sola.mSynthesis.lastMarkOffset ∧
    (finishLoop ls).2.mAnalysis.lastPeriod = ls.analysisPeriod ∧
    (finishLoop ls).2.mSynthesis.lastPeriod = ls.synthesisPeriod := by
  unfold finishLoop
  simp only
  split <;> exact ⟨fun _ _ => rfl, fun _ _ => rfl, rfl, rfl, rfl, rfl⟩

theorem Sola.Process_returned_eq (L : Library) (hL : L.Pow2Bounded) (s : Sola) (hs : s.Shaped)
    (hc : s.CursorsOk) (frame : AudioBuffer) (cur : Int) (sem : ℚ)
    (hpre : s.preconditions frame cur sem) (fuel : Nat)
    (hret : (Process L fuel s frame cur sem).status = Status.returned) :
    ∃ ls', markAdvanceLoop L cur sem fuel (loopInit (s.ingested frame)).2
        = (Status.returned, ls') ∧
      LoopInv ls' ∧ ¬ loopCond ls' ∧ ls'.sola.config = (s.ingested frame).config ∧
      (finishLoop ls').2.Shaped ∧ (finishLoop ls').2.config = (s.ingested frame).config ∧
      Process L fuel s frame cur sem = (finishLoop ls').2.emitted frame := by
  have hpre' := hpre
  obtain ⟨hfc, hfs, hsem, hcur⟩ := hpre
  obtain ⟨i1, i2, i3⟩ := Sola.loopInit_ingested s hs hc frame
  have hM : (loopInit (s.ingested frame)).2.sola.mMaxPeriod = s.mMaxPeriod := by
    rw [i3]; rfl
  have hadv : advance L fuel s frame cur sem
      = match markAdvanceLoop L cur sem fuel (loopInit (s.ingested frame)).2 with
        | (Status.returned, ls') => finishLoop ls'
        | (st, ls') => (st, ls'.sola) := by
    unfold advance
    rw [Sola.ingest_eq s hs frame hfc hfs]
    simp only
    rcases hi : loopInit (s.ingested frame) with ⟨st, ls⟩
    rw [hi] at i1
    simp only at i1
    subst i1
    rfl
  unfold Process at hret ⊢
  rw [if_neg (not_not.mpr hpre'), hadv] at hret
  rw [if_neg (not_not.mpr hpre'), hadv]
  rcases Sola.markAdvanceLoop_inv L hL cur sem hsem fuel _ i2 (by rw [hM]; exact hcur)
    with hr | hr
  · obtain ⟨q1, q2, q3, q4⟩ := hr
    rcases hl : markAdvanceLoop L cur sem fuel (loopInit (s.ingested frame)).2 with ⟨st, ls'⟩
    rw [hl] at q1 q2 q3 q4
    simp only at q1 q2 q3 q4
    subst q1
    simp only
    obtain ⟨f1, f2, -, f4⟩ := Sola.finishLoop_spec ls' q2 q3
    have cfg : ls'.sola.config = (s.ingested frame).config := by
      rw [q4, i3]
    refine ⟨ls', rfl, q2, q3, cfg, f2, f4.trans cfg, ?_⟩
    rcases hf : finishLoop ls' with ⟨st, s1⟩
    rw [hf] at f1 f2 f4
    simp only at f1 f2 f4
    subst f1
    simp only
    have e1 : s1.mNumChannels = s.mNumChannels := by
      have := f4.trans cfg
      simp only [Sola.config, List.cons.injEq] at this; exact this.1
    have e2 : s1.mFrameSize = s.mFrameSize := by
      have := f4.trans cfg
      simp only [Sola.config, List.cons.injEq] at this; exact this.2.1
    exact Sola.emit_eq s1 f2 frame (by rw [e1]; exact hfc) (by rw [e2]; exact hfs)
  · exfalso
    rcases hl : markAdvanceLoop L cur sem fuel (loopInit (s.ingested frame)).2 with ⟨st, ls'⟩
    rw [hl] at hr hret
    simp only at hr
    subst hr
    simp at hret

theorem Sola.PassOk.loopInit {L : Library} {s : Sola} {W : Int → Sample}
    {hist : Int → Int → Sample} (h : s.PassOk L W hist) (hL : L.Pow2Bounded)
    (frame : AudioBuffer) (cur : Int) :
    PassInv L cur (pushHistory s.mFrameSize frame hist) (Sola.loopInit (s.ingested frame)).2
      (shiftWeights s.mFrameSize W) := by
  obtain ⟨hsh, hc⟩ := Sola.Reachable.inv hL h.reach
  have hcoh := Sola.Reachable.windowCoherent h.reach
  obtain ⟨i1, i2, i3⟩ := Sola.loopInit_ingested s hsh hc frame
  have hcur0 := Sola.loopInit_cursor s frame
  have hF := hsh.frameSize_pos
  have hM := hsh.maxPeriod_pos
  have hcapA := hsh.analysis_cap
  have hcapS := hsh.synthesis_cap
  refine ⟨i2, ?_, ?_, ?_, Or.inl ?_⟩
  · rw [i3]
    exact hcoh
  · rw [i3]
    intro c o hc0 hc1 ho0 ho1
    have hc1' : c < s.mNumChannels := hc1
    have ho1' : o ≤ s.mAnalysis.numSamples := ho1
    rw [Sola.ingested_analysis_sampleAt s hsh frame c o hc0 hc1' ho0 ho1']
    unfold pushHistory
    by_cases hoF : o ≤ s.mFrameSize
    · rw [if_pos hoF, if_pos hoF]
    · rw [if_neg hoF, if_neg hoF]
      exact h.analysis c _ hc0 hc1' (by omega) (by omega)
  · rw [i3]
    intro c o hc0 hc1 ho0 ho1
    have hc1' : c < s.mNumChannels := hc1
    have ho1' : o ≤ s.mSynthesis.numSamples := ho1
    rw [Sola.ingested_synthesis_sampleAt s hsh frame c o ho0 ho1']
    unfold pushHistory shiftWeights
    by_cases hoF : o ≤ s.mFrameSize
    · rw [if_pos hoF, if_pos hoF, if_pos hoF, zero_mul]
      exact h.cleared c _ hc0 hc1' (by omega) (by omega)
    · rw [if_neg hoF, if_neg hoF, if_neg hoF]
      exact h.synthesis c _ hc0 hc1' (by omega) (by omega)
  · have e1 : (Sola.loopInit (s.ingested frame)).2.nextAnalysisOffset = s.entryCursor.nextA := by
      rw [← hcur0]; rfl
    have e2 : (Sola.loopInit (s.ingested frame)).2.nextSynthesisOffset = s.entryCursor.nextS := by
      rw [← hcur0]; rfl
    have e3 : (Sola.loopInit (s.ingested frame)).2.analysisPeriod = s.entryCursor.anP := by
      rw [← hcur0]; rfl
    have e4 : (Sola.loopInit (s.ingested frame)).2.synthesisPeriod = s.entryCursor.syP := by
      rw [← hcur0]; rfl
    rw [e1, e2, e3, e4]
    simp only [Sola.entryCursor]
    obtain ⟨l1, l2⟩ := h.lock
    constructor <;> omega

theorem Sola.PassOk.Process {L : Library} {s : Sola} {W : Int → Sample}
    {hist : Int → Int → Sample} (h : s.PassOk L W hist) (hL : L.Pow2Bounded)
    (h0 : L.pow2 0 = 1) (frame : AudioBuffer) (cur : Int)
    (hpre : s.preconditions frame cur 0) (fuel : Nat)
    (hret : (Sola.Process L fuel s frame cur 0).status = Status.returned) :
    (Sola.Process L fuel s frame cur 0).sola.PassOk L (Sola.callWeights L fuel s cur W)
      (pushHistory s.mFrameSize frame hist) ∧
    ∀ c k : Int, 0 ≤ c → c < s.mNumChannels → 0 ≤ k → k < s.mFrameSize →
      (Sola.Process L fuel s frame cur 0).frame.data c k
        = Sola.callWeights L fuel s cur W (2 * s.mMaxPeriod + s.mFrameSize - k)
          * pushHistory s.mFrameSize frame hist c (2 * s.mMaxPeriod + s.mFrameSize - k) := by
  obtain ⟨hsh, hc⟩ := Sola.Reachable.inv hL h.reach
  have hreach := Sola.Reachable.step s fuel frame cur 0 h.reach hpre hret
  obtain ⟨ls', m1, m2, m3, m4, m5, m6, m7⟩ :=
    Sola.Process_returned_eq L hL s hsh hc frame cur 0 hpre fuel hret
  obtain ⟨-, i2, i3⟩ := Sola.loopInit_ingested s hsh hc frame
  have hM0 : (Sola.loopInit (s.ingested frame)).2.sola.mMaxPeriod = s.mMaxPeriod := by
    rw [i3]; rfl
  have hF0 : (Sola.loopInit (s.ingested frame)).2.sola.mFrameSize = s.mFrameSize := by
    rw [i3]; rfl
  have hp := Sola.markAdvanceLoop_pass L hL h0 cur (pushHistory s.mFrameSize frame hist)
    s.mFrameSize s.mMaxPeriod fuel _ _ (h.loopInit hL frame cur)
    (by rw [hM0]; exact hpre.2.2.2) hF0 hM0 (by rw [m1])
  rw [m1, Sola.loopInit_cursor] at hp
  obtain ⟨p1, -, -⟩ := hp
  simp only at p1
  have pw : PassInv L cur (pushHistory s.mFrameSize frame hist) ls'
      (Sola.callWeights L fuel s cur W) := p1
  obtain ⟨f1, f2, f3, f4, f5, f6⟩ := Sola.finishLoop_fields ls'
  have eM : ls'.sola.mMaxPeriod = s.mMaxPeriod := by rw [Sola.config_maxPeriod m4]; rfl
  have eF : ls'.sola.mFrameSize = s.mFrameSize := by rw [Sola.config_frameSize m4]; rfl
  have enc : ls'.sola.mNumChannels = s.mNumChannels := by
    have := m4; simp only [Sola.config, List.cons.injEq] at this; exact this.1
  have ecA : ls'.sola.mAnalysis.numSamples = s.mAnalysis.numSamples := by
    have := m4; simp only [Sola.config, List.cons.injEq] at this; exact this.2.2.2.1
  have ecS : ls'.sola.mSynthesis.numSamples = s.mSynthesis.numSamples := by
    have := m4; simp only [Sola.config, List.cons.injEq] at this; exact this.2.2.2.2.1
  have gM : (Sola.finishLoop ls').2.mMaxPeriod = s.mMaxPeriod := by
    rw [Sola.config_maxPeriod m6]; rfl
  have gF : (Sola.finishLoop ls').2.mFrameSize = s.mFrameSize := by
    rw [Sola.config_frameSize m6]; rfl
  have gnc : (Sola.finishLoop ls').2.mNumChannels = s.mNumChannels := by
    have := m6; simp only [Sola.config, List.cons.injEq] at this; exact this.1
  have gcA : (Sola.finishLoop ls').2.mAnalysis.numSamples = s.mAnalysis.numSamples := by
    have := m6; simp only [Sola.config, List.cons.injEq] at this; exact this.2.2.2.1
  have gcS : (Sola.finishLoop ls').2.mSynthesis.numSamples = s.mSynthesis.numSamples := by
    have := m6; simp only [Sola.config, List.cons.injEq] at this; exact this.2.2.2.2.1
  have hcapS := hsh.synthesis_cap
  have hFpos := hsh.frameSize_pos
  have hMpos := hsh.maxPeriod_pos
  have hend := m2.shaped.searchRange_end
  have hlock : ls'.nextAnalysisOffset = ls'.nextSynthesisOffset ∧
      ls'.analysisPeriod = ls'.synthesisPeriod := by
    rcases pw.lock with hl | hl
    · exact hl
    · exfalso
      apply m3
      unfold Sola.loopCond
      rw [hend]
      exact Or.inr hl.1
  have hA := m2.nextA_eq
  have hS := m2.nextS_eq
  refine ⟨⟨?_, ?_, ?_, ?_, ?_⟩, ?_⟩
  · exact hreach
  · rw [m7]
    refine ⟨?_, ?_⟩
    · show (Sola.finishLoop ls').2.mSynthesis.lastMarkOffset
        = (Sola.finishLoop ls').2.mAnalysis.lastMarkOffset
      rw [f3, f4]; omega
    · show (Sola.finishLoop ls').2.mSynthesis.lastPeriod
        = (Sola.finishLoop ls').2.mAnalysis.lastPeriod
      rw [f5, f6]; exact hlock.2.symm
  · rw [m7]
    intro c o hc0 hc1 ho0 ho1
    have hc1' : c < (Sola.finishLoop ls').2.mNumChannels := hc1
    have ho1' : o ≤ (Sola.finishLoop ls').2.mAnalysis.numSamples := ho1
    show (Sola.finishLoop ls').2.mAnalysis.sampleAt c o = _
    rw [f1]
    exact pw.analysis c o hc0 (by rw [enc, ← gnc]; exact hc1') ho0
      (by rw [ecA, ← gcA]; exact ho1')
  · rw [m7]
    intro c o hc0 hc1 ho0 ho1
    have hc1' : c < (Sola.finishLoop ls').2.mNumChannels := hc1
    have ho1' : o ≤ 2 * (Sola.finishLoop ls').2.mMaxPeriod := ho1
    rw [Sola.emitted_synthesis_sampleAt _ m5 frame c o hc0 hc1' ho0 (by rw [gcS]; omega),
      if_neg (by omega), f2]
    exact pw.synthesis c o hc0 (by rw [enc, ← gnc]; exact hc1') ho0 (by rw [ecS]; omega)
  · rw [m7]
    intro c o hc0 hc1 ho0 ho1
    have hc1' : c < (Sola.finishLoop ls').2.mNumChannels := hc1
    have ho0' : 2 * (Sola.finishLoop ls').2.mMaxPeriod < o := ho0
    have ho1' : o ≤ (Sola.finishLoop ls').2.mSynthesis.numSamples := ho1
    rw [Sola.emitted_synthesis_sampleAt _ m5 frame c o hc0 hc1' (by omega) ho1',
      if_pos ho0']
  · intro c k hc0 hc1 hk0 hk1
    rw [m7, Sola.emitted_frame_data _ m5 frame c k hc0 (by rw [gnc]; exact hc1) hk0
      (by rw [gF]; exact hk1), f2, gM, gF]
    exact pw.synthesis c _ hc0 (by rw [enc]; exact hc1) (by omega) (by rw [ecS]; omega)

theorem Sola.PassThrough.passOk {L : Library} (hL : L.Pow2Bounded) (h0 : L.pow2 0 = 1)
    {s : Sola} {W : Int → Sample} {hist : Int → Int → Sample}
    (h : Sola.PassThrough L s W hist) : s.PassOk L W hist := by
  induction h with
  | init nc F M s hnew =>
    have hr := @Sola.Reachable.init L nc F M s hnew
    unfold Sola.new at hnew
    split at hnew
    · simp only [Option.some.injEq] at hnew
      subst hnew
      refine ⟨hr, ⟨rfl, rfl⟩, ?_, ?_, ?_⟩
      · intro c o _ _ _ _
        unfold CircularBuffer.sampleAt
        split <;> rfl
      · intro c o _ _ _ _
        unfold CircularBuffer.sampleAt
        split <;> simp [AudioBuffer.zeros]
      · intro c o _ _ _ _
        unfold CircularBuffer.sampleAt
        split <;> rfl
    · exact absurd hnew (by simp)
  | step s W hist fuel frame cur _ hpre hret ih =>
    exact (ih.Process hL h0 frame cur hpre fuel hret).1

theorem PassInv.grain {L : Library} {cur : Int} {hist : Int → Int → Sample}
    {ls : LoopState} {W : Int → Sample} (h : PassInv L cur hist ls W)
    (hcond : Sola.loopCond ls) (hbr : ls.nextAnalysisOffset < ls.nextSynthesisOffset) :
    (ls.sola.mAnalysis.lastMarkOffset = ls.nextSynthesisOffset ∧
      ls.sola.mAnalysis.lastPeriod = ls.synthesisPeriod) ∧
    ∀ c o : Int, 0 ≤ c → c < ls.sola.mNumChannels → 1 ≤ o → o ≤ ls.sola.mSynthesis.numSamples →
      (Sola.synthesisStep L cur 0 ls).2.sola.mSynthesis.sampleAt c o
        = ls.sola.mSynthesis.sampleAt c o
          + grainWeight L ls.nextSynthesisOffset ls.sola.mAnalysis.lastPeriod o
            * ls.sola.mAnalysis.sampleAt c o := by
  have hbr' : ¬ ls.nextAnalysisOffset ≥ ls.nextSynthesisOffset := not_le.mpr hbr
  obtain ⟨-, d2⟩ := h.inv.synthesisStep_data L cur 0 hcond hbr'
  obtain ⟨w1, w2⟩ := Sola.synthesisStep_window L cur 0 ls
  obtain ⟨u1, u2⟩ := Sola.updateWindow_coherent L ls.sola (2 * ls.sola.mAnalysis.lastPeriod)
    h.coherent
  have hap := h.inv.aPeriod_pos
  have hl : ls.sola.mAnalysis.lastMarkOffset = ls.nextSynthesisOffset ∧
      ls.sola.mAnalysis.lastPeriod = ls.synthesisPeriod := by
    rcases h.lock with hl | hl
    · exfalso; omega
    · exact ⟨hl.2.1, hl.2.2.1⟩
  refine ⟨hl, ?_⟩
  intro c o hc0 hc1 ho0 ho1
  rw [d2 c o hc0 hc1 ho0 ho1, hl.1]
  unfold grainWeight
  by_cases hcov : ls.nextSynthesisOffset - ls.sola.mAnalysis.lastPeriod < o ∧
      o ≤ ls.nextSynthesisOffset + ls.sola.mAnalysis.lastPeriod
  · rw [if_pos hcov, if_pos hcov, w1]
    have hwin := u1 (ls.nextSynthesisOffset + ls.sola.mAnalysis.lastPeriod - o) (by omega)
      (by rw [u2]; omega)
    rw [u2] at hwin
    rw [hwin, show ls.nextSynthesisOffset - ls.nextSynthesisOffset + o = o by omega]
  · rw [if_neg hcov, if_neg hcov, zero_mul]

theorem PassInv.phase {L : Library} {cur : Int} {hist : Int → Int → Sample}
    {ls : LoopState} {W : Int → Sample} (h : PassInv L cur hist ls W)
    (hL : L.Pow2Bounded) (h0 : L.pow2 0 = 1)
    (hcur : 0 < cur ∧ cur ≤ ls.sola.mMaxPeriod) (hcond : Sola.loopCond ls) :
    (ls.nextAnalysisOffset = ls.nextSynthesisOffset →
      (Sola.loopBody L cur 0 ls).2.nextAnalysisOffset
        < (Sola.loopBody L cur 0 ls).2.nextSynthesisOffset) ∧
    (ls.nextAnalysisOffset < ls.nextSynthesisOffset →
      (Sola.loopBody L cur 0 ls).2.nextAnalysisOffset
        = (Sola.loopBody L cur 0 ls).2.nextSynthesisOffset) := by
  obtain ⟨-, -, -, b4⟩ := h.afterBody hL h0 hcur hcond
  have e1 : (Sola.loopBody L cur 0 ls).2.nextAnalysisOffset
      = (cursorStep ls.sola.mFrameSize cur cur ls.cursor).nextA := by rw [← b4]; rfl
  have e2 : (Sola.loopBody L cur 0 ls).2.nextSynthesisOffset
      = (cursorStep ls.sola.mFrameSize cur cur ls.cursor).nextS := by rw [← b4]; rfl
  have hp := h.inv.anPeriod_pos
  have hA := h.inv.nextA_eq
  constructor
  · intro heq
    have hbr : ls.nextAnalysisOffset ≥ ls.nextSynthesisOffset := by omega
    simp only [cursorStep, LoopState.cursor, if_pos hbr] at e1 e2
    rw [e1, e2]
    split_ifs <;> omega
  · intro hlt
    have hbr : ¬ ls.nextAnalysisOffset ≥ ls.nextSynthesisOffset := by omega
    simp only [cursorStep, LoopState.cursor, if_neg hbr] at e1 e2
    rw [e1, e2]
    rcases h.lock with hl | hl
    · exfalso; omega
    · obtain ⟨-, l2, -, l4⟩ := hl
      split_ifs at l4 ⊢ <;> omega

theorem Sola.loopIter_pass (L : Library) (hL : L.Pow2Bounded) (h0 : L.pow2 0 = 1)
    (cur : Int) (hist : Int → Int → Sample) (n : Nat) :
    ∀ (ls0 ls : LoopState) (W0 : Int → Sample), PassInv L cur hist ls0 W0 →
      (0 < cur ∧ cur ≤ ls0.sola.mMaxPeriod) →
      Sola.loopIter L cur 0 n ls0 = some ls →
      (∃ W, PassInv L cur hist ls W) ∧
      (ls0.nextAnalysisOffset = ls0.nextSynthesisOffset →
        (n % 2 = 0 → ls.nextAnalysisOffset = ls.nextSynthesisOffset) ∧
        (n % 2 = 1 → ls.nextAnalysisOffset < ls.nextSynthesisOffset)) ∧
      (ls0.nextAnalysisOffset < ls0.nextSynthesisOffset →
        (n % 2 = 0 → ls.nextAnalysisOffset < ls.nextSynthesisOffset) ∧
        (n % 2 = 1 → ls.nextAnalysisOffset = ls.nextSynthesisOffset)) := by
  induction n with
  | zero =>
    intro ls0 ls W0 h _ he
    simp only [Sola.loopIter, Option.some.injEq] at he
    subst he
    exact ⟨⟨W0, h⟩, fun heq => ⟨fun _ => heq, fun hn => absurd hn (by decide)⟩,
      fun hlt => ⟨fun _ => hlt, fun hn => absurd hn (by decide)⟩⟩
  | succ k ih =>
    intro ls0 ls W0 h hcur he
    unfold Sola.loopIter at he
    by_cases hc : Sola.loopCond ls0
    · rw [if_pos hc] at he
      obtain ⟨b1, b2, b3, -⟩ := h.afterBody hL h0 hcur hc
      obtain ⟨ph1, ph2⟩ := h.phase hL h0 hcur hc
      rcases hb : Sola.loopBody L cur 0 ls0 with ⟨st, ls1⟩
      rw [hb] at b1 b2 b3 he ph1 ph2
      simp only at b1 b2 b3 ph1 ph2
      subst b1
      simp only at he
      obtain ⟨r1, r2, r3⟩ := ih ls1 ls _ b2 (by rw [Sola.config_maxPeriod b3]; exact hcur) he
      refine ⟨r1, fun heq => ?_, fun hlt => ?_⟩
      · obtain ⟨t1, t2⟩ := r3 (ph1 heq)
        exact ⟨fun hn => t2 (by omega), fun hn => t1 (by omega)⟩
      · obtain ⟨t1, t2⟩ := r2 (ph2 hlt)
        exact ⟨fun hn => t2 (by omega), fun hn => t1 (by omega)⟩
    · rw [if_neg hc] at he
      exact absurd he (by simp)

theorem Sola.PassOk.loopInit_lock {L : Library} {s : Sola} {W : Int → Sample}
    {hist : Int → Int → Sample} (h : s.PassOk L W hist) (frame : AudioBuffer) :
    (Sola.loopInit (s.ingested frame)).2.nextAnalysisOffset
      = (Sola.loopInit (s.ingested frame)).2.nextSynthesisOffset := by
  have hcur0 := Sola.loopInit_cursor s frame
  have e1 : (Sola.loopInit (s.ingested frame)).2.nextAnalysisOffset = s.entryCursor.nextA := by
    rw [← hcur0]; rfl
  have e2 : (Sola.loopInit (s.ingested frame)).2.nextSynthesisOffset = s.entryCursor.nextS := by
    rw [← hcur0]; rfl
  rw [e1, e2]
  simp only [Sola.entryCursor]
  obtain ⟨l1, l2⟩ := h.lock
  omega

theorem testLibrary_pow2_zero : testLibrary.pow2 0 = 1 := by
  norm_num [testLibrary]

theorem testEngine_callWeights :
    Sola.callWeights testLibrary 10 testEngine 1 (fun _ => 0) 2 = 1 ∧
    Sola.callWeights testLibrary 10 testEngine 1 (fun _ => 0) 3 = 2 ∧
    Sola.callWeights testLibrary 10 testEngine 1 (fun _ => 0) 4 = 1 := by
  have e : testEngine.entryCursor = ⟨3, 3, 1, 1⟩ := by decide
  have hF : testEngine.mFrameSize = 2 := by decide
  have hM : testEngine.mMaxPeriod = 1 := by decide
  unfold Sola.callWeights
  rw [e, hF, hM]
  simp only [cursorWeights, cursorStep, shiftWeights, grainWeight, testLibrary]
  norm_num [shiftWeights]

/-! ## The claims -/

/-- C1: from every reachable engine state, a call of Process that satisfies the
preconditions never fails an assertion and never accesses a buffer out of bounds, for any
number of iterations of the loop (the call either returns or is still running when the
fuel ends); every synthesis step of the call starts in a state where the offsets handed to
OffsetToIdx lie in [0, capacity], the assertions at lines 112-113 hold, the grain spans only
offsets in [1, capacity] of both buffers and its length is at most the window size
2 * maxPeriod; and the emit offset lies in [0, capacity]. -/
theorem Process_never_out_of_bounds (L : Library) (hL : L.Pow2Bounded) (s : Sola)
    (hs : Sola.Reachable L s) (frame : AudioBuffer) (cur : Int) (sem : ℚ)
    (hpre : s.preconditions frame cur sem) :
    (∀ fuel : Nat,
      (Sola.Process L fuel s frame cur sem).status = Status.returned ∨
      (Sola.Process L fuel s frame cur sem).status = Status.outOfFuel) ∧
    (∃ s1 ls0, s.ingest frame = (Status.returned, s1) ∧
      Sola.loopInit s1 = (Status.returned, ls0) ∧
      ∀ (n : Nat) (ls : LoopState), Sola.loopIter L cur sem n ls0 = some ls →
        Sola.loopCond ls → ls.nextAnalysisOffset < ls.nextSynthesisOffset →
        GrainBounds ls) ∧
    (0 ≤ s.mReadyOutRange.startOffset ∧
      s.mReadyOutRange.startOffset ≤ s.mSynthesis.numSamples) := by
  obtain ⟨hsh, hc⟩ := hs.inv hL
  have hpre' := hpre
  obtain ⟨hfc, hfs, hsem, hcur⟩ := hpre
  refine ⟨?_, ?_, ?_⟩
  · intro fuel
    rcases Sola.Process_inv L hL s hsh hc frame cur sem hpre' fuel with hr | hr
    · exact Or.inl hr.1
    · exact Or.inr hr
  · obtain ⟨i1, i2, i3⟩ := Sola.loopInit_ingested s hsh hc frame
    refine ⟨s.ingested frame, (Sola.loopInit (s.ingested frame)).2,
      Sola.ingest_eq s hsh frame hfc hfs, ?_, ?_⟩
    · rw [← i1]
    · intro n ls hn hcond hbr
      have hM : (Sola.loopInit (s.ingested frame)).2.sola.mMaxPeriod = s.mMaxPeriod := by
        rw [i3]; rfl
      exact (Sola.loopIter_inv L hL cur sem hsem n _ ls i2 (by rw [hM]; exact hcur) hn).grainBounds
        hcond hbr
  · have h1 := hsh.readyOut_start
    have h2 := hsh.synthesis_cap
    have h3 := hsh.maxPeriod_pos
    have h4 := hsh.frameSize_pos
    omega

/-- Witness for C1: the first call on the engine Sola(1, 2, 1). -/
theorem Process_never_out_of_bounds_witness :
    (∀ fuel : Nat,
      (Sola.Process testLibrary fuel testEngine testFrame 1 0).status = Status.returned ∨
      (Sola.Process testLibrary fuel testEngine testFrame 1 0).status = Status.outOfFuel) ∧
    (∃ s1 ls0, testEngine.ingest testFrame = (Status.returned, s1) ∧
      Sola.loopInit s1 = (Status.returned, ls0) ∧
      ∀ (n : Nat) (ls : LoopState), Sola.loopIter testLibrary 1 0 n ls0 = some ls →
        Sola.loopCond ls → ls.nextAnalysisOffset < ls.nextSynthesisOffset →
        GrainBounds ls) ∧
    (0 ≤ testEngine.mReadyOutRange.startOffset ∧
      testEngine.mReadyOutRange.startOffset ≤ testEngine.mSynthesis.numSamples) :=
  Process_never_out_of_bounds testLibrary testLibrary_pow2Bounded testEngine
    (Sola.Reachable.init 1 2 1 testEngine testEngine_new) testFrame 1 0 (by decide)

/-- C2 (the code fails it): on the engine Sola(1, 2, 1) right after construction, the call
Process(frame, 1, 12) satisfies every precondition, yet the mark-advance loop never ends:
whatever the fuel, the call is still running when the fuel is used up.  The synthesis period
is recomputed as static_cast<int>(1 * 0.5) = 0, so the next synthesis candidate stays at
offset 2 above the search bound 1 forever. -/
theorem Process_period_one_never_returns :
    testEngine.preconditions testFrame 1 12 ∧
    ∀ fuel : Nat,
      (Sola.Process testLibrary fuel testEngine testFrame 1 12).status = Status.outOfFuel := by
  have hpre : testEngine.preconditions testFrame 1 12 := by decide
  refine ⟨hpre, fun fuel => ?_⟩
  refine (Sola.Process_cursor testLibrary testLibrary_pow2Bounded testEngine testEngine_inv.1
    testEngine_inv.2 testFrame 1 12 hpre fuel).1 ?_
  rw [stretchedPeriod_test_one]
  have e : testEngine.entryCursor = ⟨3, 3, 1, 1⟩ := by decide
  have hF : testEngine.mFrameSize = 2 := by decide
  have hM : testEngine.mMaxPeriod = 1 := by decide
  rw [e, hF, hM]
  refine cursorLoop_none_of_step 2 1 1 0 ⟨3, 3, 1, 1⟩ (by decide) ?_ fuel
  rw [show cursorStep 2 1 0 ⟨3, 3, 1, 1⟩ = ⟨2, 3, 1, 1⟩ by decide]
  refine cursorLoop_none_of_step 2 1 1 0 ⟨2, 3, 1, 1⟩ (by decide) ?_
  rw [show cursorStep 2 1 0 ⟨2, 3, 1, 1⟩ = ⟨2, 2, 1, 1⟩ by decide]
  refine cursorLoop_none_of_step 2 1 1 0 ⟨2, 2, 1, 1⟩ (by decide) ?_
  rw [show cursorStep 2 1 0 ⟨2, 2, 1, 1⟩ = ⟨1, 2, 1, 1⟩ by decide]
  refine cursorLoop_none_of_step 2 1 1 0 ⟨1, 2, 1, 1⟩ (by decide) ?_
  rw [show cursorStep 2 1 0 ⟨1, 2, 1, 1⟩ = ⟨1, 2, 1, 0⟩ by decide]
  exact cursorLoop_none_of_fixed 2 1 1 0 ⟨1, 2, 1, 0⟩ (by decide) (by decide)

/-- C3: a call of Process whose frame has the wrong channel count or length, whose semitones
lie outside [-12, 12] or whose period is not in (0, maxPeriod] fails on the entry
assertions, and the engine (both ring buffers with their heads and cursors, the window
cache) and the frame of the caller are exactly as before the call. -/
theorem Process_rejects_without_mutation (L : Library) (fuel : Nat) (s : Sola)
    (frame : AudioBuffer) (cur : Int) (sem : ℚ)
    (h : frame.numChannels ≠ s.mNumChannels ∨ frame.numSamples ≠ s.mFrameSize ∨
      sem < -12 ∨ 12 < sem ∨ cur ≤ 0 ∨ s.mMaxPeriod < cur) :
    (Sola.Process L fuel s frame cur sem).status = Status.assertFailed ∧
    (Sola.Process L fuel s frame cur sem).sola = s ∧
    (Sola.Process L fuel s frame cur sem).frame = frame := by
  have hn : ¬ s.preconditions frame cur sem := by
    rintro ⟨h1, h2, ⟨h3, h4⟩, h5, h6⟩
    rcases h with h | h | h | h | h | h
    · exact h h1
    · exact h h2
    · exact absurd h3 (not_le.mpr h)
    · exact absurd h4 (not_le.mpr h)
    · omega
    · omega
  unfold Sola.Process
  rw [if_pos hn]
  exact ⟨rfl, rfl, rfl⟩

/-- Witness for C3: the period 0 is rejected by the engine Sola(1, 2, 1). -/
theorem Process_rejects_without_mutation_witness :
    (Sola.Process testLibrary 5 testEngine testFrame 0 0).status = Status.assertFailed ∧
    (Sola.Process testLibrary 5 testEngine testFrame 0 0).sola = testEngine ∧
    (Sola.Process testLibrary 5 testEngine testFrame 0 0).frame = testFrame :=
  Process_rejects_without_mutation testLibrary 5 testEngine testFrame 0 0
    (Or.inr (Or.inr (Or.inr (Or.inr (Or.inl (by decide))))))

/-- C4: when a call of Process from a reachable engine state returns, the output sample
frame[c][k] is the synthesis sample at offset 2 * maxPeriod + frameSize - k as the
mark-advance loop left it, for every channel c and every k in [0, frameSize); after the
call the synthesis samples at the offsets 2 * maxPeriod + 1 .. 2 * maxPeriod + frameSize
are zero, those at the offsets 1 .. 2 * maxPeriod are as the loop left them, and nothing
else of the engine differs from the state after the loop. -/
theorem Process_emit_spec (L : Library) (hL : L.Pow2Bounded) (s : Sola)
    (hs : Sola.Reachable L s) (frame : AudioBuffer) (cur : Int) (sem : ℚ) (fuel : Nat)
    (hret : (Sola.Process L fuel s frame cur sem).status = Status.returned) :
    ∃ mid, Sola.advance L fuel s frame cur sem = (Status.returned, mid) ∧
      (∀ c k : Int, 0 ≤ c → c < s.mNumChannels → 0 ≤ k → k < s.mFrameSize →
        (Sola.Process L fuel s frame cur sem).frame.data c k
          = mid.mSynthesis.sampleAt c (2 * s.mMaxPeriod + s.mFrameSize - k)) ∧
      (∀ c o : Int, 0 ≤ c → c < s.mNumChannels →
        2 * s.mMaxPeriod + 1 ≤ o → o ≤ 2 * s.mMaxPeriod + s.mFrameSize →
        (Sola.Process L fuel s frame cur sem).sola.mSynthesis.sampleAt c o = 0) ∧
      (∀ c o : Int, 1 ≤ o → o ≤ 2 * s.mMaxPeriod →
        (Sola.Process L fuel s frame cur sem).sola.mSynthesis.sampleAt c o
          = mid.mSynthesis.sampleAt c o) ∧
      (Sola.Process L fuel s frame cur sem).sola
        = { mid with
            mSynthesis :=
              { mid.mSynthesis with
                buffer := (Sola.Process L fuel s frame cur sem).sola.mSynthesis.buffer } } ∧
      (Sola.Process L fuel s frame cur sem).frame.numChannels = frame.numChannels ∧
      (Sola.Process L fuel s frame cur sem).frame.numSamples = frame.numSamples := by
  obtain ⟨hsh, hc⟩ := hs.inv hL
  have hpre : s.preconditions frame cur sem := by
    by_contra hn
    unfold Sola.Process at hret
    rw [if_pos hn] at hret
    simp at hret
  have hpre' := hpre
  obtain ⟨hfc, hfs, hsem, hcur⟩ := hpre
  rcases Sola.advance_inv L hL s hsh hc frame cur sem hpre' fuel with ha | ha
  swap
  · exfalso
    unfold Sola.Process at hret
    rw [if_neg (not_not.mpr hpre')] at hret
    rcases hadv : Sola.advance L fuel s frame cur sem with ⟨st, s1⟩
    rw [hadv] at ha hret
    simp only at ha
    subst ha
    simp at hret
  obtain ⟨a1, a2, a3, a4⟩ := ha
  rcases hadv : Sola.advance L fuel s frame cur sem with ⟨st, mid⟩
  rw [hadv] at a1 a2 a3 a4
  simp only at a1 a2 a3 a4
  subst a1
  have e1 : mid.mNumChannels = s.mNumChannels := by
    have := a4; simp only [Sola.config, List.cons.injEq] at this; exact this.1
  have e2 : mid.mFrameSize = s.mFrameSize := by
    have := a4; simp only [Sola.config, List.cons.injEq] at this; exact this.2.1
  have e3 : mid.mMaxPeriod = s.mMaxPeriod := by
    have := a4; simp only [Sola.config, List.cons.injEq] at this; exact this.2.2.1
  have hP : Sola.Process L fuel s frame cur sem = mid.emitted frame := by
    unfold Sola.Process
    rw [if_neg (not_not.mpr hpre'), hadv]
    simp only
    exact Sola.emit_eq mid a2 frame (by rw [e1]; exact hfc) (by rw [e2]; exact hfs)
  have hhead := a2.synthesis_head
  have hcap := a2.synthesis_cap
  have hF := a2.frameSize_pos
  have hM := a2.maxPeriod_pos
  rw [e2, e3] at hcap
  rw [e2] at hF
  rw [e3] at hM
  have hhead' : 0 ≤ (mid.emitted frame).sola.mSynthesis.head ∧
      (mid.emitted frame).sola.mSynthesis.head
        < (mid.emitted frame).sola.mSynthesis.numSamples := hhead
  have hrel : ∀ o : Int, 1 ≤ o → o ≤ mid.mSynthesis.numSamples →
      ((mid.mSynthesis.head - o) % mid.mSynthesis.numSamples - mid.mSynthesis.head)
        % mid.mSynthesis.numSamples = mid.mSynthesis.numSamples - o := by
    intro o ho0 ho1
    by_cases hge : o ≤ mid.mSynthesis.head
    · have e : (mid.mSynthesis.head - o) % mid.mSynthesis.numSamples = mid.mSynthesis.head - o :=
        Int.emod_eq_of_lt (by omega) (by omega)
      rw [e]
      exact emod_eq_of_shift _ _ _ (-1) (by omega) (by omega) (by omega)
    · have e : (mid.mSynthesis.head - o) % mid.mSynthesis.numSamples
          = mid.mSynthesis.head - o + mid.mSynthesis.numSamples :=
        emod_eq_of_shift _ _ _ (-1) (by omega) (by omega) (by omega)
      rw [e]
      exact emod_eq_of_shift _ _ _ 0 (by omega) (by omega) (by omega)
  refine ⟨mid, rfl, ?_, ?_, ?_, ?_, ?_, ?_⟩
  · intro c k hc0 hc1 hk0 hk1
    rw [hP, sampleAt_eq _ hhead c _ (by omega) (by omega)]
    simp only [Sola.emitted, emittedData]
    rw [if_pos ⟨⟨hc0, by rw [e1]; exact hc1⟩, hk0, by rw [e2]; exact hk1⟩]
    congr 1
    rw [show mid.mSynthesis.head - (2 * s.mMaxPeriod + s.mFrameSize - k)
        = (mid.mSynthesis.head + k) + (-1) * mid.mSynthesis.numSamples by omega,
      Int.add_mul_emod_self]
  · intro c o hc0 hc1 ho0 ho1
    rw [hP, sampleAt_eq _ hhead' c _ (by omega)
      (by show o ≤ mid.mSynthesis.numSamples; omega)]
    simp only [Sola.emitted, clearedData]
    rw [if_pos]
    refine ⟨⟨hc0, by rw [e1]; exact hc1⟩,
      ⟨Int.emod_nonneg _ (by omega), Int.emod_lt_of_pos _ (by omega)⟩, ?_⟩
    rw [hrel o (by omega) (by omega), e2]
    omega
  · intro c o ho0 ho1
    rw [hP, sampleAt_eq _ hhead' c _ (by omega)
      (by show o ≤ mid.mSynthesis.numSamples; omega)]
    rw [sampleAt_eq _ hhead c _ (by omega) (by omega)]
    simp only [Sola.emitted, clearedData]
    rw [if_neg]
    rintro ⟨-, -, hlt⟩
    rw [hrel o (by omega) (by omega), e2] at hlt
    omega
  · rw [hP]
    rfl
  · rw [hP]
    rfl
  · rw [hP]
    rfl

/-- Witness for C4: the first call on the engine Sola(1, 2, 1), with ten units of fuel. -/
theorem Process_emit_spec_witness :
    ∃ mid, Sola.advance testLibrary 10 testEngine testFrame 1 0 = (Status.returned, mid) ∧
      (∀ c k : Int, 0 ≤ c → c < testEngine.mNumChannels → 0 ≤ k → k < testEngine.mFrameSize →
        (Sola.Process testLibrary 10 testEngine testFrame 1 0).frame.data c k
          = mid.mSynthesis.sampleAt c
              (2 * testEngine.mMaxPeriod + testEngine.mFrameSize - k)) ∧
      (∀ c o : Int, 0 ≤ c → c < testEngine.mNumChannels →
        2 * testEngine.mMaxPeriod + 1 ≤ o →
        o ≤ 2 * testEngine.mMaxPeriod + testEngine.mFrameSize →
        (Sola.Process testLibrary 10 testEngine testFrame 1 0).sola.mSynthesis.sampleAt c o
          = 0) ∧
      (∀ c o : Int, 1 ≤ o → o ≤ 2 * testEngine.mMaxPeriod →
        (Sola.Process testLibrary 10 testEngine testFrame 1 0).sola.mSynthesis.sampleAt c o
          = mid.mSynthesis.sampleAt c o) ∧
      (Sola.Process testLibrary 10 testEngine testFrame 1 0).sola
        = { mid with
            mSynthesis :=
              { mid.mSynthesis with
                buffer :=
                  (Sola.Process testLibrary 10 testEngine testFrame 1 0).sola.mSynthesis.buffer } } ∧
      (Sola.Process testLibrary 10 testEngine testFrame 1 0).frame.numChannels
        = testFrame.numChannels ∧
      (Sola.Process testLibrary 10 testEngine testFrame 1 0).frame.numSamples
        = testFrame.numSamples :=
  Process_emit_spec testLibrary testLibrary_pow2Bounded testEngine
    (Sola.Reachable.init 1 2 1 testEngine testEngine_new) testFrame 1 0 10 testEngine_returns

/-- C5: the ingest step of Process on an engine with heads in [0, capacity) and a frame
of the configured shape succeeds; afterwards both heads equal (old head + frameSize) mod
capacity, the analysis sample at offset frameSize - k is frame[c][k], every analysis sample
that was at an offset o in [1, capacity - frameSize] is found unchanged at offset
o + frameSize, and both cursors have lastMarkOffset grown by frameSize (the periods, the
synthesis samples and the window cache are untouched). -/
theorem ingest_spec (s : Sola) (hs : s.Shaped) (frame : AudioBuffer)
    (hfc : frame.numChannels = s.mNumChannels) (hfs : frame.numSamples = s.mFrameSize) :
    ∃ s1, s.ingest frame = (Status.returned, s1) ∧
      s1.mAnalysis.head = (s.mAnalysis.head + s.mFrameSize) % s.mAnalysis.numSamples ∧
      s1.mSynthesis.head = (s.mSynthesis.head + s.mFrameSize) % s.mSynthesis.numSamples ∧
      (∀ c k : Int, 0 ≤ c → c < s.mNumChannels → 0 ≤ k → k < s.mFrameSize →
        s1.mAnalysis.sampleAt c (s.mFrameSize - k) = frame.data c k) ∧
      (∀ c o : Int, 1 ≤ o → o ≤ s.mAnalysis.numSamples - s.mFrameSize →
        s1.mAnalysis.sampleAt c (o + s.mFrameSize) = s.mAnalysis.sampleAt c o) ∧
      s1.mAnalysis.lastMarkOffset = s.mAnalysis.lastMarkOffset + s.mFrameSize ∧
      s1.mSynthesis.lastMarkOffset = s.mSynthesis.lastMarkOffset + s.mFrameSize ∧
      s1.mAnalysis.lastPeriod = s.mAnalysis.lastPeriod ∧
      s1.mSynthesis.lastPeriod = s.mSynthesis.lastPeriod ∧
      s1.mAnalysis.numSamples = s.mAnalysis.numSamples ∧
      s1.mSynthesis.numSamples = s.mSynthesis.numSamples ∧
      s1.mSynthesis.buffer = s.mSynthesis.buffer ∧
      s1.mWindowFunction = s.mWindowFunction ∧
      s1.mCurrentWindowSize = s.mCurrentWindowSize := by
  have hsh1 := Sola.ingested_shaped s hs frame
  have hhead := hs.analysis_head
  have hcap := hs.analysis_cap
  have hF := hs.frameSize_pos
  have hM := hs.maxPeriod_pos
  have hh1 : (s.ingested frame).mAnalysis.head
      = (s.mAnalysis.head + s.mFrameSize) % s.mAnalysis.numSamples := rfl
  have hn1 : (s.ingested frame).mAnalysis.numSamples = s.mAnalysis.numSamples := rfl
  have hhd := emod_add_head s.mAnalysis.head s.mAnalysis.numSamples s.mFrameSize hhead
    ⟨by omega, by omega⟩
  refine ⟨s.ingested frame, Sola.ingest_eq s hs frame hfc hfs, rfl, rfl, ?_, ?_,
    rfl, rfl, rfl, rfl, rfl, rfl, rfl, rfl, rfl⟩
  · intro c k hc0 hc1 hk0 hk1
    rw [sampleAt_eq _ hsh1.analysis_head c _ (by omega) (by rw [hn1]; omega)]
    rw [hh1, hn1, hhd]
    have hidx : ((if s.mAnalysis.head + s.mFrameSize < s.mAnalysis.numSamples then
          s.mAnalysis.head + s.mFrameSize
        else s.mAnalysis.head + s.mFrameSize - s.mAnalysis.numSamples) - (s.mFrameSize - k))
          % s.mAnalysis.numSamples
        = if s.mAnalysis.head + k < s.mAnalysis.numSamples then s.mAnalysis.head + k
          else s.mAnalysis.head + k - s.mAnalysis.numSamples := by
      split_ifs
      · exact emod_eq_of_shift _ _ _ 0 (by omega) (by omega) (by omega)
      · exact emod_eq_of_shift _ _ _ 0 (by omega) (by omega) (by omega)
      · exact emod_eq_of_shift _ _ _ (-1) (by omega) (by omega) (by omega)
      · exact emod_eq_of_shift _ _ _ 0 (by omega) (by omega) (by omega)
    rw [hidx]
    simp only [Sola.ingested, pushedData]
    have hrel : ((if s.mAnalysis.head + k < s.mAnalysis.numSamples then s.mAnalysis.head + k
          else s.mAnalysis.head + k - s.mAnalysis.numSamples) - s.mAnalysis.head)
          % s.mAnalysis.numSamples = k := by
      split_ifs
      · exact emod_eq_of_shift _ _ _ 0 (by omega) (by omega) (by omega)
      · exact emod_eq_of_shift _ _ _ (-1) (by omega) (by omega) (by omega)
    rw [hrel, if_pos]
    refine ⟨⟨hc0, hc1⟩, ?_, hk1⟩
    split_ifs <;> omega
  · intro c o ho0 ho1
    rw [sampleAt_eq _ hsh1.analysis_head c _ (by omega) (by rw [hn1]; omega)]
    rw [sampleAt_eq _ hhead c _ (by omega) (by omega)]
    rw [hh1, hn1, hhd]
    have hidx : ((if s.mAnalysis.head + s.mFrameSize < s.mAnalysis.numSamples then
          s.mAnalysis.head + s.mFrameSize
        else s.mAnalysis.head + s.mFrameSize - s.mAnalysis.numSamples) - (o + s.mFrameSize))
          % s.mAnalysis.numSamples
        = (s.mAnalysis.head - o) % s.mAnalysis.numSamples := by
      split_ifs
      · congr 1; omega
      · rw [show s.mAnalysis.head + s.mFrameSize - s.mAnalysis.numSamples - (o + s.mFrameSize)
            = (s.mAnalysis.head - o) + (-1) * s.mAnalysis.numSamples by omega,
          Int.add_mul_emod_self]
    rw [hidx]
    simp only [Sola.ingested, pushedData]
    rw [if_neg]
    rintro ⟨-, -, hlt⟩
    have hrel : ((s.mAnalysis.head - o) % s.mAnalysis.numSamples - s.mAnalysis.head)
          % s.mAnalysis.numSamples = s.mAnalysis.numSamples - o := by
      by_cases hge : o ≤ s.mAnalysis.head
      · have e1 : (s.mAnalysis.head - o) % s.mAnalysis.numSamples = s.mAnalysis.head - o :=
          Int.emod_eq_of_lt (by omega) (by omega)
        rw [e1]
        exact emod_eq_of_shift _ _ _ (-1) (by omega) (by omega) (by omega)
      · have e1 : (s.mAnalysis.head - o) % s.mAnalysis.numSamples
            = s.mAnalysis.head - o + s.mAnalysis.numSamples :=
          emod_eq_of_shift _ _ _ (-1) (by omega) (by omega) (by omega)
        rw [e1]
        exact emod_eq_of_shift _ _ _ 0 (by omega) (by omega) (by omega)
    rw [hrel] at hlt
    omega

/-- Witness for C5: the first frame pushed into the engine Sola(1, 2, 1). -/
theorem ingest_spec_witness :
    ∃ s1, testEngine.ingest testFrame = (Status.returned, s1) ∧
      s1.mAnalysis.head
        = (testEngine.mAnalysis.head + testEngine.mFrameSize) % testEngine.mAnalysis.numSamples ∧
      s1.mSynthesis.head
        = (testEngine.mSynthesis.head + testEngine.mFrameSize)
          % testEngine.mSynthesis.numSamples ∧
      (∀ c k : Int, 0 ≤ c → c < testEngine.mNumChannels → 0 ≤ k → k < testEngine.mFrameSize →
        s1.mAnalysis.sampleAt c (testEngine.mFrameSize - k) = testFrame.data c k) ∧
      (∀ c o : Int, 1 ≤ o → o ≤ testEngine.mAnalysis.numSamples - testEngine.mFrameSize →
        s1.mAnalysis.sampleAt c (o + testEngine.mFrameSize) = testEngine.mAnalysis.sampleAt c o) ∧
      s1.mAnalysis.lastMarkOffset = testEngine.mAnalysis.lastMarkOffset + testEngine.mFrameSize ∧
      s1.mSynthesis.lastMarkOffset
        = testEngine.mSynthesis.lastMarkOffset + testEngine.mFrameSize ∧
      s1.mAnalysis.lastPeriod = testEngine.mAnalysis.lastPeriod ∧
      s1.mSynthesis.lastPeriod = testEngine.mSynthesis.lastPeriod ∧
      s1.mAnalysis.numSamples = testEngine.mAnalysis.numSamples ∧
      s1.mSynthesis.numSamples = testEngine.mSynthesis.numSamples ∧
      s1.mSynthesis.buffer = testEngine.mSynthesis.buffer ∧
      s1.mWindowFunction = testEngine.mWindowFunction ∧
      s1.mCurrentWindowSize = testEngine.mCurrentWindowSize :=
  ingest_spec testEngine testEngine_inv.1 testFrame (by decide) (by decide)

/-- C6 (the code fails it): on the engine Sola(1, 4, 3) right after construction the call
Process(frame, 3, 12) satisfies every precondition and returns; its last synthesis step
commits the mark at offset 4 = frameSize and recomputes the synthesis period, and the
period it leaves is 1 = static_cast<int>(3 * 0.5), whereas 3 * 2^(-12/12) = 1.5 rounded to
the nearest integer, as the claim has it and as std::round does for the period in
psola.cpp line 78, is 2.  The power 0.5 and the product 1.5 are exact in double. -/
theorem synthesisPeriod_is_not_rounded :
    testEngine43.preconditions testFrame4 3 12 ∧
    (Sola.Process testLibrary 10 testEngine43 testFrame4 3 12).status = Status.returned ∧
    (Sola.Process testLibrary 10 testEngine43 testFrame4 3 12).sola.mSynthesis.lastMarkOffset
      = 4 ∧
    (Sola.Process testLibrary 10 testEngine43 testFrame4 3 12).sola.mSynthesis.lastPeriod
      = 1 ∧
    stretchedPeriod testLibrary 3 12 = 1 ∧
    roundToInt ((3 : ℚ) * testLibrary.pow2 (-12 / 12)) = 2 := by
  have hp : stretchedPeriod testLibrary 3 12 = 1 := by
    rw [stretchedPeriod_half testLibrary (by norm_num [testLibrary]) 3 (by decide)]
    decide
  have key := (Sola.Process_cursor testLibrary testLibrary_pow2Bounded testEngine43
    testEngine43_inv.1 testEngine43_inv.2 testFrame4 3 12 (by decide) 10).2 ⟨1, 3, 3, 1⟩
    (by rw [hp]; decide)
  obtain ⟨k1, -, -, k4, k5⟩ := key
  refine ⟨by decide, k1, k4, k5, hp, ?_⟩
  have h : (3 : ℚ) * testLibrary.pow2 (-12 / 12) = 3 / 2 := by
    norm_num [testLibrary]
  unfold roundToInt
  rw [h, if_pos (by norm_num), Int.floor_eq_iff]
  norm_num

/-- C7 (the code fails it): with the rolling buffer [1, 2, 3, 4] and the new mono frame
[5, 6] (frameSize 2), the buffer handed to the estimator is [5, 6, 1, 2]: the old samples
are shifted toward the end and the new frame is written at the head, whereas the claim
asks for [3, 4, 5, 6] (shift toward the head, new frame in the tail). -/
theorem updatePyinBuffer_shifts_right :
    (testPsola.updatePyinBuffer testFrame).1 = Status.returned ∧
    (testPsola.updatePyinBuffer testFrame).2.data 0 = 5 ∧
    (testPsola.updatePyinBuffer testFrame).2.data 1 = 6 ∧
    (testPsola.updatePyinBuffer testFrame).2.data 2 = 1 ∧
    (testPsola.updatePyinBuffer testFrame).2.data 3 = 2 ∧
    testPsola.mPyinBuffer.data (0 + testPsola.mFrameSize) = 3 ∧
    testPsola.mPyinBuffer.data (1 + testPsola.mFrameSize) = 4 := by
  refine ⟨by decide, ?_, ?_, ?_, ?_, ?_, ?_⟩ <;>
    norm_num [Psola.updatePyinBuffer, forChannels, Psola.mixChannel, testPsola, testFrame,
      FloatVector.addWithMultiply, FloatVector.fill, FloatVector.copyBackward,
      AudioBuffer.readPointer, AudioBuffer.inRange]

/-- C9 as stated fails: for sampleRate = 10 and the estimator frame size 4 the function
returns 0, which is not positive and is not a power-of-two divisor of 4. -/
theorem getFrameSize_zero_at_low_rate :
    (0 : ℚ) < 10 ∧ testPyin.getDefaultFrameSize 10 100 = (2 : Int) ^ 2 ∧
    Psola.getFrameSize testPyin 10 10 1 100 3000 = (Status.returned, 0) ∧
    ¬ (0 : Int) < (Psola.getFrameSize testPyin 10 10 1 100 3000).2 := by
  have key : Psola.getFrameSize testPyin 10 10 1 100 3000 = (Status.returned, 0) := by
    have h2 : Int.tdiv 4 2 = 2 := rfl
    have h8 : Int.tdiv 4 8 = 0 := rfl
    have hl : Int.land 4 3 = 0 := rfl
    norm_num [Psola.getFrameSize, Psola.getFrameSizeLoop, testPyin, kPyinUpdatePeriod, h2, h8,
      hl]
  refine ⟨by norm_num, by decide, key, ?_⟩
  rw [key]
  decide

/-- C9 as amended: for every sampleRate >= 20 (so that 0.05 * sampleRate >= 1) and every
estimator frame size N = 2^k, getFrameSize returns, given at least k units of fuel, the
largest power of two 2^m dividing N with 2^m <= 0.05 * sampleRate (equivalently
2^m / sampleRate <= 0.05): the result is positive, divides N, and every power of two
2^j with j <= k that satisfies the bound has j <= m. -/
theorem getFrameSize_largest_divisor {π : Type} (P : PyinLibrary π) (sampleRate : ℚ)
    (numChannels : Int) (minFreq maxFreq : ℚ) (k : Nat)
    (hN : P.getDefaultFrameSize sampleRate minFreq = (2 : Int) ^ k)
    (hsr : 20 ≤ sampleRate) :
    ∃ m : Nat, m ≤ k ∧
      (∀ fuel : Nat, k ≤ fuel →
        Psola.getFrameSize P fuel sampleRate numChannels minFreq maxFreq
          = (Status.returned, (2 : Int) ^ m)) ∧
      (0 : Int) < (2 : Int) ^ m ∧
      (2 : Int) ^ m ∣ (2 : Int) ^ k ∧
      ((2 : ℚ) ^ m) ≤ kPyinUpdatePeriod * sampleRate ∧
      ((2 : ℚ) ^ m) / sampleRate ≤ kPyinUpdatePeriod ∧
      (∀ j : Nat, j ≤ k → ((2 : ℚ) ^ j) ≤ kPyinUpdatePeriod * sampleRate → j ≤ m) := by
  have hb : 1 ≤ kPyinUpdatePeriod * sampleRate := by
    unfold kPyinUpdatePeriod; linarith
  have hpos : (0 : ℚ) < sampleRate := by linarith
  have hloop : ∀ fuel : Nat, k ≤ fuel → ∃ m : Nat, m ≤ k ∧
      Psola.getFrameSizeLoop sampleRate ((2 : Int) ^ k) fuel 1 = some ((2 : Int) ^ (k - m)) ∧
      ((2 : ℚ) ^ m) ≤ kPyinUpdatePeriod * sampleRate ∧
      (∀ j : Nat, m < j → j ≤ k → ((2 : ℚ) ^ j) > kPyinUpdatePeriod * sampleRate) := by
    intro fuel hf
    have := Psola.getFrameSizeLoop_spec sampleRate hb k k 0 fuel (by omega) hf
      (fun j hj0 hj1 => absurd hj1 (by omega))
    simpa using this
  obtain ⟨m, hm, -, hm2, hm3⟩ := hloop k (le_refl _)
  refine ⟨m, hm, ?_, by positivity, pow_dvd_pow 2 hm, hm2, ?_, ?_⟩
  · intro fuel hf
    obtain ⟨m', hm', hl, hm2', hm3'⟩ := hloop fuel hf
    have hmm : m' = m := by
      rcases Nat.lt_trichotomy m' m with h | h | h
      · exact absurd hm2 (not_le.mpr (hm3' m h hm))
      · exact h
      · exact absurd hm2' (not_le.mpr (hm3 m' h hm'))
    subst hmm
    unfold Psola.getFrameSize
    simp only [hN]
    rw [if_neg (by simp), if_neg (by rw [land_pow_two]; simp), hl]
    simp only
    rw [tdiv_pow_two k (k - m') (by omega), show k - (k - m') = m' by omega]
  · rw [div_le_iff₀ hpos]
    exact hm2
  · intro j hj hle
    by_contra hlt
    exact absurd hle (not_le.mpr (hm3 j (by omega) hj))

/-- Witness for the amended C9: sampleRate 48000 and estimator frame size 4 = 2^2. -/
theorem getFrameSize_largest_divisor_witness :
    ∃ m : Nat, m ≤ 2 ∧
      (∀ fuel : Nat, 2 ≤ fuel →
        Psola.getFrameSize testPyin fuel 48000 1 100 3000 = (Status.returned, (2 : Int) ^ m)) ∧
      (0 : Int) < (2 : Int) ^ m ∧
      (2 : Int) ^ m ∣ (2 : Int) ^ 2 ∧
      ((2 : ℚ) ^ m) ≤ kPyinUpdatePeriod * 48000 ∧
      ((2 : ℚ) ^ m) / 48000 ≤ kPyinUpdatePeriod ∧
      (∀ j : Nat, j ≤ 2 → ((2 : ℚ) ^ j) ≤ kPyinUpdatePeriod * 48000 → j ≤ m) :=
  getFrameSize_largest_divisor testPyin 48000 1 100 3000 2 (by decide) (by norm_num)

/-- C10: for a ring buffer with capacity > 0 and head in [0, capacity), every offset in
[0, capacity] is mapped by OffsetToIdx to (head - offset) mod capacity, which lies in
[0, capacity); offset 0 is mapped to head; and every offset below 0 or above capacity
makes OffsetToIdx fail. -/
theorem OffsetToIdx_spec (b : CircularBuffer) (hcap : 0 < b.numSamples)
    (hhead : 0 ≤ b.head ∧ b.head < b.numSamples) :
    (∀ offset : Int, 0 ≤ offset → offset ≤ b.numSamples →
        b.OffsetToIdx offset = some ((b.head - offset) % b.numSamples) ∧
        0 ≤ (b.head - offset) % b.numSamples ∧
        (b.head - offset) % b.numSamples < b.numSamples) ∧
    b.OffsetToIdx 0 = some b.head ∧
    (∀ offset : Int, offset < 0 ∨ b.numSamples < offset → b.OffsetToIdx offset = none) := by
  obtain ⟨hh0, hh1⟩ := hhead
  refine ⟨?_, ?_, ?_⟩
  · intro offset h0 h1
    have hne : b.numSamples ≠ 0 := ne_of_gt hcap
    refine ⟨?_, Int.emod_nonneg _ hne, Int.emod_lt_of_pos _ hcap⟩
    unfold CircularBuffer.OffsetToIdx
    rw [if_pos ⟨h0, h1⟩]
    by_cases hraw : b.head - offset ≥ 0
    · simp only [hraw, if_true]
      rw [Int.emod_eq_of_lt hraw (by omega)]
    · simp only [hraw, if_false]
      have h2 : (b.head - offset) % b.numSamples
          = (b.head - offset + b.numSamples) % b.numSamples := by
        rw [Int.add_emod_self]
      rw [h2, Int.emod_eq_of_lt (by omega) (by omega)]
  · unfold CircularBuffer.OffsetToIdx
    have : (0 : Int) ≤ b.numSamples := le_of_lt hcap
    simp [this, hh0]
  · intro offset h
    unfold CircularBuffer.OffsetToIdx
    rw [if_neg]
    omega

/-- Witness for C10: capacity 5 and head 3. -/
theorem OffsetToIdx_spec_witness :
    (∀ offset : Int, 0 ≤ offset → offset ≤ 5 →
        (CircularBuffer.mk 3 5 (AudioBuffer.zeros 1 5) 0 0).OffsetToIdx offset
          = some ((3 - offset) % 5) ∧
        0 ≤ (3 - offset) % 5 ∧ (3 - offset) % 5 < 5) ∧
    (CircularBuffer.mk 3 5 (AudioBuffer.zeros 1 5) 0 0).OffsetToIdx 0 = some 3 ∧
    (∀ offset : Int, offset < 0 ∨ 5 < offset →
        (CircularBuffer.mk 3 5 (AudioBuffer.zeros 1 5) 0 0).OffsetToIdx offset = none) :=
  OffsetToIdx_spec (CircularBuffer.mk 3 5 (AudioBuffer.zeros 1 5) 0 0) (by decide)
    ⟨by decide, by decide⟩

/-- C11 as stated fails: in a ring buffer of capacity 5 with head 3 the distinct offsets
0 and 5, both in [0, capacity], are mapped to the same index 3. -/
theorem OffsetToIdx_not_injective :
    (CircularBuffer.mk 3 5 (AudioBuffer.zeros 1 5) 0 0).OffsetToIdx 0 = some 3 ∧
    (CircularBuffer.mk 3 5 (AudioBuffer.zeros 1 5) 0 0).OffsetToIdx 5 = some 3 ∧
    (0 : Int) ≠ 5 := by
  decide

/-- C11 as amended: for a ring buffer with capacity > 0 and head in [0, capacity),
OffsetToIdx is a bijection from the offsets [1, capacity] onto the indices [0, capacity):
it maps them into the index range, distinct offsets in [1, capacity] go to distinct indices
and every index is hit by one of them; the offset 0 goes to the same index as the offset
capacity, namely head. -/
theorem OffsetToIdx_bijective_from_one (b : CircularBuffer) (hcap : 0 < b.numSamples)
    (hhead : 0 ≤ b.head ∧ b.head < b.numSamples) :
    (∀ o : Int, 1 ≤ o → o ≤ b.numSamples →
      ∃ idx, b.OffsetToIdx o = some idx ∧ 0 ≤ idx ∧ idx < b.numSamples) ∧
    (∀ o1 o2 : Int, 1 ≤ o1 → o1 ≤ b.numSamples → 1 ≤ o2 → o2 ≤ b.numSamples →
      b.OffsetToIdx o1 = b.OffsetToIdx o2 → o1 = o2) ∧
    (∀ idx : Int, 0 ≤ idx → idx < b.numSamples →
      ∃ o : Int, 1 ≤ o ∧ o ≤ b.numSamples ∧ b.OffsetToIdx o = some idx) ∧
    b.OffsetToIdx 0 = some b.head ∧ b.OffsetToIdx b.numSamples = some b.head := by
  obtain ⟨hh0, hh1⟩ := hhead
  have hval : ∀ o : Int, 0 ≤ o → o ≤ b.numSamples →
      b.OffsetToIdx o = some (if b.head - o ≥ 0 then b.head - o else b.head - o + b.numSamples) := by
    intro o h0 h1
    unfold CircularBuffer.OffsetToIdx
    rw [if_pos ⟨h0, h1⟩]
  refine ⟨?_, ?_, ?_, ?_, ?_⟩
  · intro o h0 h1
    refine ⟨_, hval o (by omega) h1, ?_, ?_⟩ <;> split_ifs <;> omega
  · intro o1 o2 h1 h2 h3 h4 he
    rw [hval o1 (by omega) h2, hval o2 (by omega) h4, Option.some.injEq] at he
    split_ifs at he <;> omega
  · intro idx h0 h1
    by_cases hle : idx < b.head
    · refine ⟨b.head - idx, by omega, by omega, ?_⟩
      rw [hval _ (by omega) (by omega), if_pos (by omega)]
      congr 1; omega
    · refine ⟨b.head - idx + b.numSamples, by omega, by omega, ?_⟩
      rw [hval _ (by omega) (by omega), if_neg (by omega)]
      congr 1; omega
  · rw [hval 0 (le_refl _) (le_of_lt hcap), if_pos (by omega)]
    congr 1; omega
  · rw [hval _ (le_of_lt hcap) (le_refl _)]
    by_cases h0 : b.head = 0
    · rw [if_neg (by omega)]; congr 1; omega
    · rw [if_neg (by omega)]; congr 1; omega

/-- Witness for the amended C11: capacity 5 and head 3. -/
theorem OffsetToIdx_bijective_from_one_witness :
    (∀ o : Int, 1 ≤ o → o ≤ 5 →
      ∃ idx, (CircularBuffer.mk 3 5 (AudioBuffer.zeros 1 5) 0 0).OffsetToIdx o = some idx ∧
        0 ≤ idx ∧ idx < 5) ∧
    (∀ o1 o2 : Int, 1 ≤ o1 → o1 ≤ 5 → 1 ≤ o2 → o2 ≤ 5 →
      (CircularBuffer.mk 3 5 (AudioBuffer.zeros 1 5) 0 0).OffsetToIdx o1
        = (CircularBuffer.mk 3 5 (AudioBuffer.zeros 1 5) 0 0).OffsetToIdx o2 → o1 = o2) ∧
    (∀ idx : Int, 0 ≤ idx → idx < 5 →
      ∃ o : Int, 1 ≤ o ∧ o ≤ 5 ∧
        (CircularBuffer.mk 3 5 (AudioBuffer.zeros 1 5) 0 0).OffsetToIdx o = some idx) ∧
    (CircularBuffer.mk 3 5 (AudioBuffer.zeros 1 5) 0 0).OffsetToIdx 0 = some 3 ∧
    (CircularBuffer.mk 3 5 (AudioBuffer.zeros 1 5) 0 0).OffsetToIdx 5 = some 3 :=
  OffsetToIdx_bijective_from_one (CircularBuffer.mk 3 5 (AudioBuffer.zeros 1 5) 0 0)
    (by decide) ⟨by decide, by decide⟩

/-- C13: a synthesis step whose grain length 2 * lastPeriod equals the cached length leaves
the cached window and its length as they are; a step with another grain length sets the
cached length to the grain length and overwrites the first grain-length entries with the
canonical table resampled at the ratio 2048 / grainLength; in every reachable engine state
with cached length n > 0 the first n cached values are the canonical table resampled to n;
and at every synthesis step of a call from a reachable state the window in use has the
length of the grain and holds the canonical table resampled to that length. -/
theorem window_cache_coherent (L : Library) (s : Sola) (hs : Sola.Reachable L s)
    (frame : AudioBuffer) (cur : Int) (sem : ℚ) :
    (∀ ls : LoopState, ls.sola.mCurrentWindowSize = 2 * ls.sola.mAnalysis.lastPeriod →
      Sola.updateWindow L ls.sola (2 * ls.sola.mAnalysis.lastPeriod)
        = (Status.returned, ls.sola) ∧
      (Sola.synthesisStep L cur sem ls).2.sola.mWindowFunction = ls.sola.mWindowFunction ∧
      (Sola.synthesisStep L cur sem ls).2.sola.mCurrentWindowSize
        = ls.sola.mCurrentWindowSize) ∧
    (∀ ls : LoopState, ls.sola.mCurrentWindowSize ≠ 2 * ls.sola.mAnalysis.lastPeriod →
      (Sola.synthesisStep L cur sem ls).2.sola.mCurrentWindowSize
        = 2 * ls.sola.mAnalysis.lastPeriod ∧
      ∀ i : Int, 0 ≤ i → i < 2 * ls.sola.mAnalysis.lastPeriod →
        (Sola.synthesisStep L cur sem ls).2.sola.mWindowFunction.data i
          = L.interpolate ((kWindowLen : ℚ) / ((2 * ls.sola.mAnalysis.lastPeriod : Int) : ℚ))
              L.kHanningWindow (2 * ls.sola.mAnalysis.lastPeriod) i) ∧
    (∀ n : Int, s.mCurrentWindowSize = n → 0 < n → ∀ i : Int, 0 ≤ i → i < n →
      s.mWindowFunction.data i
        = L.interpolate ((kWindowLen : ℚ) / (n : ℚ)) L.kHanningWindow n i) ∧
    (∀ (k : Nat) (ls : LoopState),
      Sola.loopIter L cur sem k (Sola.loopInit (s.ingest frame).2).2 = some ls →
      (Sola.synthesisStep L cur sem ls).2.sola.mCurrentWindowSize
        = 2 * ls.sola.mAnalysis.lastPeriod ∧
      ∀ i : Int, 0 ≤ i → i < 2 * ls.sola.mAnalysis.lastPeriod →
        (Sola.synthesisStep L cur sem ls).2.sola.mWindowFunction.data i
          = L.interpolate ((kWindowLen : ℚ) / ((2 * ls.sola.mAnalysis.lastPeriod : Int) : ℚ))
              L.kHanningWindow (2 * ls.sola.mAnalysis.lastPeriod) i) := by
  have hc := Sola.Reachable.windowCoherent hs
  refine ⟨?_, ?_, ?_, ?_⟩
  · intro ls h
    obtain ⟨w1, w2⟩ := Sola.synthesisStep_window L cur sem ls
    have hu := Sola.updateWindow_same L ls.sola _ h
    rw [hu] at w1 w2
    exact ⟨hu, w1, w2⟩
  · intro ls h
    obtain ⟨w1, w2⟩ := Sola.synthesisStep_window L cur sem ls
    obtain ⟨u1, u2⟩ := Sola.updateWindow_other L ls.sola _ h
    refine ⟨w2.trans u1, fun i h0 h1 => ?_⟩
    rw [w1]
    exact u2 i h0 h1
  · intro n hn _ i h0 h1
    subst hn
    exact hc i h0 h1
  · intro k ls hk
    have h0 : (Sola.loopInit (s.ingest frame).2).2.sola.WindowCoherent L := by
      obtain ⟨a1, a2⟩ := Sola.loopInit_window (s.ingest frame).2
      obtain ⟨b1, b2⟩ := Sola.ingest_window s frame
      intro i hi0 hi1
      rw [a2, b2] at hi1
      rw [a1, b1, a2, b2]
      exact hc i hi0 hi1
    have hls := Sola.loopIter_coherent L cur sem k _ ls h0 hk
    obtain ⟨w1, w2⟩ := Sola.synthesisStep_window L cur sem ls
    obtain ⟨c1, c2⟩ := Sola.updateWindow_coherent L ls.sola (2 * ls.sola.mAnalysis.lastPeriod) hls
    refine ⟨w2.trans c2, fun i h0 h1 => ?_⟩
    rw [w1]
    have := c1 i h0 (by rw [c2]; exact h1)
    rw [c2] at this
    exact this

/-- Witness for C13: the engine Sola(1, 2, 1) right after construction and its first call. -/
theorem window_cache_coherent_witness :
    (∀ ls : LoopState, ls.sola.mCurrentWindowSize = 2 * ls.sola.mAnalysis.lastPeriod →
      Sola.updateWindow testLibrary ls.sola (2 * ls.sola.mAnalysis.lastPeriod)
        = (Status.returned, ls.sola) ∧
      (Sola.synthesisStep testLibrary 1 0 ls).2.sola.mWindowFunction
        = ls.sola.mWindowFunction ∧
      (Sola.synthesisStep testLibrary 1 0 ls).2.sola.mCurrentWindowSize
        = ls.sola.mCurrentWindowSize) ∧
    (∀ ls : LoopState, ls.sola.mCurrentWindowSize ≠ 2 * ls.sola.mAnalysis.lastPeriod →
      (Sola.synthesisStep testLibrary 1 0 ls).2.sola.mCurrentWindowSize
        = 2 * ls.sola.mAnalysis.lastPeriod ∧
      ∀ i : Int, 0 ≤ i → i < 2 * ls.sola.mAnalysis.lastPeriod →
        (Sola.synthesisStep testLibrary 1 0 ls).2.sola.mWindowFunction.data i
          = testLibrary.interpolate
              ((kWindowLen : ℚ) / ((2 * ls.sola.mAnalysis.lastPeriod : Int) : ℚ))
              testLibrary.kHanningWindow (2 * ls.sola.mAnalysis.lastPeriod) i) ∧
    (∀ n : Int, testEngine.mCurrentWindowSize = n → 0 < n → ∀ i : Int, 0 ≤ i → i < n →
      testEngine.mWindowFunction.data i
        = testLibrary.interpolate ((kWindowLen : ℚ) / (n : ℚ)) testLibrary.kHanningWindow n i) ∧
    (∀ (k : Nat) (ls : LoopState),
      Sola.loopIter testLibrary 1 0 k (Sola.loopInit (testEngine.ingest testFrame).2).2
        = some ls →
      (Sola.synthesisStep testLibrary 1 0 ls).2.sola.mCurrentWindowSize
        = 2 * ls.sola.mAnalysis.lastPeriod ∧
      ∀ i : Int, 0 ≤ i → i < 2 * ls.sola.mAnalysis.lastPeriod →
        (Sola.synthesisStep testLibrary 1 0 ls).2.sola.mWindowFunction.data i
          = testLibrary.interpolate
              ((kWindowLen : ℚ) / ((2 * ls.sola.mAnalysis.lastPeriod : Int) : ℚ))
              testLibrary.kHanningWindow (2 * ls.sola.mAnalysis.lastPeriod) i) :=
  window_cache_coherent testLibrary testEngine
    (Sola.Reachable.init 1 2 1 testEngine testEngine_new) testFrame 1 0

/-- C14 as stated fails: the orchestrator around Sola(1, 2, 1) at sample rate 24000 hands the
period 1 to the engine on a first, voiced call (estimate 24000); on the next call the frame
is reported unvoiced with the estimate 12000 and the period handed to the engine is
2 = round(24000 / 12000), not the period 1 of the preceding call. -/
theorem Psola_unvoiced_period_is_current :
    Psola.engineArgs testPyin2 testPsola24 testFrame 0 = some (1, 0) ∧
    (Psola.analyse testPyin2
      (Psola.Process testPyin2 testLibrary 10 testPsola24 testFrame 0).psola
      testFrameNeg).2.2.isVoiced = false ∧
    Psola.engineArgs testPyin2
      (Psola.Process testPyin2 testLibrary 10 testPsola24 testFrame 0).psola testFrameNeg 0
      = some (2, 0) := by
  obtain ⟨f1, f2, f3⟩ := testPyin2_first
  obtain ⟨e1, e2⟩ := Psola.Process_of_analyse testPyin2 testLibrary 10 testPsola24 testFrame 0
    (Psola.analyse testPyin2 testPsola24 testFrame).2.1
    (Psola.analyse testPyin2 testPsola24 testFrame).2.2 (Prod.ext f1 rfl)
  have hr : testPsola24.mSampleRate = (24000 : ℚ) := rfl
  rw [f2, f3, hr, roundToInt_one] at e1
  have hst := congrArg PsolaResult.psola e2
  simp only at hst
  have g : (Psola.analyse testPyin2
        (Psola.Process testPyin2 testLibrary 10 testPsola24 testFrame 0).psola
        testFrameNeg).1 = Status.returned ∧
      (Psola.analyse testPyin2
        (Psola.Process testPyin2 testLibrary 10 testPsola24 testFrame 0).psola
        testFrameNeg).2.2.isVoiced = false ∧
      (Psola.analyse testPyin2
        (Psola.Process testPyin2 testLibrary 10 testPsola24 testFrame 0).psola
        testFrameNeg).2.2.freq = 12000 := by
    rw [hst]
    exact testPyin2_second _
  obtain ⟨g1, g2, g3⟩ := g
  obtain ⟨k1, -⟩ := Psola.Process_of_analyse testPyin2 testLibrary 10
    (Psola.Process testPyin2 testLibrary 10 testPsola24 testFrame 0).psola testFrameNeg 0
    (Psola.analyse testPyin2
      (Psola.Process testPyin2 testLibrary 10 testPsola24 testFrame 0).psola testFrameNeg).2.1
    (Psola.analyse testPyin2
      (Psola.Process testPyin2 testLibrary 10 testPsola24 testFrame 0).psola testFrameNeg).2.2
    (Prod.ext g1 rfl)
  have hr2 : (Psola.Process testPyin2 testLibrary 10 testPsola24 testFrame 0).psola.mSampleRate
      = (24000 : ℚ) := by
    have := congrArg Psola.mSampleRate hst
    simp only at this
    rw [this, (Psola.analyse_keeps testPyin2 testPsola24 testFrame).2]
    rfl
  rw [g2, g3, hr2, roundToInt_two] at k1
  exact ⟨by simpa using e1, g2, by simpa using k1⟩

/-- C14 as amended: when the estimator reports the frame as unvoiced, the period that
Psola Process hands to the engine is round(sampleRate / frequency) for the frequency
estimate of the current call, with semitones 0; no period of a preceding call enters. -/
theorem Psola_unvoiced_period_of_estimate {π : Type} (P : PyinLibrary π) (L : Library)
    (fuel : Nat) (st : Psola π) (frame : AudioBuffer) (sem : ℚ) (st1 : Psola π)
    (res : PyinResult)
    (ha : Psola.analyse P st frame = (Status.returned, st1, res))
    (hunv : res.isVoiced = false) :
    Psola.engineArgs P st frame sem = some (roundToInt (st.mSampleRate / res.freq), 0) ∧
    (Psola.Process P L fuel st frame sem).status
      = (Sola.Process L fuel st.mSola frame (roundToInt (st.mSampleRate / res.freq)) 0).status ∧
    (Psola.Process P L fuel st frame sem).psola.mSola
      = (Sola.Process L fuel st.mSola frame (roundToInt (st.mSampleRate / res.freq)) 0).sola ∧
    (Psola.Process P L fuel st frame sem).frame
      = (Sola.Process L fuel st.mSola frame (roundToInt (st.mSampleRate / res.freq)) 0).frame := by
  obtain ⟨e1, e2⟩ := Psola.Process_of_analyse P L fuel st frame sem st1 res ha
  simp only [hunv, Bool.false_eq_true, if_false] at e1 e2
  have a1 := congrArg PsolaResult.status e2
  have a2 := congrArg (fun r => r.psola.mSola) e2
  have a3 := congrArg PsolaResult.frame e2
  simp only at a1 a2 a3
  exact ⟨e1, a1, a2, a3⟩

/-- Witness for the amended C14: an unvoiced frame for the orchestrator around Sola(1, 2, 1). -/
theorem Psola_unvoiced_period_of_estimate_witness :
    Psola.engineArgs testPyin testPsola24 testFrameNeg 7
      = some (roundToInt (testPsola24.mSampleRate
          / (Psola.analyse testPyin testPsola24 testFrameNeg).2.2.freq), 0) ∧
    (Psola.Process testPyin testLibrary 10 testPsola24 testFrameNeg 7).status
      = (Sola.Process testLibrary 10 testPsola24.mSola testFrameNeg
          (roundToInt (testPsola24.mSampleRate
            / (Psola.analyse testPyin testPsola24 testFrameNeg).2.2.freq)) 0).status ∧
    (Psola.Process testPyin testLibrary 10 testPsola24 testFrameNeg 7).psola.mSola
      = (Sola.Process testLibrary 10 testPsola24.mSola testFrameNeg
          (roundToInt (testPsola24.mSampleRate
            / (Psola.analyse testPyin testPsola24 testFrameNeg).2.2.freq)) 0).sola ∧
    (Psola.Process testPyin testLibrary 10 testPsola24 testFrameNeg 7).frame
      = (Sola.Process testLibrary 10 testPsola24.mSola testFrameNeg
          (roundToInt (testPsola24.mSampleRate
            / (Psola.analyse testPyin testPsola24 testFrameNeg).2.2.freq)) 0).frame :=
  Psola_unvoiced_period_of_estimate testPyin testLibrary 10 testPsola24 testFrameNeg 7
    (Psola.analyse testPyin testPsola24 testFrameNeg).2.1
    (Psola.analyse testPyin testPsola24 testFrameNeg).2.2
    (Prod.ext testPsola24_unvoiced.1 rfl) testPsola24_unvoiced.2.1

/-- C15 as stated fails: the entries 0 and 1024 of the canonical 2048-point table
0.5 * (1 - cos(2 * pi * i / 2047)), read over the reals, do not sum to 1: their sum is
below 1. -/
theorem Hann_pair_sum_not_one :
    GetHanningWindow Real.cos Real.pi kWindowLen 0
        + GetHanningWindow Real.cos Real.pi kWindowLen 1024 < 1 ∧
    GetHanningWindow Real.cos Real.pi kWindowLen 0
        + GetHanningWindow Real.cos Real.pi kWindowLen 1024 ≠ 1 := by
  have h := GetHanningWindow_pair 0 (le_refl 0) (by norm_num)
  have hs := sin_small_pos
  have hg := sin_grid_pos 0 (le_refl 0) (by norm_num)
  have hlt : GetHanningWindow Real.cos Real.pi kWindowLen 0
        + GetHanningWindow Real.cos Real.pi kWindowLen 1024 < 1 := by
    have e : (0 : Int) + 1024 = 1024 := rfl
    rw [e] at h
    rw [h]
    have := mul_pos hs.1 hg.1
    linarith
  exact ⟨hlt, ne_of_lt hlt⟩

/-- C15 as amended: over the reals the canonical 2048-point table
w[i] = 0.5 * (1 - cos(2 * pi * i / 2047)) sums to unity at 50% overlap only approximately:
for every i in [0, 1024), w[i] + w[i + 1024] = 1 - sin(pi / 4094) * sin((4 i + 1) pi / 4094),
which lies strictly between 0.999 and 1. -/
theorem Hann_pair_sum_near_one (i : Int) (h0 : 0 ≤ i) (h1 : i < 1024) :
    GetHanningWindow Real.cos Real.pi kWindowLen i
        + GetHanningWindow Real.cos Real.pi kWindowLen (i + 1024)
      = 1 - Real.sin (Real.pi / 4094) * Real.sin ((4 * (i : ℝ) + 1) * (Real.pi / 4094)) ∧
    999 / 1000 < GetHanningWindow Real.cos Real.pi kWindowLen i
        + GetHanningWindow Real.cos Real.pi kWindowLen (i + 1024) ∧
    GetHanningWindow Real.cos Real.pi kWindowLen i
        + GetHanningWindow Real.cos Real.pi kWindowLen (i + 1024) < 1 := by
  have h := GetHanningWindow_pair i h0 h1
  have hs := sin_small_pos
  have hg := sin_grid_pos i h0 h1
  have hpos := mul_pos hs.1 hg.1
  have hle : Real.sin (Real.pi / 4094) * Real.sin ((4 * (i : ℝ) + 1) * (Real.pi / 4094))
      ≤ Real.sin (Real.pi / 4094) * 1 :=
    mul_le_mul_of_nonneg_left hg.2 (le_of_lt hs.1)
  refine ⟨h, ?_, ?_⟩
  · rw [h]
    linarith
  · rw [h]
    linarith

/-- Witness for the amended C15: the pair of entries 512 and 1536. -/
theorem Hann_pair_sum_near_one_witness :
    ((0 : Int) ≤ 512 ∧ (512 : Int) < 1024) ∧
    GetHanningWindow Real.cos Real.pi kWindowLen 512
        + GetHanningWindow Real.cos Real.pi kWindowLen (512 + 1024)
      = 1 - Real.sin (Real.pi / 4094)
          * Real.sin ((4 * ((512 : Int) : ℝ) + 1) * (Real.pi / 4094)) ∧
    999 / 1000 < GetHanningWindow Real.cos Real.pi kWindowLen 512
        + GetHanningWindow Real.cos Real.pi kWindowLen (512 + 1024) ∧
    GetHanningWindow Real.cos Real.pi kWindowLen 512
        + GetHanningWindow Real.cos Real.pi kWindowLen (512 + 1024) < 1 :=
  ⟨⟨by decide, by decide⟩, Hann_pair_sum_near_one 512 (by decide) (by decide)⟩

/-- C16: in every reachable engine state (the state right after construction, and the state
after every call of Process that satisfies the preconditions and returns) the analysis mark
lies in (maxPeriod, 2 * maxPeriod], the synthesis mark in (maxPeriod, 3 * maxPeriod], both
next candidates lastMarkOffset - lastPeriod are at most maxPeriod and the analysis period
lies in (0, maxPeriod]; and in a call from such a state that satisfies the preconditions
the entry asserts hold after the ingest, the assert at the head of the loop body holds at
every iteration, the exit asserts hold whenever the loop ends, so the call never ends on a
failed assertion, and when it returns the bounds hold again. -/
theorem cursor_bounds_invariant (L : Library) (hL : L.Pow2Bounded) (s : Sola)
    (hs : Sola.Reachable L s) (frame : AudioBuffer) (cur : Int) (sem : ℚ)
    (hpre : s.preconditions frame cur sem) (fuel : Nat) :
    ((s.mMaxPeriod < s.mAnalysis.lastMarkOffset ∧
        s.mAnalysis.lastMarkOffset ≤ 2 * s.mMaxPeriod) ∧
      (s.mMaxPeriod < s.mSynthesis.lastMarkOffset ∧
        s.mSynthesis.lastMarkOffset ≤ 3 * s.mMaxPeriod) ∧
      s.mAnalysis.lastMarkOffset - s.mAnalysis.lastPeriod ≤ s.mMaxPeriod ∧
      s.mSynthesis.lastMarkOffset - s.mSynthesis.lastPeriod ≤ s.mMaxPeriod ∧
      (0 < s.mAnalysis.lastPeriod ∧ s.mAnalysis.lastPeriod ≤ s.mMaxPeriod)) ∧
    (∃ s1 ls0, s.ingest frame = (Status.returned, s1) ∧
      (s1.mAnalysis.lastMarkOffset > s.mMaxPeriod + s.mFrameSize ∧
        s1.mSynthesis.lastMarkOffset > s.mMaxPeriod + s.mFrameSize) ∧
      Sola.loopInit s1 = (Status.returned, ls0) ∧
      (∀ (n : Nat) (ls : LoopState), Sola.loopIter L cur sem n ls0 = some ls →
        ls.sola.mSearchRange.startOffset ≥ ls.nextAnalysisOffset ∧
        ls.sola.mSearchRange.startOffset ≥ ls.nextSynthesisOffset ∧
        ls.nextAnalysisOffset ≤ s.mMaxPeriod + s.mFrameSize ∧
        ls.nextSynthesisOffset ≤ s.mMaxPeriod + s.mFrameSize) ∧
      (∀ ls : LoopState, Sola.markAdvanceLoop L cur sem fuel ls0 = (Status.returned, ls) →
        (Sola.finishLoop ls).1 = Status.returned)) ∧
    ((Sola.Process L fuel s frame cur sem).status = Status.returned ∨
      (Sola.Process L fuel s frame cur sem).status = Status.outOfFuel) ∧
    ((Sola.Process L fuel s frame cur sem).status = Status.returned →
      ((Sola.Process L fuel s frame cur sem).sola.mMaxPeriod
          < (Sola.Process L fuel s frame cur sem).sola.mAnalysis.lastMarkOffset ∧
        (Sola.Process L fuel s frame cur sem).sola.mAnalysis.lastMarkOffset
          ≤ 2 * (Sola.Process L fuel s frame cur sem).sola.mMaxPeriod) ∧
      ((Sola.Process L fuel s frame cur sem).sola.mMaxPeriod
          < (Sola.Process L fuel s frame cur sem).sola.mSynthesis.lastMarkOffset ∧
        (Sola.Process L fuel s frame cur sem).sola.mSynthesis.lastMarkOffset
          ≤ 3 * (Sola.Process L fuel s frame cur sem).sola.mMaxPeriod) ∧
      (Sola.Process L fuel s frame cur sem).sola.mAnalysis.lastMarkOffset
          - (Sola.Process L fuel s frame cur sem).sola.mAnalysis.lastPeriod
        ≤ (Sola.Process L fuel s frame cur sem).sola.mMaxPeriod ∧
      (Sola.Process L fuel s frame cur sem).sola.mSynthesis.lastMarkOffset
          - (Sola.Process L fuel s frame cur sem).sola.mSynthesis.lastPeriod
        ≤ (Sola.Process L fuel s frame cur sem).sola.mMaxPeriod ∧
      (0 < (Sola.Process L fuel s frame cur sem).sola.mAnalysis.lastPeriod ∧
        (Sola.Process L fuel s frame cur sem).sola.mAnalysis.lastPeriod
          ≤ (Sola.Process L fuel s frame cur sem).sola.mMaxPeriod)) := by
  obtain ⟨hsh, hc⟩ := Sola.Reachable.inv hL hs
  have bounds : ∀ t : Sola, t.CursorsOk →
      (t.mMaxPeriod < t.mAnalysis.lastMarkOffset ∧
        t.mAnalysis.lastMarkOffset ≤ 2 * t.mMaxPeriod) ∧
      (t.mMaxPeriod < t.mSynthesis.lastMarkOffset ∧
        t.mSynthesis.lastMarkOffset ≤ 3 * t.mMaxPeriod) ∧
      t.mAnalysis.lastMarkOffset - t.mAnalysis.lastPeriod ≤ t.mMaxPeriod ∧
      t.mSynthesis.lastMarkOffset - t.mSynthesis.lastPeriod ≤ t.mMaxPeriod ∧
      (0 < t.mAnalysis.lastPeriod ∧ t.mAnalysis.lastPeriod ≤ t.mMaxPeriod) :=
    fun t ht => ⟨⟨ht.aMark_lo, ht.aMark_hi⟩, ⟨ht.sMark_lo, ht.sMark_hi⟩, ht.aNext, ht.sNext,
      ht.aPeriod_pos, ht.aPeriod_le⟩
  have hpre' := hpre
  obtain ⟨hfc, hfs, hsem, hcur⟩ := hpre
  have hproc := Sola.Process_inv L hL s hsh hc frame cur sem hpre' fuel
  refine ⟨bounds s hc, ?_, ?_, ?_⟩
  · obtain ⟨i1, i2, i3⟩ := Sola.loopInit_ingested s hsh hc frame
    refine ⟨s.ingested frame, (Sola.loopInit (s.ingested frame)).2,
      Sola.ingest_eq s hsh frame hfc hfs, ?_, Prod.ext i1 rfl, ?_, ?_⟩
    · have a1 := hc.aMark_lo
      have a2 := hc.sMark_lo
      simp only [Sola.ingested]
      constructor <;> omega
    · intro n ls hn
      have hM : (Sola.loopInit (s.ingested frame)).2.sola.mMaxPeriod = s.mMaxPeriod := by
        rw [i3]; rfl
      obtain ⟨hinv, hcfg⟩ :=
        Sola.loopIter_config L hL cur sem hsem n _ ls i2 (by rw [hM]; exact hcur) hn
      have e1 : ls.sola.mMaxPeriod = s.mMaxPeriod := by
        rw [Sola.config_maxPeriod hcfg, hM]
      have e2 : ls.sola.mFrameSize = s.mFrameSize := by
        rw [Sola.config_frameSize hcfg, i3]; rfl
      have n1 := hinv.nextA_le
      have n2 := hinv.nextS_le
      have n3 := hinv.shaped.searchRange_start
      rw [e1, e2] at n1 n2 n3
      rw [n3]
      exact ⟨n1, n2, n1, n2⟩
    · intro ls hl
      rcases Sola.markAdvanceLoop_inv L hL cur sem hsem fuel _ i2
        (by rw [i3]; exact hcur) with hr | hr
      · rw [hl] at hr
        exact (Sola.finishLoop_spec ls hr.2.1 hr.2.2.1).1
      · rw [hl] at hr
        simp at hr
  · rcases hproc with hr | hr
    · exact Or.inl hr.1
    · exact Or.inr hr
  · intro hret
    rcases hproc with hr | hr
    · exact bounds _ hr.2.2.1
    · rw [hr] at hret
      exact absurd hret (by decide)

/-- Witness for C16: the first call on the engine Sola(1, 2, 1), with ten units of fuel. -/
theorem cursor_bounds_invariant_witness :
    ((testEngine.mMaxPeriod < testEngine.mAnalysis.lastMarkOffset ∧
        testEngine.mAnalysis.lastMarkOffset ≤ 2 * testEngine.mMaxPeriod) ∧
      (testEngine.mMaxPeriod < testEngine.mSynthesis.lastMarkOffset ∧
        testEngine.mSynthesis.lastMarkOffset ≤ 3 * testEngine.mMaxPeriod) ∧
      testEngine.mAnalysis.lastMarkOffset - testEngine.mAnalysis.lastPeriod ≤ testEngine.mMaxPeriod ∧
      testEngine.mSynthesis.lastMarkOffset - testEngine.mSynthesis.lastPeriod ≤ testEngine.mMaxPeriod ∧
      (0 < testEngine.mAnalysis.lastPeriod ∧ testEngine.mAnalysis.lastPeriod ≤ testEngine.mMaxPeriod)) ∧
    (∃ s1 ls0, testEngine.ingest testFrame = (Status.returned, s1) ∧
      (s1.mAnalysis.lastMarkOffset > testEngine.mMaxPeriod + testEngine.mFrameSize ∧
        s1.mSynthesis.lastMarkOffset > testEngine.mMaxPeriod + testEngine.mFrameSize) ∧
      Sola.loopInit s1 = (Status.returned, ls0) ∧
      (∀ (n : Nat) (ls : LoopState), Sola.loopIter testLibrary 1 0 n ls0 = some ls →
        ls.sola.mSearchRange.startOffset ≥ ls.nextAnalysisOffset ∧
        ls.sola.mSearchRange.startOffset ≥ ls.nextSynthesisOffset ∧
        ls.nextAnalysisOffset ≤ testEngine.mMaxPeriod + testEngine.mFrameSize ∧
        ls.nextSynthesisOffset ≤ testEngine.mMaxPeriod + testEngine.mFrameSize) ∧
      (∀ ls : LoopState, Sola.markAdvanceLoop testLibrary 1 0 10 ls0 = (Status.returned, ls) →
        (Sola.finishLoop ls).1 = Status.returned)) ∧
    ((Sola.Process testLibrary 10 testEngine testFrame 1 0).status = Status.returned ∨
      (Sola.Process testLibrary 10 testEngine testFrame 1 0).status = Status.outOfFuel) ∧
    ((Sola.Process testLibrary 10 testEngine testFrame 1 0).status = Status.returned →
      ((Sola.Process testLibrary 10 testEngine testFrame 1 0).sola.mMaxPeriod
          < (Sola.Process testLibrary 10 testEngine testFrame 1 0).sola.mAnalysis.lastMarkOffset ∧
        (Sola.Process testLibrary 10 testEngine testFrame 1 0).sola.mAnalysis.lastMarkOffset
          ≤ 2 * (Sola.Process testLibrary 10 testEngine testFrame 1 0).sola.mMaxPeriod) ∧
      ((Sola.Process testLibrary 10 testEngine testFrame 1 0).sola.mMaxPeriod
          < (Sola.Process testLibrary 10 testEngine testFrame 1 0).sola.mSynthesis.lastMarkOffset ∧
        (Sola.Process testLibrary 10 testEngine testFrame 1 0).sola.mSynthesis.lastMarkOffset
          ≤ 3 * (Sola.Process testLibrary 10 testEngine testFrame 1 0).sola.mMaxPeriod) ∧
      (Sola.Process testLibrary 10 testEngine testFrame 1 0).sola.mAnalysis.lastMarkOffset
          - (Sola.Process testLibrary 10 testEngine testFrame 1 0).sola.mAnalysis.lastPeriod
        ≤ (Sola.Process testLibrary 10 testEngine testFrame 1 0).sola.mMaxPeriod ∧
      (Sola.Process testLibrary 10 testEngine testFrame 1 0).sola.mSynthesis.lastMarkOffset
          - (Sola.Process testLibrary 10 testEngine testFrame 1 0).sola.mSynthesis.lastPeriod
        ≤ (Sola.Process testLibrary 10 testEngine testFrame 1 0).sola.mMaxPeriod ∧
      (0 < (Sola.Process testLibrary 10 testEngine testFrame 1 0).sola.mAnalysis.lastPeriod ∧
        (Sola.Process testLibrary 10 testEngine testFrame 1 0).sola.mAnalysis.lastPeriod
          ≤ (Sola.Process testLibrary 10 testEngine testFrame 1 0).sola.mMaxPeriod)) :=
  cursor_bounds_invariant testLibrary testLibrary_pow2Bounded testEngine
    (Sola.Reachable.init 1 2 1 testEngine testEngine_new) testFrame 1 0 (by decide) 10

/-- C17 (the code fails it): on the engine Sola(1, 2, 1) right after construction, in the call
Process(frame, 1, 12), which satisfies every precondition, the fourth and the fifth
iteration of the mark-advance loop are both synthesis steps and both commit the synthesis
mark at offset 2: the working synthesis period after the fourth iteration is
static_cast<int>(1 * 0.5) = 0, so the step subtracts nothing and the same mark is committed
again. -/
theorem synthesis_mark_committed_twice :
    testEngine.preconditions testFrame 1 12 ∧
    ∃ ls0 ls3 ls4 ls5 : LoopState,
      Sola.loopInit (testEngine.ingest testFrame).2 = (Status.returned, ls0) ∧
      Sola.loopIter testLibrary 1 12 3 ls0 = some ls3 ∧
      (Sola.loopCond ls3 ∧ ls3.nextAnalysisOffset < ls3.nextSynthesisOffset ∧
        ls3.nextSynthesisOffset = 2) ∧
      Sola.loopBody testLibrary 1 12 ls3 = (Status.returned, ls4) ∧
      Sola.loopIter testLibrary 1 12 4 ls0 = some ls4 ∧
      (ls4.sola.mSynthesis.lastMarkOffset = 2 ∧ ls4.synthesisPeriod = 0) ∧
      (Sola.loopCond ls4 ∧ ls4.nextAnalysisOffset < ls4.nextSynthesisOffset ∧
        ls4.nextSynthesisOffset = 2) ∧
      Sola.loopBody testLibrary 1 12 ls4 = (Status.returned, ls5) ∧
      Sola.loopIter testLibrary 1 12 5 ls0 = some ls5 ∧
      ls5.sola.mSynthesis.lastMarkOffset = 2 := by
  refine ⟨by decide, ?_⟩
  obtain ⟨e0, inv0, hF, hM, hc0⟩ := testEngine_loopInit
  have hsem : (-12 : ℚ) ≤ 12 ∧ (12 : ℚ) ≤ 12 := by norm_num
  have iter : ∀ (n : Nat) (c : Cursor), cursorIter 2 1 1 0 n ⟨3, 3, 1, 1⟩ = some c →
      ∃ ls, Sola.loopIter testLibrary 1 12 n (Sola.loopInit (testEngine.ingested testFrame)).2
          = some ls ∧ ls.cursor = c ∧ LoopInv ls ∧ ls.sola.mFrameSize = 2 ∧
        ls.sola.mMaxPeriod = 1 := by
    intro n c hc
    obtain ⟨ls, l1, l2, l3, l4⟩ := Sola.loopIter_of_cursor testLibrary testLibrary_pow2Bounded
      1 12 hsem n _ inv0 (by rw [hM]; decide) c
      (by rw [hF, hM, hc0, stretchedPeriod_test_one]; exact hc)
    exact ⟨ls, l1, l2, l3, by rw [Sola.config_frameSize l4, hF],
      by rw [Sola.config_maxPeriod l4, hM]⟩
  obtain ⟨ls3, a1, a2, a3, a4, a5⟩ := iter 3 ⟨1, 2, 1, 1⟩ (by decide)
  have cond : ∀ ls : LoopState, LoopInv ls → ls.sola.mMaxPeriod = 1 →
      ls.nextSynthesisOffset = 2 → Sola.loopCond ls := by
    intro ls h hm hn
    unfold Sola.loopCond
    rw [h.shaped.searchRange_end, hm, hn]
    exact Or.inr (by decide)
  have step : ∀ ls : LoopState, LoopInv ls → ls.sola.mFrameSize = 2 → ls.sola.mMaxPeriod = 1 →
      ls.nextSynthesisOffset = 2 →
      (Sola.loopBody testLibrary 1 12 ls).1 = Status.returned ∧
      LoopInv (Sola.loopBody testLibrary 1 12 ls).2 ∧
      (Sola.loopBody testLibrary 1 12 ls).2.sola.mFrameSize = 2 ∧
      (Sola.loopBody testLibrary 1 12 ls).2.sola.mMaxPeriod = 1 ∧
      (Sola.loopBody testLibrary 1 12 ls).2.cursor = cursorStep 2 1 0 ls.cursor := by
    intro ls h hf hm hn
    obtain ⟨b1, b2, b3, b4⟩ := h.loopBody testLibrary testLibrary_pow2Bounded 1 12
      (by rw [hm]; decide) hsem (cond ls h hm hn)
    rw [hf, stretchedPeriod_test_one] at b4
    exact ⟨b1, b2, by rw [Sola.config_frameSize b3, hf], by rw [Sola.config_maxPeriod b3, hm], b4⟩
  have n3 : ls3.nextAnalysisOffset = 1 ∧ ls3.nextSynthesisOffset = 2 ∧ ls3.analysisPeriod = 1 ∧
      ls3.synthesisPeriod = 1 := by
    simp only [LoopState.cursor, Cursor.mk.injEq] at a2
    exact a2
  obtain ⟨s1, s2, s3, s4, s5⟩ := step ls3 a3 a4 a5 n3.2.1
  rcases hb3 : Sola.loopBody testLibrary 1 12 ls3 with ⟨st4, ls4⟩
  rw [hb3] at s1 s2 s3 s4 s5
  simp only at s1 s2 s3 s4 s5
  subst s1
  have c4 : ls4.cursor = ⟨1, 2, 1, 0⟩ := by rw [s5, a2]; decide
  have n4 : ls4.nextAnalysisOffset = 1 ∧ ls4.nextSynthesisOffset = 2 ∧ ls4.analysisPeriod = 1 ∧
      ls4.synthesisPeriod = 0 := by
    simp only [LoopState.cursor, Cursor.mk.injEq] at c4
    exact c4
  obtain ⟨t1, t2, t3, t4, t5⟩ := step ls4 s2 s3 s4 n4.2.1
  rcases hb4 : Sola.loopBody testLibrary 1 12 ls4 with ⟨st5, ls5⟩
  rw [hb4] at t1 t2 t3 t4 t5
  simp only at t1 t2 t3 t4 t5
  subst t1
  have c5 : ls5.cursor = ⟨1, 2, 1, 0⟩ := by rw [t5, c4]; decide
  have n5 : ls5.nextAnalysisOffset = 1 ∧ ls5.nextSynthesisOffset = 2 ∧ ls5.analysisPeriod = 1 ∧
      ls5.synthesisPeriod = 0 := by
    simp only [LoopState.cursor, Cursor.mk.injEq] at c5
    exact c5
  have m4 := s2.nextS_eq
  have m5 := t2.nextS_eq
  have i4 := Sola.loopIter_snoc testLibrary 1 12 3 _ ls3 ls4 a1 (cond ls3 a3 a5 n3.2.1) hb3
  have i5 := Sola.loopIter_snoc testLibrary 1 12 4 _ ls4 ls5 i4 (cond ls4 s2 s4 n4.2.1) hb4
  exact ⟨_, ls3, ls4, ls5, e0, a1, ⟨cond ls3 a3 a5 n3.2.1, by omega, n3.2.1⟩, hb3, i4,
    ⟨by omega, n4.2.2.2⟩, ⟨cond ls4 s2 s4 n4.2.1, by omega, n4.2.1⟩, hb4, i5, by omega⟩

/-- C18: in a run in which every call of Process since construction had semitones = 0, a
further such call with valid arguments and fuel for 2 * frameSize iterations returns, and
after it the synthesis cursor equals the analysis cursor (same lastMarkOffset, same
lastPeriod), as it did before it; the iterations of the mark-advance loop alternate,
analysis step at the even and synthesis step at the odd ones, and the loop never stops
between an analysis step and its synthesis step; every synthesis step commits the mark the
analysis step before it committed and adds to the synthesis sample at each offset o the
analysis sample at the same offset o times the window weight of the grain at o; and the
output sample frame[c][k] is the input sample of channel c that came in
2 * maxPeriod samples earlier (from this frame when k >= 2 * maxPeriod, else from the
earlier input hist) times the sum of the window weights that the synthesis steps so far
put on it. -/
theorem pass_through_lockstep (L : Library) (hL : L.Pow2Bounded) (h0 : L.pow2 0 = 1)
    (s : Sola) (W : Int → Sample) (hist : Int → Int → Sample)
    (hs : Sola.PassThrough L s W hist) (frame : AudioBuffer) (cur : Int)
    (hpre : s.preconditions frame cur 0) (fuel : Nat) (hfuel : 2 * s.mFrameSize ≤ fuel) :
    (Sola.Process L fuel s frame cur 0).status = Status.returned ∧
    (s.mSynthesis.lastMarkOffset = s.mAnalysis.lastMarkOffset ∧
      s.mSynthesis.lastPeriod = s.mAnalysis.lastPeriod) ∧
    ((Sola.Process L fuel s frame cur 0).sola.mSynthesis.lastMarkOffset
        = (Sola.Process L fuel s frame cur 0).sola.mAnalysis.lastMarkOffset ∧
      (Sola.Process L fuel s frame cur 0).sola.mSynthesis.lastPeriod
        = (Sola.Process L fuel s frame cur 0).sola.mAnalysis.lastPeriod) ∧
    (∀ (n : Nat) (ls : LoopState),
      Sola.loopIter L cur 0 n (Sola.loopInit (s.ingest frame).2).2 = some ls →
      (n % 2 = 0 → ls.nextAnalysisOffset ≥ ls.nextSynthesisOffset) ∧
      (n % 2 = 1 → Sola.loopCond ls ∧ ls.nextAnalysisOffset < ls.nextSynthesisOffset ∧
        ls.sola.mAnalysis.lastMarkOffset = ls.nextSynthesisOffset ∧
        ls.sola.mAnalysis.lastPeriod = ls.synthesisPeriod ∧
        ∀ c o : Int, 0 ≤ c → c < s.mNumChannels → 1 ≤ o →
          o ≤ 2 * s.mMaxPeriod + s.mFrameSize →
          (Sola.synthesisStep L cur 0 ls).2.sola.mSynthesis.sampleAt c o
            = ls.sola.mSynthesis.sampleAt c o
              + grainWeight L ls.nextSynthesisOffset ls.sola.mAnalysis.lastPeriod o
                * ls.sola.mAnalysis.sampleAt c o)) ∧
    (∀ c k : Int, 0 ≤ c → c < s.mNumChannels → 0 ≤ k → k < s.mFrameSize →
      (Sola.Process L fuel s frame cur 0).frame.data c k
        = Sola.callWeights L fuel s cur W (2 * s.mMaxPeriod + s.mFrameSize - k)
          * (if 2 * s.mMaxPeriod ≤ k then frame.data c (k - 2 * s.mMaxPeriod)
              else hist c (2 * s.mMaxPeriod - k))) := by
  have hok := hs.passOk hL h0
  obtain ⟨hsh, hc⟩ := Sola.Reachable.inv hL hok.reach
  have hret := Sola.Process_returns_of_positive_period L hL s hok.reach frame cur 0 hpre
    (by rw [stretchedPeriod_zero L h0]; exact hpre.2.2.2.1) fuel hfuel
  obtain ⟨pok, pdata⟩ := hok.Process hL h0 frame cur hpre fuel hret
  refine ⟨hret, hok.lock, pok.lock, ?_, ?_⟩
  · intro n ls hn
    rw [Sola.ingest_eq s hsh frame hpre.1 hpre.2.1] at hn
    have hinv0 := hok.loopInit hL frame cur
    obtain ⟨-, -, i3⟩ := Sola.loopInit_ingested s hsh hc frame
    have hM0 : (Sola.loopInit (s.ingested frame)).2.sola.mMaxPeriod = s.mMaxPeriod := by
      rw [i3]; rfl
    have hcur : 0 < cur ∧ cur ≤ (Sola.loopInit (s.ingested frame)).2.sola.mMaxPeriod := by
      rw [hM0]; exact hpre.2.2.2
    obtain ⟨⟨W', pw⟩, r2, -⟩ :=
      Sola.loopIter_pass L hL h0 cur _ n _ ls _ hinv0 hcur hn
    obtain ⟨t1, t2⟩ := r2 (hok.loopInit_lock frame)
    obtain ⟨-, cfg⟩ := Sola.loopIter_config L hL cur 0 ⟨by norm_num, by norm_num⟩ n _ ls
      hinv0.inv hcur hn
    rw [i3] at cfg
    have enc : ls.sola.mNumChannels = s.mNumChannels := by
      have := cfg; simp only [Sola.config, List.cons.injEq] at this; exact this.1
    have ecS : ls.sola.mSynthesis.numSamples = s.mSynthesis.numSamples := by
      have := cfg; simp only [Sola.config, List.cons.injEq] at this; exact this.2.2.2.2.1
    have hcapS := hsh.synthesis_cap
    refine ⟨fun hn0 => le_of_eq (t1 hn0).symm, fun hn1 => ?_⟩
    have hlt := t2 hn1
    have hcond : Sola.loopCond ls := by
      rcases pw.lock with hl | hl
      · exfalso; omega
      · unfold Sola.loopCond
        rw [pw.inv.shaped.searchRange_end]
        exact Or.inr hl.1
    obtain ⟨g1, g2⟩ := pw.grain hcond hlt
    refine ⟨hcond, hlt, g1.1, g1.2, ?_⟩
    intro c o hc0 hc1 ho0 ho1
    exact g2 c o hc0 (by rw [enc]; exact hc1) ho0 (by rw [ecS]; omega)
  · intro c k hc0 hc1 hk0 hk1
    rw [pdata c k hc0 hc1 hk0 hk1]
    congr 1
    unfold pushHistory
    by_cases hk : 2 * s.mMaxPeriod ≤ k
    · rw [if_pos hk, if_pos (by omega)]
      congr 1
      omega
    · rw [if_neg hk, if_neg (by omega)]
      congr 1
      omega

/-- Witness for C18: the first call on the engine Sola(1, 2, 1), with the period 1 and ten
units of fuel; before it no input came in and no weight was placed. -/
theorem pass_through_lockstep_witness :
    (Sola.Process testLibrary 10 testEngine testFrame 1 0).status = Status.returned ∧
    (testEngine.mSynthesis.lastMarkOffset = testEngine.mAnalysis.lastMarkOffset ∧
      testEngine.mSynthesis.lastPeriod = testEngine.mAnalysis.lastPeriod) ∧
    ((Sola.Process testLibrary 10 testEngine testFrame 1 0).sola.mSynthesis.lastMarkOffset
        = (Sola.Process testLibrary 10 testEngine testFrame 1 0).sola.mAnalysis.lastMarkOffset ∧
      (Sola.Process testLibrary 10 testEngine testFrame 1 0).sola.mSynthesis.lastPeriod
        = (Sola.Process testLibrary 10 testEngine testFrame 1 0).sola.mAnalysis.lastPeriod) ∧
    (∀ (n : Nat) (ls : LoopState),
      Sola.loopIter testLibrary 1 0 n (Sola.loopInit (testEngine.ingest testFrame).2).2
        = some ls →
      (n % 2 = 0 → ls.nextAnalysisOffset ≥ ls.nextSynthesisOffset) ∧
      (n % 2 = 1 → Sola.loopCond ls ∧ ls.nextAnalysisOffset < ls.nextSynthesisOffset ∧
        ls.sola.mAnalysis.lastMarkOffset = ls.nextSynthesisOffset ∧
        ls.sola.mAnalysis.lastPeriod = ls.synthesisPeriod ∧
        ∀ c o : Int, 0 ≤ c → c < testEngine.mNumChannels → 1 ≤ o →
          o ≤ 2 * testEngine.mMaxPeriod + testEngine.mFrameSize →
          (Sola.synthesisStep testLibrary 1 0 ls).2.sola.mSynthesis.sampleAt c o
            = ls.sola.mSynthesis.sampleAt c o
              + grainWeight testLibrary ls.nextSynthesisOffset ls.sola.mAnalysis.lastPeriod o
                * ls.sola.mAnalysis.sampleAt c o)) ∧
    (∀ c k : Int, 0 ≤ c → c < testEngine.mNumChannels → 0 ≤ k → k < testEngine.mFrameSize →
      (Sola.Process testLibrary 10 testEngine testFrame 1 0).frame.data c k
        = Sola.callWeights testLibrary 10 testEngine 1 (fun _ => 0)
            (2 * testEngine.mMaxPeriod + testEngine.mFrameSize - k)
          * (if 2 * testEngine.mMaxPeriod ≤ k then
              testFrame.data c (k - 2 * testEngine.mMaxPeriod)
            else (fun _ _ => (0 : Sample)) c (2 * testEngine.mMaxPeriod - k))) :=
  pass_through_lockstep testLibrary testLibrary_pow2Bounded testLibrary_pow2_zero testEngine
    (fun _ => 0) (fun _ _ => 0) (Sola.PassThrough.init 1 2 1 testEngine testEngine_new)
    testFrame 1 (by decide) 10 (by decide)

/-- C19: if frameSize >= 2 * maxPeriod, then every call of Process from a reachable engine
state that satisfies the preconditions and returns executes at least one analysis step
(some loop state reached in the call passes the loop test and takes the analysis branch,
which commits an analysis mark), leaves the analysis mark below the one it found, and ends
with analysis.lastPeriod equal to the currentFramePeriod of that call. -/
theorem Process_adopts_caller_period (L : Library) (hL : L.Pow2Bounded) (s : Sola)
    (hs : Sola.Reachable L s) (hFM : s.mFrameSize ≥ 2 * s.mMaxPeriod)
    (frame : AudioBuffer) (cur : Int) (sem : ℚ) (hpre : s.preconditions frame cur sem)
    (fuel : Nat) (hret : (Sola.Process L fuel s frame cur sem).status = Status.returned) :
    (∃ (n : Nat) (ls0 ls : LoopState),
      Sola.loopInit (s.ingest frame).2 = (Status.returned, ls0) ∧
      Sola.loopIter L cur sem n ls0 = some ls ∧ Sola.loopCond ls ∧
      ls.nextAnalysisOffset ≥ ls.nextSynthesisOffset) ∧
    (Sola.Process L fuel s frame cur sem).sola.mAnalysis.lastMarkOffset
      < s.mAnalysis.lastMarkOffset + s.mFrameSize ∧
    (Sola.Process L fuel s frame cur sem).sola.mAnalysis.lastPeriod = cur := by
  obtain ⟨hsh, hc⟩ := Sola.Reachable.inv hL hs
  have hpre' := hpre
  obtain ⟨hfc, hfs, hsem, hcur⟩ := hpre
  obtain ⟨p1, p2⟩ := Sola.Process_cursor L hL s hsh hc frame cur sem hpre' fuel
  have a1 := hc.aMark_lo
  have a2 := hc.aMark_hi
  have a3 := hc.aPeriod_pos
  have a4 := hc.aPeriod_le
  have hM := hsh.maxPeriod_pos
  rcases hcl : cursorLoop s.mFrameSize s.mMaxPeriod cur (stretchedPeriod L cur sem) fuel
    s.entryCursor with _ | c
  · rw [p1 hcl] at hret
    exact absurd hret (by decide)
  obtain ⟨-, q2, q3, -, -⟩ := p2 c hcl
  have hanP : c.anP = cur :=
    cursorLoop_anP s.mFrameSize s.mMaxPeriod cur _ hFM hcur.2 fuel s.entryCursor c
      (by simp only [Sola.entryCursor]; exact a4)
      (Or.inr (by simp only [Sola.entryCursor]; omega)) hcl
  obtain ⟨i1, i2, i3⟩ := Sola.loopInit_ingested s hsh hc frame
  have e0 : Sola.loopInit (s.ingest frame).2
      = (Status.returned, (Sola.loopInit (s.ingested frame)).2) := by
    rw [Sola.ingest_eq s hsh frame hfc hfs]
    exact Prod.ext i1 rfl
  have hM0 : (Sola.loopInit (s.ingested frame)).2.sola.mMaxPeriod = s.mMaxPeriod := by
    rw [i3]; rfl
  have hF0 : (Sola.loopInit (s.ingested frame)).2.sola.mFrameSize = s.mFrameSize := by
    rw [i3]; rfl
  have hnA : s.entryCursor.nextA > s.mMaxPeriod := by
    simp only [Sola.entryCursor]; omega
  obtain ⟨n, cn, j1, j2, j3⟩ := cursorLoop_analysis_step s.mFrameSize s.mMaxPeriod cur _ fuel
    s.entryCursor c hnA hcl
  obtain ⟨ls, l1, l2, l3, l4⟩ := Sola.loopIter_of_cursor L hL cur sem hsem n _ i2
    (by rw [hM0]; exact hcur) cn
    (by rw [hF0, hM0, Sola.loopInit_cursor]; exact j1)
  have hend := l3.shaped.searchRange_end
  have hMl : ls.sola.mMaxPeriod = s.mMaxPeriod := by
    rw [Sola.config_maxPeriod l4, hM0]
  subst l2
  refine ⟨⟨n, _, ls, e0, l1, ?_, j3⟩, ?_, ?_⟩
  · unfold Sola.loopCond
    rw [hend, hMl]
    exact j2
  · rw [q2, hanP]
    have := (cursorLoop_exit _ _ _ _ fuel _ c hcl).1
    omega
  · rw [q3, hanP]

/-- Witness for C19: the first call on the engine Sola(1, 4, 2), where frameSize = 4 and
maxPeriod = 2, with the period 1 and ten units of fuel: the analysis period 2 of the
constructor is replaced by 1. -/
theorem Process_adopts_caller_period_witness :
    testEngine42.mAnalysis.lastPeriod = 2 ∧
    (∃ (n : Nat) (ls0 ls : LoopState),
      Sola.loopInit (testEngine42.ingest testFrame4).2 = (Status.returned, ls0) ∧
      Sola.loopIter testLibrary 1 0 n ls0 = some ls ∧ Sola.loopCond ls ∧
      ls.nextAnalysisOffset ≥ ls.nextSynthesisOffset) ∧
    (Sola.Process testLibrary 10 testEngine42 testFrame4 1 0).sola.mAnalysis.lastMarkOffset
      < testEngine42.mAnalysis.lastMarkOffset + testEngine42.mFrameSize ∧
    (Sola.Process testLibrary 10 testEngine42 testFrame4 1 0).sola.mAnalysis.lastPeriod = 1 :=
  ⟨by decide, Process_adopts_caller_period testLibrary testLibrary_pow2Bounded testEngine42
    (Sola.Reachable.init 1 4 2 testEngine42 testEngine42_new) (by decide) testFrame4 1 0
    (by decide) 10 testEngine42_returns⟩

/-- C20: if frameSize <= maxPeriod, then in every reachable engine state both cursors have
lastPeriod = maxPeriod; in a call of Process from such a state that satisfies the
preconditions every loop state has both working periods equal to maxPeriod and the mark that
a loop iteration commits lies above frameSize, so the period updates of lines 93-94 and
144-147 never run; and the result of the call (status, engine state and output frame) is
the same for any two argument pairs (currentFramePeriod, semitones) that satisfy the
preconditions. -/
theorem small_frame_ignores_arguments (L : Library) (hL : L.Pow2Bounded) (s : Sola)
    (hs : Sola.Reachable L s) (hFM : s.mFrameSize ≤ s.mMaxPeriod) (frame : AudioBuffer)
    (cur cur' : Int) (sem sem' : ℚ) (hpre : s.preconditions frame cur sem)
    (hpre' : s.preconditions frame cur' sem') (fuel : Nat) :
    (s.mAnalysis.lastPeriod = s.mMaxPeriod ∧ s.mSynthesis.lastPeriod = s.mMaxPeriod) ∧
    (∀ (n : Nat) (ls : LoopState),
      Sola.loopIter L cur sem n (Sola.loopInit (s.ingest frame).2).2 = some ls →
      (ls.analysisPeriod = s.mMaxPeriod ∧ ls.synthesisPeriod = s.mMaxPeriod) ∧
      (Sola.loopCond ls →
        (ls.nextAnalysisOffset ≥ ls.nextSynthesisOffset →
          ls.nextAnalysisOffset > s.mFrameSize) ∧
        (ls.nextAnalysisOffset < ls.nextSynthesisOffset →
          ls.nextSynthesisOffset > s.mFrameSize))) ∧
    Sola.Process L fuel s frame cur sem = Sola.Process L fuel s frame cur' sem' := by
  obtain ⟨hsh, hc⟩ := Sola.Reachable.inv hL hs
  obtain ⟨hfc, hfs, hsem, hcur⟩ := id hpre
  obtain ⟨p1, p2⟩ := Sola.Reachable.periods_fixed hL hs hFM
  refine ⟨⟨p1, p2⟩, ?_, Sola.Process_indep L hL s hsh hc hFM frame cur cur' sem sem' hpre hpre'
    fuel⟩
  intro n ls hn
  rw [Sola.ingest_eq s hsh frame hfc hfs] at hn
  obtain ⟨i1, i2, i3⟩ := Sola.loopInit_ingested s hsh hc frame
  have hM0 : (Sola.loopInit (s.ingested frame)).2.sola.mMaxPeriod = s.mMaxPeriod := by
    rw [i3]; rfl
  have hF0 : (Sola.loopInit (s.ingested frame)).2.sola.mFrameSize = s.mFrameSize := by
    rw [i3]; rfl
  obtain ⟨l1, l2⟩ := Sola.loopIter_config L hL cur sem hsem n _ ls i2
    (by rw [hM0]; exact hcur) hn
  have hm := Sola.loopIter_cursor L hL cur sem hsem s.mFrameSize s.mMaxPeriod n _ i2
    (by rw [hM0]; exact hcur) hF0 hM0
  rw [hn, Sola.loopInit_cursor] at hm
  obtain ⟨k1, k2⟩ := cursorIter_periods _ _ _ _ hFM n _ ls.cursor hm.symm
  have eM : ls.sola.mMaxPeriod = s.mMaxPeriod := by rw [Sola.config_maxPeriod l2, hM0]
  have eF : ls.sola.mFrameSize = s.mFrameSize := by rw [Sola.config_frameSize l2, hF0]
  refine ⟨⟨k1.trans p1, k2.trans p2⟩, fun hcond => ?_⟩
  have := l1.commit_above_frame (by rw [eM, eF]; exact hFM) hcond
  rw [eF] at this
  exact this

/-- Witness for C20: the first call on the engine Sola(1, 2, 2), where frameSize = 2 and
maxPeriod = 2, with the arguments (1, 12) and (2, -12) and ten units of fuel. -/
theorem small_frame_ignores_arguments_witness :
    (testEngine22.mAnalysis.lastPeriod = testEngine22.mMaxPeriod ∧
      testEngine22.mSynthesis.lastPeriod = testEngine22.mMaxPeriod) ∧
    (∀ (n : Nat) (ls : LoopState),
      Sola.loopIter testLibrary 1 12 n (Sola.loopInit (testEngine22.ingest testFrame).2).2
        = some ls →
      (ls.analysisPeriod = testEngine22.mMaxPeriod ∧
        ls.synthesisPeriod = testEngine22.mMaxPeriod) ∧
      (Sola.loopCond ls →
        (ls.nextAnalysisOffset ≥ ls.nextSynthesisOffset →
          ls.nextAnalysisOffset > testEngine22.mFrameSize) ∧
        (ls.nextAnalysisOffset < ls.nextSynthesisOffset →
          ls.nextSynthesisOffset > testEngine22.mFrameSize))) ∧
    Sola.Process testLibrary 10 testEngine22 testFrame 1 12
      = Sola.Process testLibrary 10 testEngine22 testFrame 2 (-12) :=
  small_frame_ignores_arguments testLibrary testLibrary_pow2Bounded testEngine22
    (Sola.Reachable.init 1 2 2 testEngine22 testEngine22_new) (by decide) testFrame
    1 2 12 (-12) (by decide) (by decide) 10

end TD_pitch_shift
